import Mathlib

/-! # claude-squad: dashboard loop, workspace and diff

A shallow embedding of the parts of `app/app.go`, `keys/keys.go`,
`ui/tabbed_window.go`, `ui/diff.go`, `ui/err.go`, `session/git/diff.go` and
`session/git/worktree_ops.go` that the dashboard, diff and workspace properties
talk about.

Conventions of the embedding:

* Go pointers to sessions are modelled by the `ptr` field of `Instance`:
  `instance == selected` in Go is `ptr` equality here.
* A handler that mutates a session through its pointer is a function returning
  the updated `Instance`.
* `time.Time` and `time.Duration` are integers counting nanoseconds.
* A Go `error` is its message text; `nil` is `none`.
* Results of collaborators that are not part of the sources (git, storage,
  the session package) are explicit arguments of the handler that consumes
  them.
-/

namespace ClaudeSquad

/-! ## Sessions (`session.Instance`, as far as `app.go` uses it) -/

/-- The text of a Go `error` value. -/
abbrev GoError := String

deriving instance DecidableEq for Except

/-- Session status, `session.Status`. -/
inductive Status where
  | Running
  | Ready
  | Loading
  | Paused
  deriving DecidableEq, Repr

/-- The fields of `session.Instance` read or written by the dashboard.
`enterTaps` counts the Enter key presses delivered to the session's pane. -/
structure Instance where
  ptr : Nat
  Title : String
  Status : ClaudeSquad.Status
  AutoYes : Bool
  DirectMode : Bool
  DirectBranch : String
  Branch : String
  Path : String
  Program : String
  CreatedAt : Int
  started : Bool
  enterTaps : Nat
  deriving DecidableEq, Repr

/-- Modelled from the spec: `Instance.Started` is not in the sources; it reports
the `started` flag of the data model. -/
def Instance.Started (i : Instance) : Bool := i.started

/-- Modelled from the spec: `Instance.Paused` is not in the sources; a session is
paused when its status is `Paused`. -/
def Instance.Paused (i : Instance) : Bool := decide (i.Status = ClaudeSquad.Status.Paused)

/-- Modelled from the spec: `Instance.SetStatus` is not in the sources;
"Status ← s" stores the status. -/
def Instance.SetStatus (i : Instance) (s : ClaudeSquad.Status) : Instance := { i with Status := s }

/-- Modelled from the spec: `Instance.TapEnter` is not in the sources; the AutoYes
flag "causes the Dashboard to auto-acknowledge detected prompts by injecting
Enter", so the Enter press reaches the pane only for an AutoYes session, and
the status is not touched. -/
def Instance.TapEnter (i : Instance) : Instance :=
  if i.AutoYes then { i with enterTaps := i.enterTaps + 1 } else i

/-! ## Keys (`keys/keys.go`) -/

/-- The key names, `keys.KeyName`. -/
inductive KeyName where
  | KeyUp | KeyDown | KeyEnter | KeyNew | KeyKill | KeyQuit | KeyReview | KeyPush | KeySubmit
  | KeyTab | KeySubmitName | KeyCheckout | KeyResume | KeyPrompt | KeyHelp
  | KeyShiftUp | KeyShiftDown
  | KeyPgUp | KeyPgDn | KeyHome | KeyEnd | KeyGoTop | KeyGoBottom | KeyHalfUp | KeyHalfDown
  | KeyFilePrev | KeyFileNext | KeyHunkPrev | KeyHunkNext
  | KeyNum1 | KeyNum2 | KeyNum3 | KeyNum4 | KeyNum5 | KeyNum6 | KeyNum7 | KeyNum8 | KeyNum9
  | KeyNum0
  deriving DecidableEq, Repr

/-- The entries of `keys.GlobalKeyStringsMap`. -/
def globalKeyStrings : List (String × KeyName) :=
  [("up", .KeyUp), ("k", .KeyUp), ("down", .KeyDown), ("j", .KeyDown),
   ("shift+up", .KeyShiftUp), ("shift+down", .KeyShiftDown), ("N", .KeyPrompt),
   ("enter", .KeyEnter), ("o", .KeyEnter), ("n", .KeyNew), ("D", .KeyKill), ("q", .KeyQuit),
   ("tab", .KeyTab), ("c", .KeyCheckout), ("r", .KeyResume), ("p", .KeySubmit), ("?", .KeyHelp),
   ("pgup", .KeyPgUp), ("pgdown", .KeyPgDn), ("home", .KeyHome), ("end", .KeyEnd),
   ("g", .KeyGoTop), ("G", .KeyGoBottom), ("ctrl+u", .KeyHalfUp), ("ctrl+d", .KeyHalfDown),
   ("[", .KeyHunkPrev), ("]", .KeyHunkNext), ("\x7b", .KeyFilePrev), ("\x7d", .KeyFileNext),
   ("1", .KeyNum1), ("2", .KeyNum2), ("3", .KeyNum3), ("4", .KeyNum4), ("5", .KeyNum5),
   ("6", .KeyNum6), ("7", .KeyNum7), ("8", .KeyNum8), ("9", .KeyNum9), ("0", .KeyNum0)]

/-- The lookup `keys.GlobalKeyStringsMap[s]`; `none` when `ok` is false. -/
def GlobalKeyStringsMap (s : String) : Option KeyName :=
  (globalKeyStrings.find? (fun e => e.1 == s)).map Prod.snd

/-- The key types of `tea.KeyMsg` that `app.go` distinguishes; any other key is
`KeyOther` with the text `msg.String()` gives for it. -/
inductive KeyType where
  | KeyRunes
  | KeyEnter
  | KeyBackspace
  | KeySpace
  | KeyEsc
  | KeyCtrlC
  | KeyOther (name : String)
  deriving DecidableEq, Repr

/-- A key event, `tea.KeyMsg`; `Typ` is its field `Type`. -/
structure KeyMsg where
  Typ : KeyType
  Runes : List Char
  deriving DecidableEq, Repr

/-- The text `msg.String()` of a key event (bubbletea's key names). -/
def KeyMsg.String (msg : KeyMsg) : String :=
  match msg.Typ with
  | .KeyRunes => String.mk msg.Runes
  | .KeyEnter => "enter"
  | .KeyBackspace => "backspace"
  | .KeySpace => " "
  | .KeyEsc => "esc"
  | .KeyCtrlC => "ctrl+c"
  | .KeyOther name => name

/-! ## Commands returned by the update loop -/

/-- The `tea.Cmd` values built in `app.go`, named after what they yield.
`tmuxStatusCmd p` is `makeTmuxStatusCmd` applied to the session with pointer
`p`; `resendKey msg` is `func() tea.Msg { return msg }`; `keyupCmd` is the
command of `keydownCallback`; `windowSizeThenMenuDefault` is the
`tea.Sequence` of `tea.WindowSize()` and the closure that sets the menu state
to `ui.StateDefault`. A `nil` command or an empty batch is the empty list. -/
inductive Cmd where
  | tmuxStatusCmd (inst : Nat)
  | gitDiffCmd (inst : Nat)
  | tickUpdateMetadataCmd
  | previewTickCmd
  | diffWatchPollCmd
  | hideErrCmd
  | resendKey (msg : KeyMsg)
  | keyupCmd
  | windowSize
  | windowSizeThenMenuDefault
  | quit
  deriving DecidableEq, Repr

/-- Whether a command is a status probe. -/
def Cmd.isStatusProbe : Cmd → Bool
  | Cmd.tmuxStatusCmd _ => true
  | _ => false

/-! ## Metadata tick (`home.Update`, case `tickUpdateMetadataMessage`) -/

/-- The constant `maxScheduled` of the metadata tick. -/
def maxScheduled : Nat := 4

/-- Five seconds as a `time.Duration` (nanoseconds). `now.Sub(t)` saturates at the
ends of the 64-bit range, which does not change its comparison with this
value, so the difference is taken over the integers. -/
def warmupWindow : Int := 5 * 1000000000

/-- One iteration of the loop over `m.list.GetInstances()`: the loop variables
are the command slice `cmds` and the counter `scheduled`. -/
def metadataTickStep (selected : Option Nat) (now : Int)
    (acc : List Cmd × Nat) (inst : Instance) : List Cmd × Nat :=
  if !inst.Started || inst.Paused then acc
  else
    let warmup := decide (now - inst.CreatedAt < warmupWindow)
    let shouldProcess := decide (some inst.ptr = selected) || inst.AutoYes || warmup
    if shouldProcess && decide (acc.2 < maxScheduled) then
      (acc.1 ++ [Cmd.tmuxStatusCmd inst.ptr], acc.2 + 1)
    else acc

/-- The whole loop of the metadata tick, started with `cmds = nil` and
`scheduled = 0`. -/
def metadataTickLoop (selected : Option Nat) (now : Int) (instances : List Instance) :
    List Cmd × Nat :=
  instances.foldl (metadataTickStep selected now) ([], 0)

/-- The batch returned for a `tickUpdateMetadataMessage`:
`tea.Batch(append(cmds, tickUpdateMetadataCmd)...)`. `selected` is the pointer
of `m.list.GetSelectedInstance()` (`none` for nil), `now` is `time.Now()`. -/
def updateMetadataTick (selected : Option Nat) (now : Int) (instances : List Instance) :
    List Cmd :=
  (metadataTickLoop selected now instances).1 ++ [Cmd.tickUpdateMetadataCmd]

/-- Number of status probes in a batch. -/
def probeCount (cmds : List Cmd) : Nat := cmds.countP Cmd.isStatusProbe

/-! ## Status probe results (`home.Update`, case `tmuxStatusMsg`) -/

/-- The message `tmuxStatusMsg`; its `instance` pointer is passed to the handler
as the session it points to. -/
structure TmuxStatusMsg where
  updated : Bool
  prompt : Bool
  err : Option GoError
  deriving DecidableEq, Repr

/-- The case `tmuxStatusMsg` of `home.Update`: the session `msg.instance` after
the handler ran. The returned command is `nil` on every path. -/
def updateTmuxStatus (inst : Instance) (msg : TmuxStatusMsg) : Instance :=
  match msg.err with
  | some _ => inst
  | none =>
    if msg.updated then inst.SetStatus Status.Running
    else if msg.prompt then inst.TapEnter
    else inst.SetStatus Status.Ready

/-! ## The session list (`ui.List`) -/

/-- The session list: its items in order and the selection cursor. -/
structure SessionList where
  items : List Instance
  selectedIdx : Nat
  deriving DecidableEq, Repr

/-- Modelled from the spec: `List.NumInstances` is not in the sources; it is the
number of sessions of the ordered collection. -/
def SessionList.NumInstances (l : SessionList) : Nat := l.items.length

/-- Modelled from the spec: `List.GetInstances` is not in the sources; it is the
ordered collection. -/
def SessionList.GetInstances (l : SessionList) : List Instance := l.items

/-- Modelled from the spec: `List.GetSelectedInstance` is not in the sources; the
session under the selection cursor, nil for an empty list. -/
def SessionList.GetSelectedInstance (l : SessionList) : Option Instance :=
  l.items.get? l.selectedIdx

/-- Modelled from the spec: `List.AddInstance` is not in the sources; "insertion"
puts the session at the end of the ordered collection (the dashboard reads the
provisional session back as the last item) and returns a finalizer. -/
def SessionList.AddInstance (l : SessionList) (inst : Instance) : SessionList :=
  { l with items := l.items ++ [inst] }

/-- Modelled from the spec: `List.SetSelectedInstance` is not in the sources;
"clamps to range, no-op if empty". -/
def SessionList.SetSelectedInstance (l : SessionList) (idx : Int) : SessionList :=
  if l.items.length = 0 then l
  else { l with selectedIdx := (min (max idx 0) ((l.items.length : Int) - 1)).toNat }

/-- Modelled from the spec: `List.Kill` is not in the sources; it kills the
selected session and removes it from the list, the cursor staying in range. -/
def SessionList.Kill (l : SessionList) : SessionList :=
  if l.items.length = 0 then l
  else { items := l.items.eraseIdx l.selectedIdx,
         selectedIdx := min l.selectedIdx (l.items.length - 2) }

/-! ## The tabbed window (`ui/tabbed_window.go`) -/

/-- The constant `PreviewTab`. -/
def PreviewTab : Nat := 0

/-- The constant `DiffTab`. -/
def DiffTab : Nat := 1

/-- The fields of `ui.TabbedWindow` the dashboard depends on: the tab names, the
active tab and the pointer of the session set by `SetInstance` (`none` for
nil). The panes and the sizes are not part of the record. -/
structure TabbedWindow where
  tabs : List String
  activeTab : Nat
  inst : Option Nat
  deriving DecidableEq, Repr

/-- The constructor `NewTabbedWindow`. -/
def NewTabbedWindow : TabbedWindow := { tabs := ["Preview", "Diff"], activeTab := 0, inst := none }

/-- The method `TabbedWindow.SetInstance`. -/
def TabbedWindow.SetInstance (w : TabbedWindow) (inst : Option Nat) : TabbedWindow :=
  { w with inst := inst }

/-- The method `TabbedWindow.IsInDiffTab`. -/
def TabbedWindow.IsInDiffTab (w : TabbedWindow) : Bool := decide (w.activeTab = 1)

/-- The method `TabbedWindow.GetActiveTab`. -/
def TabbedWindow.GetActiveTab (w : TabbedWindow) : Nat := w.activeTab

/-- The method `TabbedWindow.UpdatePreview`: nil outside the preview tab, else
the result `updateContent` of `w.preview.UpdateContent(instance)`. -/
def TabbedWindow.UpdatePreview (w : TabbedWindow) (updateContent : Option GoError) :
    Option GoError :=
  if w.activeTab ≠ PreviewTab then none else updateContent

/-! ## The dashboard (`home`) -/

/-- The constant `GlobalInstanceLimit`. -/
def GlobalInstanceLimit : Nat := 10

/-- The dashboard state, `state`. `stateNew` is the spec's NewInstanceNaming. -/
inductive State where
  | stateDefault
  | stateNew
  | statePrompt
  | stateHelp
  | stateConfirm
  deriving DecidableEq, Repr

/-- The menu states set through `m.menu.SetState`. -/
inductive MenuState where
  | StateDefault
  | StateNewInstance
  | StatePrompt
  deriving DecidableEq, Repr

/-- The action stored by `confirmAction`: the closure `killAction` or
`pushAction` together with the session `selected` it captured. -/
inductive Action where
  | killAction (selected : Instance)
  | pushAction (selected : Instance)
  deriving DecidableEq, Repr

/-- The confirmation overlay as `confirmAction` builds it: its message and the
action its `OnConfirm` callback closes over (`none` for a nil action). -/
structure ConfirmationOverlay where
  message : String
  width : Nat
  action : Option Action
  deriving DecidableEq, Repr

/-- The fields of `home` that the modelled handlers read or write. `storage` is
the list of titles held by `session.Storage`; `errBox` is the error shown by
`ui.ErrBox` (`none` when cleared); `newInstanceFinalizer` is the pointer of the
session whose finalizer is stored; `menuKeydown` is the name last passed to
`m.menu.Keydown`; `diffWatchInst` is the pointer of the watched session;
`textInputOverlay` is the title of the text input overlay (`none` for nil). -/
structure Home where
  program : String
  autoYes : Bool
  directMode : Bool
  directBranch : String
  storage : List String
  state : State
  newInstanceFinalizer : Option Nat
  promptAfterName : Bool
  keySent : Bool
  list : SessionList
  menuState : MenuState
  menuKeydown : Option KeyName
  errBox : Option GoError
  confirmationOverlay : Option ConfirmationOverlay
  tabbedWindow : TabbedWindow := NewTabbedWindow
  diffWatchInst : Option Nat := none
  diffWatchActive : Bool := false
  diffWatchLastDirty : Bool := false
  textInputOverlay : Option String := none
  deriving DecidableEq, Repr

/-- The method `home.handleError`: `m.errBox.SetError(err)`, and the returned
command yields `hideErrMsg` after 3 seconds. -/
def Home.handleError (m : Home) (err : GoError) : Home × List Cmd :=
  ({ m with errBox := some err }, [Cmd.hideErrCmd])

/-- The options of `session.NewInstance`, `session.InstanceOptions`. -/
structure InstanceOptions where
  Title : String
  Path : String
  Program : String
  DirectMode : Bool
  DirectBranch : String
  deriving DecidableEq, Repr

/-- The options both new-session cases pass to `session.NewInstance`. -/
def Home.newInstanceOptions (m : Home) : InstanceOptions :=
  { Title := "", Path := ".", Program := m.program,
    DirectMode := m.directMode, DirectBranch := m.directBranch }

/-- The text of `fmt.Errorf("you can't create more than %d instances", GlobalInstanceLimit)`. -/
def instanceLimitError : GoError :=
  "you can't create more than " ++ toString GlobalInstanceLimit ++ " instances"

/-- The cases `keys.KeyPrompt` (`promptVariant = true`, key `N`) and `keys.KeyNew`
(`promptVariant = false`, key `n`) of `home.handleKeyPress`. `newInstance` is
the behaviour of `session.NewInstance`. -/
def Home.keyNewCase (promptVariant : Bool)
    (newInstance : InstanceOptions → Except GoError Instance) (m : Home) : Home × List Cmd :=
  if m.list.NumInstances ≥ GlobalInstanceLimit then
    m.handleError instanceLimitError
  else
    match newInstance m.newInstanceOptions with
    | .error err => m.handleError err
    | .ok inst =>
      let list1 := m.list.AddInstance inst
      let list2 := list1.SetSelectedInstance ((list1.NumInstances : Int) - 1)
      ({ m with
          newInstanceFinalizer := some inst.ptr
          list := list2
          state := State.stateNew
          menuState := MenuState.StateNewInstance
          promptAfterName := if promptVariant then true else m.promptAfterName }, [])

/-- Modelled from the spec: `session.NewInstance` is not in the sources; it
"validates: non-empty Program; DirectMode implies DirectBranch", "sets
Status=Ready" and "for DirectMode, stamps Branch=DirectBranch". The text of the
direct-mode error is the one `TestNewInstanceDirectMode` expects; the spec gives
no text for the empty-program error. `ptr` and `now` are the fresh pointer and
the clock. -/
def NewInstance (ptr : Nat) (now : Int) (opts : InstanceOptions) : Except GoError Instance :=
  if opts.Program = "" then .error "program is empty"
  else if opts.DirectMode && opts.DirectBranch == "" then
    .error "direct mode requires a branch name"
  else
    .ok { ptr := ptr, Title := opts.Title, Status := Status.Ready, AutoYes := false,
          DirectMode := opts.DirectMode, DirectBranch := opts.DirectBranch,
          Branch := if opts.DirectMode then opts.DirectBranch else "",
          Path := opts.Path, Program := opts.Program, CreatedAt := now,
          started := false, enterTaps := 0 }

/-! ## Menu highlighting (`home.handleMenuHighlighting`) -/

/-- The method `home.handleMenuHighlighting`: the dashboard afterwards, the
returned command and `returnEarly`. -/
def Home.handleMenuHighlighting (m : Home) (msg : KeyMsg) : Home × List Cmd × Bool :=
  if m.keySent then ({ m with keySent := false }, [], false)
  else if m.state = State.statePrompt ∨ m.state = State.stateHelp
      ∨ m.state = State.stateConfirm then (m, [], false)
  else
    match GlobalKeyStringsMap msg.String with
    | none => (m, [], false)
    | some name =>
      if (match m.list.GetSelectedInstance with
          | some sel => sel.Paused && decide (name = KeyName.KeyEnter)
          | none => false) then (m, [], false)
      else if name = KeyName.KeyShiftDown ∨ name = KeyName.KeyShiftUp then (m, [], false)
      else
        let name := if name = KeyName.KeyEnter ∧ m.state = State.stateNew
          then KeyName.KeySubmitName else name
        ({ m with keySent := true, menuKeydown := some name },
          [Cmd.resendKey msg, Cmd.keyupCmd], true)

/-! ## Naming a new session (`home.handleKeyPress`, state `stateNew`) -/

/-- Go's `len` of a string: its number of bytes. -/
def goLen (s : String) : Nat := s.utf8ByteSize

/-- The slice `s[:len(s)-1]` of a non-empty string. Go cuts one byte; the model
keeps titles valid text and cuts the last character, which is the same string
whenever that character is a one-byte (ASCII) one. -/
def goDropLastByte (s : String) : String := String.mk s.data.dropLast

/-- Modelled from the spec: `Instance.SetTitle` is not in the sources; in the
naming flow "keystrokes build title", so it stores the title it is given. -/
def Instance.SetTitle (i : Instance) (title : String) : Except GoError Instance :=
  .ok { i with Title := title }

/-- Writes back the provisional session, the last item of the list, after a
mutation through its pointer. -/
def SessionList.setLast (l : SessionList) (inst : Instance) : SessionList :=
  { l with items := l.items.dropLast ++ [inst] }

/-- The outcome of `instance.SetTitle(title)` inside the `stateNew` switch: on an
error the handler returns `m.handleError(err)`, otherwise it falls out of the
switch and returns `m, nil`. -/
def Home.applySetTitle (m : Home) (inst : Instance) (title : String) : Home × List Cmd :=
  match inst.SetTitle title with
  | .error err => m.handleError err
  | .ok inst1 => ({ m with list := m.list.setLast inst1 }, [])

/-- The part of `home.handleKeyPress` that runs in state `stateNew` for the key
types that edit the title (`tea.KeyRunes`, `tea.KeyBackspace`, `tea.KeySpace`),
for a key printing as "ctrl+c" and for the key types of the `default` case,
after `handleMenuHighlighting`. The result is `none` for `tea.KeyEnter` and
`tea.KeyEsc`, whose cases are not part of this function, and when the list is
empty, where `GetInstances()[NumInstances()-1]` panics. -/
def Home.handleKeyPressStateNew (m : Home) (msg : KeyMsg) : Option (Home × List Cmd) :=
  match m.handleMenuHighlighting msg with
  | (m1, cmd, true) => some (m1, cmd)
  | (m1, _, false) =>
    if msg.String = "ctrl+c" then
      some ({ m1 with state := State.stateDefault, promptAfterName := false,
                      list := m1.list.Kill }, [Cmd.windowSizeThenMenuDefault])
    else
      match m1.list.GetInstances.getLast? with
      | none => none
      | some inst =>
        match msg.Typ with
        | .KeyEnter => none
        | .KeyEsc => none
        | .KeyRunes =>
          if goLen inst.Title ≥ 32 then
            some (m1.handleError "title cannot be longer than 32 characters")
          else some (m1.applySetTitle inst (inst.Title ++ String.mk msg.Runes))
        | .KeyBackspace =>
          if goLen inst.Title = 0 then some (m1, [])
          else some (m1.applySetTitle inst (goDropLastByte inst.Title))
        | .KeySpace => some (m1.applySetTitle inst (inst.Title ++ " "))
        | _ => some (m1, [])

/-- A sequence of key events handled one after the other in state `stateNew`;
the commands returned on the way are dropped. -/
def Home.handleKeysStateNew (m : Home) : List KeyMsg → Option Home
  | [] => some m
  | msg :: rest =>
    match m.handleKeyPressStateNew msg with
    | none => none
    | some (m1, _) => Home.handleKeysStateNew m1 rest

/-- The title of the provisional session, the last item of the list. -/
def Home.provisionalTitle (m : Home) : Option String :=
  m.list.GetInstances.getLast?.map (fun i => i.Title)

/-! ## Kill and push behind the confirmation overlay -/

/-- The calls a confirmed action makes on its collaborators, in order. -/
inductive Call where
  | GetGitWorktree (inst : Nat)
  | IsBranchCheckedOut (inst : Nat)
  | StorageDeleteInstance (title : String)
  | ListKill
  | PushChanges (inst : Nat) (autoCommit : Bool)
  deriving DecidableEq, Repr

/-- The `tea.Msg` an action returns. -/
inductive Msg where
  | error (err : GoError)
  | instanceChangedMsg
  | nilMsg
  deriving DecidableEq, Repr

/-- What the collaborators answer while an action runs: the error of
`selected.GetGitWorktree()`, the result of `worktree.IsBranchCheckedOut()`, the
error of `m.storage.DeleteInstance(title)` and the error of
`worktree.PushChanges(commitMsg, true)`. -/
structure ActionEnv where
  gitWorktree : Except GoError Unit
  isBranchCheckedOut : Except GoError Bool
  deleteInstance : Except GoError Unit
  pushChanges : Except GoError Unit

/-- The run of an action: the dashboard afterwards, the returned message and the
calls made. -/
structure ActionRun where
  home : Home
  msg : Msg
  calls : List Call

/-- Modelled from the spec: `Storage.DeleteInstance` is not in the sources; when
it succeeds it "removes a single entry", the one keyed by the title. -/
def storageDelete (storage : List String) (title : String) : List String :=
  storage.filter (fun t => t != title)

/-- The second half of `killAction`, from "Delete from storage first" on;
`calls` are the calls made before. -/
def killActionDelete (selected : Instance) (env : ActionEnv) (m : Home) (calls : List Call) :
    ActionRun :=
  match env.deleteInstance with
  | .error err =>
    { home := m, msg := Msg.error err, calls := calls ++ [Call.StorageDeleteInstance selected.Title] }
  | .ok _ =>
    { home := { m with storage := storageDelete m.storage selected.Title, list := m.list.Kill },
      msg := Msg.instanceChangedMsg,
      calls := calls ++ [Call.StorageDeleteInstance selected.Title, Call.ListKill] }

/-- The closure `killAction` of the case `keys.KeyKill`, for the captured
session `selected`. -/
def killAction (selected : Instance) (env : ActionEnv) (m : Home) : ActionRun :=
  if !selected.DirectMode then
    match env.gitWorktree with
    | .error err => { home := m, msg := Msg.error err, calls := [Call.GetGitWorktree selected.ptr] }
    | .ok _ =>
      match env.isBranchCheckedOut with
      | .error err =>
        { home := m, msg := Msg.error err,
          calls := [Call.GetGitWorktree selected.ptr, Call.IsBranchCheckedOut selected.ptr] }
      | .ok checkedOut =>
        if checkedOut then
          { home := m,
            msg := Msg.error ("instance " ++ selected.Title ++ " is currently checked out"),
            calls := [Call.GetGitWorktree selected.ptr, Call.IsBranchCheckedOut selected.ptr] }
        else
          killActionDelete selected env m
            [Call.GetGitWorktree selected.ptr, Call.IsBranchCheckedOut selected.ptr]
  else killActionDelete selected env m []

/-- The closure `pushAction` of the case `keys.KeySubmit`, for the captured
session `selected`. -/
def pushAction (selected : Instance) (env : ActionEnv) (m : Home) : ActionRun :=
  match env.gitWorktree with
  | .error err => { home := m, msg := Msg.error err, calls := [Call.GetGitWorktree selected.ptr] }
  | .ok _ =>
    match env.pushChanges with
    | .error err =>
      { home := m, msg := Msg.error err,
        calls := [Call.GetGitWorktree selected.ptr, Call.PushChanges selected.ptr true] }
    | .ok _ =>
      { home := m, msg := Msg.nilMsg,
        calls := [Call.GetGitWorktree selected.ptr, Call.PushChanges selected.ptr true] }

/-- Calling a stored action. -/
def Action.run (a : Action) (env : ActionEnv) (m : Home) : ActionRun :=
  match a with
  | .killAction selected => ClaudeSquad.killAction selected env m
  | .pushAction selected => ClaudeSquad.pushAction selected env m

/-- The method `home.confirmAction`: it stores the action in the overlay, enters
`stateConfirm` and returns `nil`. -/
def Home.confirmAction (m : Home) (message : String) (action : Option Action) :
    Home × List Cmd :=
  ({ m with state := State.stateConfirm,
            confirmationOverlay := some { message := message, width := 50, action := action } },
   [])

/-- The case `keys.KeyKill` of `home.handleKeyPress`. -/
def Home.keyKillCase (m : Home) : Home × List Cmd :=
  match m.list.GetSelectedInstance with
  | none => (m, [])
  | some selected =>
    m.confirmAction ("[!] Kill session '" ++ selected.Title ++ "'?") (some (Action.killAction selected))

/-- The case `keys.KeySubmit` of `home.handleKeyPress`. -/
def Home.keySubmitCase (m : Home) : Home × List Cmd :=
  match m.list.GetSelectedInstance with
  | none => (m, [])
  | some selected =>
    m.confirmAction ("[!] Push changes from session '" ++ selected.Title ++ "'?")
      (some (Action.pushAction selected))

/-- How the confirmation overlay reads a key: as the confirm key, as a cancel
key, or as a key it ignores. -/
inductive OverlayKey where
  | confirm
  | cancel
  | ignored
  deriving DecidableEq, Repr

/-- The callback `OnConfirm` set by `confirmAction`: `m.state = stateDefault`,
then `_ = action()` for a non-nil action. The message the action returns is
dropped. -/
def Home.onConfirm (m : Home) (action : Option Action) (env : ActionEnv) : Home × List Call :=
  let m1 := { m with state := State.stateDefault }
  match action with
  | none => (m1, [])
  | some a => ((a.run env m1).home, (a.run env m1).calls)

/-- The callback `OnCancel` set by `confirmAction`. -/
def Home.onCancel (m : Home) : Home := { m with state := State.stateDefault }

/-- Modelled from the spec: `ConfirmationOverlay.HandleKeyPress` is not in the
sources; "on confirm, the stored action runs; on cancel, it is discarded", and
the overlay asks to be closed in both cases. The result is the dashboard after
the callback, the calls made and `shouldClose`. -/
def ConfirmationOverlay.HandleKeyPress (o : ConfirmationOverlay) (key : OverlayKey)
    (env : ActionEnv) (m : Home) : Home × List Call × Bool :=
  match key with
  | .confirm => ((m.onConfirm o.action env).1, (m.onConfirm o.action env).2, true)
  | .cancel => (m.onCancel, [], true)
  | .ignored => (m, [], false)

/-- The part of `home.handleKeyPress` that runs in state `stateConfirm`, after
`handleMenuHighlighting`: the dashboard afterwards, the returned command and the
calls made. `key` is how the overlay reads `msg`. The result is `none` when no
overlay is set. -/
def Home.handleKeyPressStateConfirm (m : Home) (msg : KeyMsg) (key : OverlayKey)
    (env : ActionEnv) : Option (Home × List Cmd × List Call) :=
  match m.handleMenuHighlighting msg with
  | (m1, cmd, true) => some (m1, cmd, [])
  | (m1, _, false) =>
    match m1.confirmationOverlay with
    | none => none
    | some o =>
      match o.HandleKeyPress key env m1 with
      | (m2, calls, true) =>
        some ({ m2 with state := State.stateDefault, confirmationOverlay := none }, [], calls)
      | (m2, calls, false) => some (m2, [], calls)

/-- The case `error` of `home.Update`: "Handle errors from confirmation actions". -/
def Home.updateError (m : Home) (err : GoError) : Home × List Cmd := m.handleError err

/-! ## Go strings and numbers used by `session/git/diff.go`

Texts are lists of characters (`String.data`), that is, valid UTF-8 text. -/

/-- The predicate `unicode.IsSpace`. -/
def unicodeIsSpace (c : Char) : Bool :=
  c.toNat = 0x09 || c.toNat = 0x0A || c.toNat = 0x0B || c.toNat = 0x0C || c.toNat = 0x0D
    || c.toNat = 0x20 || c.toNat = 0x85 || c.toNat = 0xA0 || c.toNat = 0x1680
    || (0x2000 ≤ c.toNat && c.toNat ≤ 0x200A) || c.toNat = 0x2028 || c.toNat = 0x2029
    || c.toNat = 0x202F || c.toNat = 0x205F || c.toNat = 0x3000

/-- The function `strings.TrimSpace`: leading and trailing white space removed. -/
def TrimSpace (s : List Char) : List Char :=
  ((s.dropWhile unicodeIsSpace).reverse.dropWhile unicodeIsSpace).reverse

/-- The function `strings.Split` for a separator of one character: the pieces
between the separators, one piece more than there are separators. -/
def Split (s : List Char) (sep : Char) : List (List Char) :=
  match s with
  | [] => [[]]
  | c :: cs =>
    if c = sep then [] :: Split cs sep
    else
      match Split cs sep with
      | [] => [[c]]
      | piece :: pieces => (c :: piece) :: pieces

/-- The function `strings.HasPrefix`. -/
def HasPrefix (s : List Char) (pre : List Char) : Bool := pre.isPrefixOf s

/-- The value of a run of decimal digits. -/
def digitsValue (ds : List Char) : Nat :=
  ds.foldl (fun n c => n * 10 + (c.toNat - '0'.toNat)) 0

/-- The function `strconv.Atoi` on a 64-bit platform: an optional sign, then one
or more decimal digits, the value within the range of `int`; `none` stands for
a non-nil error. -/
def Atoi (s : List Char) : Option Int :=
  let neg := decide (s.head? = some '-')
  let body := match s with
    | '+' :: r => r
    | '-' :: r => r
    | _ => s
  if body.isEmpty || !body.all Char.isDigit then none
  else if neg then
    if digitsValue body ≤ 2 ^ 63 then some (-(digitsValue body : Int)) else none
  else
    if digitsValue body < 2 ^ 63 then some (digitsValue body : Int) else none

/-- A mathematical integer brought into the range of Go's 64-bit `int`. -/
def wrapInt64 (x : Int) : Int := (x + 2 ^ 63) % 2 ^ 64 - 2 ^ 63

/-- Go's `+=` on `int`: addition with wrap-around. -/
def goAdd (a b : Int) : Int := wrapInt64 (a + b)

/-! ## Diff statistics (`session/git/diff.go`) -/

/-- The struct `DiffStats`. -/
structure DiffStats where
  Content : String
  Added : Int
  Removed : Int
  Error : Option GoError
  deriving DecidableEq, Repr

/-- The value `&DiffStats{}`. -/
def DiffStats.zero : DiffStats := { Content := "", Added := 0, Removed := 0, Error := none }

/-- The method `DiffStats.IsEmpty`. -/
def DiffStats.IsEmpty (d : DiffStats) : Bool :=
  decide (d.Added = 0) && decide (d.Removed = 0) && decide (d.Content = "")

/-- One field of a numstat row added to a counter: nothing for "-" and for a
field `strconv.Atoi` rejects. -/
def addNumstatField (counter : Int) (field : List Char) : Int :=
  if field ≠ ['-'] then
    match Atoi field with
    | some v => goAdd counter v
    | none => counter
  else counter

/-- The body of the loop of `Diff` for one line of the numstat output. -/
def numstatLine (stats : DiffStats) (line : List Char) : DiffStats :=
  match Split line '\t' with
  | p0 :: p1 :: _ =>
    { stats with Added := addNumstatField stats.Added p0
                 Removed := addNumstatField stats.Removed p1 }
  | _ => stats

/-- The method `GitWorktree.Diff`; `git` is the outcome of
`runGitCommand(... "diff", "--numstat", "--no-ext-diff", baseSHA)`. -/
def Diff (git : Except GoError String) : DiffStats :=
  match git with
  | .error err => { DiffStats.zero with Error := some err }
  | .ok output =>
    if TrimSpace output.data = [] then DiffStats.zero
    else (Split (TrimSpace output.data) '\n').foldl numstatLine DiffStats.zero

/-- The body of the loop of `DiffFull` for one line of the diff. The counters
cannot overflow: they are bounded by the number of lines of the content. -/
def diffFullLine (stats : DiffStats) (line : List Char) : DiffStats :=
  if HasPrefix line ['+'] && !HasPrefix line ['+', '+', '+'] then
    { stats with Added := stats.Added + 1 }
  else if HasPrefix line ['-'] && !HasPrefix line ['-', '-', '-'] then
    { stats with Removed := stats.Removed + 1 }
  else stats

/-- The method `GitWorktree.DiffFull`; `gitAdd` is the outcome of
`runGitCommand(... "add", "-N", ".")` and `gitDiff` the outcome of
`runGitCommand(... "diff", baseSHA)`, which is run only after `gitAdd`
succeeded. -/
def DiffFull (gitAdd : Except GoError String) (gitDiff : Except GoError String) : DiffStats :=
  match gitAdd with
  | .error err => { DiffStats.zero with Error := some err }
  | .ok _ =>
    match gitDiff with
    | .error err => { DiffStats.zero with Error := some err }
    | .ok content =>
      { (Split content.data '\n').foldl diffFullLine DiffStats.zero with Content := content }

/-! ### The counts in the words of the specification -/

/-- What a numstat field contributes to a count: zero for "-" (binary file) and
for a field that is not an integer, its value otherwise. -/
def numstatField (field : List Char) : Int :=
  if field = ['-'] then 0 else (Atoi field).getD 0

/-- The tab-separated rows, with at least two fields, of a numstat output (white
space around the output set aside). -/
def numstatRows (output : String) : List (List (List Char)) :=
  ((Split (TrimSpace output.data) '\n').map (fun row => Split row '\t')).filter
    (fun fields => decide (2 ≤ fields.length))

/-- The sum of the first fields of the rows. -/
def numstatAddedSum (output : String) : Int :=
  ((numstatRows output).map (fun fields => numstatField (fields.getD 0 []))).sum

/-- The sum of the second fields of the rows. -/
def numstatRemovedSum (output : String) : Int :=
  ((numstatRows output).map (fun fields => numstatField (fields.getD 1 []))).sum

/-- A line of a diff that starts with "+" but not with "+++". -/
def isAddedLine (line : List Char) : Bool :=
  HasPrefix line ['+'] && !HasPrefix line ['+', '+', '+']

/-- A line of a diff that starts with "-" but not with "---". -/
def isRemovedLine (line : List Char) : Bool :=
  HasPrefix line ['-'] && !HasPrefix line ['-', '-', '-']

/-- The contribution of one line to either counter, in the shape of the loop
body: `pick` chooses the field. -/
def lineContribution (pick : List (List Char) → List Char) (line : List Char) : Int :=
  if 2 ≤ (Split line '\t').length then numstatField (pick (Split line '\t')) else 0

/-! ## What git prints for a set of changes

The two diff methods read the output of git for the same working tree. A
working tree differs from the base commit by a list of changed files; numstat
reports, per tracked file, the number of added and removed lines, and the
unified diff renders each added line as "+" followed by the content of the
line, each removed line as "-" followed by its content. -/

/-- A line of a changed file: kept, removed or added, with its content. -/
inductive DiffLine where
  | context (text : String)
  | removed (text : String)
  | added (text : String)
  deriving DecidableEq, Repr

/-- A changed text file: its path, whether it is untracked (new and not yet in
the index), and its lines in one hunk. -/
structure FileChange where
  path : String
  untracked : Bool
  lines : List DiffLine
  deriving DecidableEq, Repr

/-- Whether a line is an added one. -/
def DiffLine.isAdded : DiffLine → Bool
  | .added _ => true
  | _ => false

/-- Whether a line is a removed one. -/
def DiffLine.isRemoved : DiffLine → Bool
  | .removed _ => true
  | _ => false

/-- The number of added lines of a file. -/
def FileChange.addedCount (f : FileChange) : Nat := f.lines.countP DiffLine.isAdded

/-- The number of removed lines of a file. -/
def FileChange.removedCount (f : FileChange) : Nat := f.lines.countP DiffLine.isRemoved

/-- The row of `git diff --numstat` for a file. -/
def FileChange.numstatRow (f : FileChange) : String :=
  toString f.addedCount ++ "\t" ++ toString f.removedCount ++ "\t" ++ f.path ++ "\n"

/-- The output of `git diff --numstat <base>`: one row per changed tracked file;
untracked files are not reported. -/
def gitNumstat (changes : List FileChange) : String :=
  String.join ((changes.filter (fun f => !f.untracked)).map FileChange.numstatRow)

/-- A line of a hunk as the unified diff prints it. -/
def DiffLine.render : DiffLine → String
  | .context text => " " ++ text ++ "\n"
  | .removed text => "-" ++ text ++ "\n"
  | .added text => "+" ++ text ++ "\n"

/-- The range of a hunk header for a side of `count` lines starting at the top
of the file: "0,0" for an empty side, "1" for one line, "1,count" otherwise. -/
def hunkRange (count : Nat) : String :=
  if count = 0 then "0,0" else if count = 1 then "1" else "1," ++ toString count

/-- The section of `git diff <base>` for a file, after `git add -N .` made the
untracked files visible: the file header, one hunk header and the lines. -/
def FileChange.render (f : FileChange) : String :=
  "diff --git a/" ++ f.path ++ " b/" ++ f.path ++ "\n"
    ++ (if f.untracked then "new file mode 100644\nindex 0000000..1111111\n--- /dev/null\n"
        else "index 1111111..2222222 100644\n--- a/" ++ f.path ++ "\n")
    ++ "+++ b/" ++ f.path ++ "\n"
    ++ "@@ -" ++ hunkRange (f.lines.length - f.addedCount)
    ++ " +" ++ hunkRange (f.lines.length - f.removedCount) ++ " @@\n"
    ++ String.join (f.lines.map DiffLine.render)

/-- The output of `git diff <base>` after `git add -N .`. -/
def gitUnifiedDiff (changes : List FileChange) : String :=
  String.join (changes.map FileChange.render)

/-- The number of lines in untracked files. -/
def untrackedAdditions (changes : List FileChange) : Nat :=
  ((changes.filter (fun f => f.untracked)).map FileChange.addedCount).sum

/-! ## Probe results and ticks at the level of the dashboard -/

/-- The message `makeTmuxStatusCmd` yields. `probe` is the pair returned by
`inst.HasUpdated()` when it finished within 400 ms, `none` when the timeout
fired first; `seen` are the values the variables `updated` and `prompt` hold
when the timeout fires. -/
def makeTmuxStatusMsg (probe : Option (Bool × Bool)) (seen : Bool × Bool) : TmuxStatusMsg :=
  match probe with
  | some (updated, prompt) => { updated := updated, prompt := prompt, err := none }
  | none => { updated := seen.1, prompt := seen.2, err := some "tmux status timeout" }

/-- The case `tmuxStatusMsg` of `home.Update` with everything it returns: the
dashboard, the session `msg.instance` afterwards and the command. The list is
not consulted. -/
def Home.updateTmuxStatusMsg (m : Home) (inst : Instance) (msg : TmuxStatusMsg) :
    Home × Instance × List Cmd :=
  (m, updateTmuxStatus inst msg, [])

/-- The message `gitDiffMsg`; its `instance` pointer is passed to the handler as
the session it points to. `stats` is `none` for a nil pointer. -/
structure GitDiffMsg where
  stats : Option DiffStats
  err : Option GoError
  deriving DecidableEq, Repr

/-- Modelled from the spec: `Instance.SetDiffStats` is not in the sources;
`GetDiffStats` "returns the most recent computed stats", so the setter stores
them. The argument is the cached value of the session, the result the new one. -/
def setDiffStats (_cached : Option DiffStats) (stats : Option DiffStats) : Option DiffStats :=
  stats

/-- The case `gitDiffMsg` of `home.Update`: the dashboard, the cached diff
statistics of the session `msg.instance` afterwards (`cached` before), whether
`m.tabbedWindow.UpdateDiff(inst)` was called, and the command. -/
def Home.updateGitDiffMsg (m : Home) (inst : Instance) (cached : Option DiffStats)
    (msg : GitDiffMsg) : Home × Option DiffStats × Bool × List Cmd :=
  match msg.err with
  | some _ => (m, cached, false, [])
  | none =>
    (m, setDiffStats cached msg.stats,
      decide (some inst.ptr = m.list.GetSelectedInstance.map (fun i => i.ptr)), [])

/-- The case `tickUpdateMetadataMessage` of `home.Update`. -/
def Home.updateTickUpdateMetadata (m : Home) (now : Int) : Home × List Cmd :=
  (m, updateMetadataTick (m.list.GetSelectedInstance.map (fun i => i.ptr)) now
        m.list.GetInstances)

/-- The method `home.instanceChanged`; `updateContent` is the result of
`w.preview.UpdateContent(selected)`. The contents of the panes and of the menu
are not part of the record. -/
def Home.instanceChanged (m : Home) (updateContent : Option GoError) : Home × List Cmd :=
  let selected := m.list.GetSelectedInstance
  let m1 : Home :=
    { m with tabbedWindow := m.tabbedWindow.SetInstance (selected.map (fun (i : Instance) => i.ptr)) }
  match m1.tabbedWindow.UpdatePreview updateContent with
  | some err => m1.handleError err
  | none =>
    match selected with
    | some sel =>
      if m1.tabbedWindow.IsInDiffTab then
        if !m1.diffWatchActive || decide (m1.diffWatchInst ≠ some sel.ptr) then
          ({ m1 with diffWatchInst := some sel.ptr, diffWatchActive := true,
                     diffWatchLastDirty := false },
            [Cmd.gitDiffCmd sel.ptr, Cmd.diffWatchPollCmd])
        else (m1, [Cmd.gitDiffCmd sel.ptr])
      else ({ m1 with diffWatchActive := false, diffWatchInst := none }, [])
    | none => ({ m1 with diffWatchActive := false, diffWatchInst := none }, [])

/-- The case `previewTickMsg` of `home.Update`: the batch of the command of
`instanceChanged` and of the closure that yields the next `previewTickMsg`. -/
def Home.updatePreviewTick (m : Home) (updateContent : Option GoError) : Home × List Cmd :=
  ((m.instanceChanged updateContent).1,
    (m.instanceChanged updateContent).2 ++ [Cmd.previewTickCmd])

/-! ### The probed sessions in the words of the specification -/

/-- A session qualifies for a status probe: started and not paused, and it is
the selected one, or has AutoYes, or was created less than 5 seconds ago. -/
def qualifies (selected : Option Nat) (now : Int) (inst : Instance) : Bool :=
  inst.Started && !inst.Paused
    && (decide (some inst.ptr = selected) || inst.AutoYes
        || decide (now - inst.CreatedAt < warmupWindow))

/-- The pointers of the sessions probed by a batch, in order. -/
def probedSessions (cmds : List Cmd) : List Nat :=
  cmds.filterMap (fun c => match c with
    | Cmd.tmuxStatusCmd p => some p
    | _ => none)

/-! ## The workspace (`session/git/worktree_ops.go`)

The answers of the file system, of the go-git library and of the git processes
are arguments of the operations; what is recorded of an operation are the git
processes it starts and the branch references it removes. -/

/-- The fields of `GitWorktree`. -/
structure GitWorktree where
  repoPath : String
  worktreePath : String
  sessionName : String
  branchName : String
  baseCommitSHA : String
  DirectMode : Bool
  OriginalBranch : String
  deriving DecidableEq, Repr

/-- What an operation does to the repository. `command dir args` is a git
process with arguments `args` in directory `dir`, started by
`g.runGitCommand(dir, args...)` or by `exec.Command("git", args...)` with
`cmd.Dir = dir`; `removeReference b` is `repo.Storer.RemoveReference` on the
branch `b`; `cleanupExistingBranch b` is the call `g.cleanupExistingBranch(repo)`. -/
inductive GitEffect where
  | command (dir : String) (args : List String)
  | removeReference (branch : String)
  | cleanupExistingBranch (branch : String)
  deriving DecidableEq, Repr

/-- The outcome of a workspace operation: the workspace afterwards, the returned
error (`none` for nil) and what it did, in order. -/
structure OpResult where
  worktree : GitWorktree
  err : Option GoError
  effects : List GitEffect
  deriving DecidableEq, Repr

/-- The function `strings.Contains`. -/
def Contains (s : String) (substr : String) : Bool :=
  s.data.tails.any (fun t => substr.data.isPrefixOf t)

/-- The answers `SetupDirect` gets: the error of `git.PlainOpen`, whether
`repo.Reference(branchRef, false)` finds the branch, the hash of `repo.Head()`
or its error, the combined output and the error of the checkout process, and
the hash of `repo.Reference(branchRef, true)` or its error. -/
structure SetupDirectEnv where
  plainOpen : Option GoError
  branchExists : Bool
  head : Except GoError String
  checkoutOutput : String
  checkoutErr : Option GoError
  resolve : Except GoError String
  deriving DecidableEq, Repr

/-- The method `GitWorktree.SetupDirect`. -/
def GitWorktree.SetupDirect (g : GitWorktree) (env : SetupDirectEnv) : OpResult :=
  match env.plainOpen with
  | some err => { worktree := g, err := some ("failed to open repository: " ++ err), effects := [] }
  | none =>
    if !env.branchExists then
      if g.branchName = "main" ∨ g.branchName = "master" ∨ g.branchName = "develop" then
        { worktree := g, err := some ("branch '" ++ g.branchName ++ "' does not exist"),
          effects := [] }
      else
        match env.head with
        | .error err => { worktree := g, err := some ("failed to get HEAD: " ++ err), effects := [] }
        | .ok headHash =>
          match env.checkoutErr with
          | some err =>
            { worktree := g,
              err := some ("failed to create and checkout branch " ++ g.branchName ++ ": " ++ err
                            ++ "\nOutput: " ++ env.checkoutOutput),
              effects := [GitEffect.command g.repoPath ["checkout", "-b", g.branchName]] }
          | none =>
            { worktree := { g with baseCommitSHA := headHash }, err := none,
              effects := [GitEffect.command g.repoPath ["checkout", "-b", g.branchName]] }
    else
      match env.checkoutErr with
      | some err =>
        { worktree := g,
          err := some ("failed to checkout branch " ++ g.branchName ++ ": " ++ err
                        ++ "\nOutput: " ++ env.checkoutOutput),
          effects := [GitEffect.command g.repoPath ["checkout", g.branchName]] }
      | none =>
        { worktree :=
            if env.branchExists && decide (g.baseCommitSHA = "") then
              match env.resolve with
              | .ok hash => { g with baseCommitSHA := hash }
              | .error _ => g
            else g,
          err := none,
          effects := [GitEffect.command g.repoPath ["checkout", g.branchName]] }

/-- The answers `Setup` gets outside direct mode: the result of
`getWorktreeDirectory`, the error of `os.MkdirAll(worktreesDir)`, the error of
`git.PlainOpen` in the branch check, whether the branch is found, which of the
two results arrives first on the channel, the errors of the `worktree remove`
and `worktree add` processes, and for `setupNewWorktree` the errors of its
`os.MkdirAll`, of its `git.PlainOpen`, of `cleanupExistingBranch`, and the
output of `rev-parse HEAD` or its error; `direct` are the answers for direct
mode. -/
structure SetupEnv where
  worktreeDirectory : Except GoError String
  mkdirAll : Option GoError
  plainOpen : Option GoError
  branchExists : Bool
  mkdirFirst : Bool
  worktreeRemove : Option GoError
  worktreeAdd : Option GoError
  mkdirWorktrees : Option GoError
  plainOpenAgain : Option GoError
  cleanupExistingBranch : Option GoError
  revParse : Except GoError String
  direct : SetupDirectEnv
  deriving DecidableEq, Repr

/-- The method `GitWorktree.setupFromExistingBranch`. -/
def GitWorktree.setupFromExistingBranch (g : GitWorktree) (env : SetupEnv) : OpResult :=
  match env.worktreeAdd with
  | some err =>
    { worktree := g,
      err := some ("failed to create worktree from branch " ++ g.branchName ++ ": " ++ err),
      effects := [GitEffect.command g.repoPath ["worktree", "remove", "-f", g.worktreePath],
                  GitEffect.command g.repoPath ["worktree", "add", g.worktreePath, g.branchName]] }
  | none =>
    { worktree := g, err := none,
      effects := [GitEffect.command g.repoPath ["worktree", "remove", "-f", g.worktreePath],
                  GitEffect.command g.repoPath ["worktree", "add", g.worktreePath, g.branchName]] }

/-- The error `setupNewWorktree` makes of a failed `rev-parse HEAD`. -/
def revParseError (err : GoError) : GoError :=
  if Contains err "fatal: ambiguous argument 'HEAD'"
      || Contains err "fatal: not a valid object name"
      || Contains err "fatal: HEAD: not a valid object name" then
    "this appears to be a brand new repository: please create an initial commit before creating an instance"
  else "failed to get HEAD commit hash: " ++ err

/-- The method `GitWorktree.setupNewWorktree`. -/
def GitWorktree.setupNewWorktree (g : GitWorktree) (env : SetupEnv) : OpResult :=
  match env.mkdirWorktrees with
  | some err =>
    { worktree := g, err := some ("failed to create worktrees directory: " ++ err), effects := [] }
  | none =>
    match env.plainOpenAgain with
    | some err =>
      { worktree := g, err := some ("failed to open repository: " ++ err),
        effects := [GitEffect.command g.repoPath ["worktree", "remove", "-f", g.worktreePath]] }
    | none =>
      match env.cleanupExistingBranch with
      | some err =>
        { worktree := g, err := some ("failed to cleanup existing branch: " ++ err),
          effects := [GitEffect.command g.repoPath ["worktree", "remove", "-f", g.worktreePath],
                      GitEffect.cleanupExistingBranch g.branchName] }
      | none =>
        match env.revParse with
        | .error err =>
          { worktree := g, err := some (revParseError err),
            effects := [GitEffect.command g.repoPath ["worktree", "remove", "-f", g.worktreePath],
                        GitEffect.cleanupExistingBranch g.branchName,
                        GitEffect.command g.repoPath ["rev-parse", "HEAD"]] }
        | .ok output =>
          let headCommit := String.mk (TrimSpace output.data)
          { worktree := { g with baseCommitSHA := headCommit },
            err := env.worktreeAdd.map
              (fun err => "failed to create worktree from commit " ++ headCommit ++ ": " ++ err),
            effects := [GitEffect.command g.repoPath ["worktree", "remove", "-f", g.worktreePath],
                        GitEffect.cleanupExistingBranch g.branchName,
                        GitEffect.command g.repoPath ["rev-parse", "HEAD"],
                        GitEffect.command g.repoPath
                          ["worktree", "add", "-b", g.branchName, g.worktreePath, headCommit]] }

/-- The method `GitWorktree.Setup`. The two goroutines report on a channel; the
first non-nil error received is returned. -/
def GitWorktree.Setup (g : GitWorktree) (env : SetupEnv) : OpResult :=
  if g.DirectMode then g.SetupDirect env.direct
  else
    match env.worktreeDirectory with
    | .error err =>
      { worktree := g, err := some ("failed to get worktree directory: " ++ err), effects := [] }
    | .ok _ =>
      let repoErr := env.plainOpen.map (fun err => "failed to open repository: " ++ err)
      let first := if env.mkdirFirst then env.mkdirAll else repoErr
      let second := if env.mkdirFirst then repoErr else env.mkdirAll
      match first with
      | some err => { worktree := g, err := some err, effects := [] }
      | none =>
        match second with
        | some err => { worktree := g, err := some err, effects := [] }
        | none =>
          if env.branchExists then g.setupFromExistingBranch env
          else g.setupNewWorktree env

/-- The method `GitWorktree.CleanupDirect`; `checkoutErr` is the error of the
checkout process. -/
def GitWorktree.CleanupDirect (g : GitWorktree) (_checkoutErr : Option GoError) : OpResult :=
  if g.OriginalBranch ≠ "" ∧ g.OriginalBranch ≠ g.branchName then
    { worktree := g, err := none,
      effects := [GitEffect.command g.repoPath ["checkout", g.OriginalBranch]] }
  else { worktree := g, err := none, effects := [] }

/-- The method `GitWorktree.Prune`; `pruneErr` is the error of the process. -/
def GitWorktree.Prune (g : GitWorktree) (pruneErr : Option GoError) : OpResult :=
  { worktree := g,
    err := pruneErr.map (fun err => "failed to prune worktrees: " ++ err),
    effects := [GitEffect.command g.repoPath ["worktree", "prune"]] }

/-- The method `GitWorktree.Remove`; `removeErr` is the error of the process. -/
def GitWorktree.Remove (g : GitWorktree) (removeErr : Option GoError) : OpResult :=
  if g.DirectMode then { worktree := g, err := none, effects := [] }
  else
    { worktree := g,
      err := removeErr.map (fun err => "failed to remove worktree: " ++ err),
      effects := [GitEffect.command g.repoPath ["worktree", "remove", "-f", g.worktreePath]] }

/-- The three answers of a lookup: found, not found, or another error. -/
inductive Lookup where
  | found
  | notFound
  | failed (err : GoError)
  deriving DecidableEq, Repr

/-- The answers `Cleanup` gets: `os.Stat(worktreePath)`, the error of the
`worktree remove` process, the error of `git.PlainOpen`, the lookup of the
branch reference, the error of `RemoveReference`, the error of the prune
process, and in direct mode the error of the checkout process. -/
structure CleanupEnv where
  stat : Lookup
  worktreeRemove : Option GoError
  plainOpen : Option GoError
  reference : Lookup
  removeReference : Option GoError
  prune : Option GoError
  checkout : Option GoError
  deriving DecidableEq, Repr

/-- The errors and effects of the first step of `Cleanup`, the removal of the
worktree path. -/
def cleanupWorktreeStep (g : GitWorktree) (env : CleanupEnv) : List GoError × List GitEffect :=
  match env.stat with
  | .found =>
    (env.worktreeRemove.toList,
      [GitEffect.command g.repoPath ["worktree", "remove", "-f", g.worktreePath]])
  | .notFound => ([], [])
  | .failed err => (["failed to check worktree path: " ++ err], [])

/-- The errors and effects of the branch step of `Cleanup`. -/
def cleanupBranchStep (g : GitWorktree) (env : CleanupEnv) : List GoError × List GitEffect :=
  match env.reference with
  | .found =>
    ((env.removeReference.map
        (fun err => "failed to remove branch " ++ g.branchName ++ ": " ++ err)).toList,
      [GitEffect.removeReference g.branchName])
  | .notFound => ([], [])
  | .failed err => (["error checking branch " ++ g.branchName ++ " existence: " ++ err], [])

/-- The method `GitWorktree.Cleanup`; `combineErrors` is the method of that name,
which is not in the sources. -/
def GitWorktree.Cleanup (g : GitWorktree) (combineErrors : List GoError → GoError)
    (env : CleanupEnv) : OpResult :=
  if g.DirectMode then g.CleanupDirect env.checkout
  else
    let step1 := cleanupWorktreeStep g env
    match env.plainOpen with
    | some err =>
      { worktree := g,
        err := some (combineErrors
          (step1.1 ++ ["failed to open repository for cleanup: " ++ err])),
        effects := step1.2 }
    | none =>
      let step2 := cleanupBranchStep g env
      let pruned := g.Prune env.prune
      let errs := step1.1 ++ step2.1 ++ pruned.err.toList
      { worktree := g,
        err := if errs.length > 0 then some (combineErrors errs) else none,
        effects := step1.2 ++ step2.2 ++ pruned.effects }

/-! ## Pane names (`session/tmux`) -/

/-- The constant `TmuxPrefix`, as `TestStartTmuxSession` spells it out. -/
def TmuxPrefix : String := "claudesquad_"

/-- A character of `[A-Za-z0-9_]`. -/
def isNameChar (c : Char) : Bool :=
  (decide ('A'.toNat ≤ c.toNat) && decide (c.toNat ≤ 'Z'.toNat))
    || (decide ('a'.toNat ≤ c.toNat) && decide (c.toNat ≤ 'z'.toNat))
    || (decide ('0'.toNat ≤ c.toNat) && decide (c.toNat ≤ '9'.toNat))
    || c = '_'

/-- Runs of "_" collapsed to a single "_". -/
def collapseUnderscores : List Char → List Char
  | [] => []
  | [c] => [c]
  | a :: b :: rest =>
    if a = '_' ∧ b = '_' then collapseUnderscores (b :: rest)
    else a :: collapseUnderscores (b :: rest)

/-- Modelled from the spec: the sanitizer of pane names (`session/tmux/tmux.go`)
is not in the sources. The spec has it "replace each non-`[A-Za-z0-9_]` with
`_`, collapse consecutive underscores, prefix with a fixed constant". -/
def toClaudeSquadTmuxName (str : String) : String :=
  TmuxPrefix ++ String.mk (collapseUnderscores
    (str.data.map (fun c => if isNameChar c then c else '_')))

/-! ## Tabs (`ui/tabbed_window.go`, continued) -/

/-- The method `TabbedWindow.Toggle`; `none` stands for the panic of the
remainder by `len(w.tabs) = 0`. -/
def TabbedWindow.Toggle (w : TabbedWindow) : Option TabbedWindow :=
  if w.tabs.length = 0 then none
  else some { w with activeTab := (w.activeTab + 1) % w.tabs.length }

/-- The window after `n` calls of `Toggle` on a new `TabbedWindow`. -/
def toggledWindow : Nat → Option TabbedWindow
  | 0 => some NewTabbedWindow
  | n + 1 => (toggledWindow n).bind TabbedWindow.Toggle

/-! ## Number keys (`home.handleKeyPress`, the `default` case of the switch) -/

/-- The key names that have a case of their own in the switch of
`home.handleKeyPress`; every other name found in the key map runs the
`default` case. -/
def switchHasCase (name : KeyName) : Bool :=
  name ∈ [KeyName.KeyHelp, .KeyPrompt, .KeyNew, .KeyUp, .KeyDown, .KeyShiftUp, .KeyShiftDown,
    .KeyPgUp, .KeyPgDn, .KeyHome, .KeyGoTop, .KeyEnd, .KeyGoBottom, .KeyHalfUp, .KeyHalfDown,
    .KeyHunkNext, .KeyHunkPrev, .KeyFileNext, .KeyFilePrev, .KeyTab, .KeyKill, .KeySubmit,
    .KeyCheckout, .KeyResume, .KeyEnter]

/-- The `default` case of the switch of `home.handleKeyPress`.
`previewScrolling` is `m.tabbedWindow.IsPreviewInScrollMode()` and
`updateContent` the result of the preview refresh inside `instanceChanged`.
The result is `none` when `msg.Runes[0]` panics for want of a rune. -/
def Home.defaultCase (m : Home) (msg : KeyMsg) (previewScrolling : Bool)
    (updateContent : Option GoError) : Option (Home × List Cmd) :=
  if msg.String = "esc" ∧ previewScrolling = true then some (m, [])
  else if msg.String ∈ ["1", "2", "3", "4", "5", "6", "7", "8", "9", "0"] then
    let idx : Option Int :=
      if msg.String = "0" then some 9
      else
        match msg.Runes with
        | r :: _ => some ((r.toNat : Int) - ('1'.toNat : Int))
        | [] => none
    match idx with
    | none => none
    | some idx =>
      if 0 ≤ idx ∧ idx < (m.list.NumInstances : Int) then
        some (Home.instanceChanged { m with list := m.list.SetSelectedInstance idx } updateContent)
      else some (m, [])
  else some (m, [])

/-- The key event of the digit `d`. -/
def digitKey (d : Nat) : KeyMsg := { Typ := KeyType.KeyRunes, Runes := [Char.ofNat ('0'.toNat + d)] }

/-- The index the digit `d` stands for: `d - 1`, and 9 for the digit 0. -/
def digitIndex (d : Nat) : Nat := if d = 0 then 9 else d - 1

/-! ## Enter and Esc while naming (`home.handleKeyPress`, state `stateNew`) -/

/-- The calls the Enter and Esc cases make on the session, the storage and the
list. -/
inductive NamingCall where
  | Start
  | SaveInstances
  | Finalizer
  | ListKill
  | ShowHelpScreen
  deriving DecidableEq, Repr

/-- The answers the Enter case gets: the session after `instance.Start(true)` or
its error, the error of `m.storage.SaveInstances`, what `m.showHelpScreen`
makes of the dashboard, and the result of the preview refresh inside
`instanceChanged`. -/
structure EnterEnv where
  start : Except GoError Instance
  save : Option GoError
  showHelpScreen : Home → Home
  updateContent : Option GoError

/-- The case `tea.KeyEnter` of the `stateNew` switch, for the provisional session
`inst`. -/
def Home.stateNewEnterCase (m : Home) (inst : Instance) (env : EnterEnv) :
    Home × List Cmd × List NamingCall :=
  if goLen inst.Title = 0 then
    ((m.handleError "title cannot be empty").1, (m.handleError "title cannot be empty").2, [])
  else
    match env.start with
    | .error err =>
      let m1 : Home := { m with list := m.list.Kill, state := State.stateDefault }
      ((m1.handleError err).1, (m1.handleError err).2, [NamingCall.Start, NamingCall.ListKill])
    | .ok started =>
      let m1 : Home := { m with list := m.list.setLast started }
      match env.save with
      | some err =>
        ((m1.handleError err).1, (m1.handleError err).2,
          [NamingCall.Start, NamingCall.SaveInstances])
      | none =>
        let inst2 : Instance := if m.autoYes then { started with AutoYes := true } else started
        let m2 : Home := { m1 with list := m1.list.setLast inst2, state := State.stateDefault }
        if m.promptAfterName then
          let m3 : Home :=
            { m2 with state := State.statePrompt, menuState := MenuState.StatePrompt,
                      textInputOverlay := some "Enter prompt", promptAfterName := false }
          ((m3.instanceChanged env.updateContent).1,
            Cmd.windowSize :: (m3.instanceChanged env.updateContent).2,
            [NamingCall.Start, NamingCall.SaveInstances, NamingCall.Finalizer,
              NamingCall.Finalizer])
        else
          let m3 : Home := env.showHelpScreen { m2 with menuState := MenuState.StateDefault }
          ((m3.instanceChanged env.updateContent).1,
            Cmd.windowSize :: (m3.instanceChanged env.updateContent).2,
            [NamingCall.Start, NamingCall.SaveInstances, NamingCall.Finalizer,
              NamingCall.Finalizer, NamingCall.ShowHelpScreen])

/-- The case `tea.KeyEsc` of the `stateNew` switch; the command of
`instanceChanged` is dropped. -/
def Home.stateNewEscCase (m : Home) (env : EnterEnv) : Home × List Cmd × List NamingCall :=
  let m1 : Home := { m with list := m.list.Kill, state := State.stateDefault }
  ((m1.instanceChanged env.updateContent).1, [Cmd.windowSizeThenMenuDefault],
    [NamingCall.ListKill])

/-- The part of `home.handleKeyPress` that runs in state `stateNew`, for every
key: `handleMenuHighlighting`, the check for "ctrl+c", then the switch on the
key type. The result is `none` when the list is empty, where
`GetInstances()[NumInstances()-1]` panics. -/
def Home.handleKeyPressNaming (m : Home) (msg : KeyMsg) (env : EnterEnv) :
    Option (Home × List Cmd × List NamingCall) :=
  match msg.Typ with
  | .KeyEnter | .KeyEsc =>
    match m.handleMenuHighlighting msg with
    | (m1, cmd, true) => some (m1, cmd, [])
    | (m1, _, false) =>
      if msg.String = "ctrl+c" then
        some ({ m1 with state := State.stateDefault, promptAfterName := false,
                        list := m1.list.Kill }, [Cmd.windowSizeThenMenuDefault],
              [NamingCall.ListKill])
      else
        match m1.list.GetInstances.getLast? with
        | none => none
        | some inst =>
          if msg.Typ = KeyType.KeyEnter then some (m1.stateNewEnterCase inst env)
          else some (m1.stateNewEscCase env)
  | _ => (m.handleKeyPressStateNew msg).map (fun r => (r.1, r.2, []))

/-! ## The diff watcher (`home.diffWatchPollCmd`, case `diffWatchTickedMsg`) -/

/-- The message `diffWatchTickedMsg`. -/
structure DiffWatchTickedMsg where
  changed : Bool
  deriving DecidableEq, Repr

/-- The body of the command returned by `home.diffWatchPollCmd`, run after its
300 ms sleep on the dashboard as it is then: the dashboard afterwards (the
command writes `diffWatchLastDirty`) and the message, `none` for nil.
`gitWorktreeErr` is the error of `GetGitWorktree` and `isDirty` the result of
`gw.IsDirty()`. -/
def Home.diffWatchPoll (m : Home) (gitWorktreeErr : Option GoError)
    (isDirty : Except GoError Bool) : Home × Option DiffWatchTickedMsg :=
  if !m.diffWatchActive || m.diffWatchInst.isNone || !m.tabbedWindow.IsInDiffTab then (m, none)
  else
    match gitWorktreeErr with
    | some _ => (m, some { changed := false })
    | none =>
      match isDirty with
      | .error _ => (m, some { changed := false })
      | .ok dirty =>
        ({ m with diffWatchLastDirty := dirty },
          some { changed := decide (dirty ≠ m.diffWatchLastDirty) })

/-- The case `diffWatchTickedMsg` of `home.Update`. -/
def Home.updateDiffWatchTicked (m : Home) (msg : DiffWatchTickedMsg) : Home × List Cmd :=
  match m.diffWatchInst with
  | none => ({ m with diffWatchActive := false }, [])
  | some watched =>
    if !m.diffWatchActive || !m.tabbedWindow.IsInDiffTab then
      ({ m with diffWatchActive := false }, [])
    else (m, (if msg.changed then [Cmd.gitDiffCmd watched] else []) ++ [Cmd.diffWatchPollCmd])

/-- The case `keys.KeyTab` of `home.handleKeyPress`; `none` stands for the panic
of `Toggle`. -/
def Home.keyTabCase (m : Home) (updateContent : Option GoError) : Option (Home × List Cmd) :=
  m.tabbedWindow.Toggle.map
    (fun w => Home.instanceChanged { m with tabbedWindow := w } updateContent)

/-- The dashboard together with the diff-watch polls that are scheduled and have
not run yet. Each pending poll carries the pointer of the session for which its
chain was started by `instanceChanged`. -/
structure WatchSim where
  home : Home
  pendingPolls : List Nat
  deriving DecidableEq, Repr

/-- The events of the diff watcher: a call of `instanceChanged` (preview tick),
a number key that selects the row `idx`, the tab key, and the wake-up of the
oldest pending poll, whose message is handled right away. -/
inductive WatchEvent where
  | instanceChanged (updateContent : Option GoError)
  | selectRow (idx : Nat)
  | tabKey
  | pollFires (gitWorktreeErr : Option GoError) (isDirty : Except GoError Bool)

/-- The number of poll commands in a batch. -/
def pollCount (cmds : List Cmd) : Nat := cmds.count Cmd.diffWatchPollCmd

/-- The polls started by a batch returned by `instanceChanged`: they belong to a
chain started for the session selected now. -/
def startedPolls (m : Home) (cmds : List Cmd) : List Nat :=
  match m.list.GetSelectedInstance with
  | some sel => List.replicate (pollCount cmds) sel.ptr
  | none => []

/-- One event of the diff watcher. -/
def WatchSim.step (s : WatchSim) : WatchEvent → WatchSim
  | .instanceChanged updateContent =>
    let r := s.home.instanceChanged updateContent
    { home := r.1, pendingPolls := s.pendingPolls ++ startedPolls r.1 r.2 }
  | .selectRow idx =>
    let r := Home.instanceChanged
      { s.home with list := s.home.list.SetSelectedInstance (idx : Int) } none
    { home := r.1, pendingPolls := s.pendingPolls ++ startedPolls r.1 r.2 }
  | .tabKey =>
    match s.home.keyTabCase none with
    | none => s
    | some r => { home := r.1, pendingPolls := s.pendingPolls ++ startedPolls r.1 r.2 }
  | .pollFires gitWorktreeErr isDirty =>
    match s.pendingPolls with
    | [] => s
    | chain :: rest =>
      match s.home.diffWatchPoll gitWorktreeErr isDirty with
      | (m1, none) => { home := m1, pendingPolls := rest }
      | (m1, some msg) =>
        { home := (m1.updateDiffWatchTicked msg).1,
          pendingPolls := rest ++ List.replicate (pollCount (m1.updateDiffWatchTicked msg).2) chain }

/-- A sequence of events of the diff watcher. -/
def WatchSim.run (s : WatchSim) (events : List WatchEvent) : WatchSim :=
  events.foldl WatchSim.step s

/-! ## The diff pane (`ui/diff.go`)

The style renderer (`lipgloss.Style.Render`) is an argument `render` of the
functions that style text: it maps a style and a line to the text emitted for
it. -/

/-- The three styles of `colorizeDiff`. -/
inductive DiffStyle where
  | HunkStyle
  | AdditionStyle
  | DeletionStyle
  deriving DecidableEq, Repr

/-- What `colorizeDiff` writes into its builder: `rendered st line` is
`b.WriteString(st.Render(line))`, `text line` is `b.WriteString(line)` and
`newline` is `b.WriteByte('\n')`. -/
inductive BuilderWrite where
  | rendered (style : DiffStyle) (line : List Char)
  | text (line : List Char)
  | newline
  deriving DecidableEq, Repr

/-- The body of the loop of `colorizeDiff` for one line: the writes it makes.
`line[0]` and `line[1]` are bytes; after a first byte "+" or "-" the second
byte is the first byte of the second character. -/
def colorizeLine (line : List Char) : List BuilderWrite :=
  if line.length > 0 then
    if HasPrefix line ['@', '@'] then [BuilderWrite.rendered DiffStyle.HunkStyle line, .newline]
    else if line.head? = some '+' ∧ (line.length = 1 ∨ line.get? 1 ≠ some '+') then
      [BuilderWrite.rendered DiffStyle.AdditionStyle line, .newline]
    else if line.head? = some '-' ∧ (line.length = 1 ∨ line.get? 1 ≠ some '-') then
      [BuilderWrite.rendered DiffStyle.DeletionStyle line, .newline]
    else [BuilderWrite.text line, .newline]
  else [BuilderWrite.newline]

/-- The writes of the whole loop of `colorizeDiff`, in order. -/
def colorizeWrites (diff : String) : List BuilderWrite :=
  (Split diff.data '\n').foldl (fun b line => b ++ colorizeLine line) []

/-- The text a write puts into the builder. -/
def BuilderWrite.emit (render : DiffStyle → List Char → List Char) : BuilderWrite → List Char
  | .rendered style line => render style line
  | .text line => line
  | .newline => ['\n']

/-- The function `colorizeDiff`: the content of the builder after the loop. -/
def colorizeDiff (render : DiffStyle → List Char → List Char) (diff : String) : String :=
  String.mk ((colorizeWrites diff).flatMap (BuilderWrite.emit render))

/-- The renderer without colour support: the text itself. -/
def plainRender : DiffStyle → List Char → List Char := fun _ line => line

/-- A renderer on a colour terminal: the text between an ANSI colour sequence
and the reset sequence. -/
def ansiRender : DiffStyle → List Char → List Char := fun style line =>
  (match style with
    | .HunkStyle => "\x1b[36m".data
    | .AdditionStyle => "\x1b[32m".data
    | .DeletionStyle => "\x1b[31m".data) ++ line ++ "\x1b[0m".data

/-- The number of lines written in the style `style`. -/
def styledCount (style : DiffStyle) (writes : List BuilderWrite) : Nat :=
  writes.countP (fun w => match w with
    | .rendered st _ => decide (st = style)
    | _ => false)

/-- The fields of `DiffPane` the navigation depends on; `YOffset` is
`d.viewport.YOffset`. The content and the size of the viewport are not part of
the record. -/
structure DiffPane where
  diff : String
  stats : String
  fileOffsets : List Int
  hunkOffsets : List Int
  YOffset : Int
  deriving DecidableEq, Repr

/-- The loop of `parseMarkers` from the line with index `i` on; the pair holds
`d.fileOffsets` and `d.hunkOffsets`. -/
def parseMarkersLoop : List (List Char) → Int → List Int × List Int → List Int × List Int
  | [], _, acc => acc
  | line :: rest, i, acc =>
    if HasPrefix line "diff --git ".data then parseMarkersLoop rest (i + 1) (acc.1 ++ [i], acc.2)
    else if HasPrefix line ['@', '@'] then parseMarkersLoop rest (i + 1) (acc.1, acc.2 ++ [i])
    else parseMarkersLoop rest (i + 1) acc

/-- The method `DiffPane.parseMarkers`. -/
def DiffPane.parseMarkers (d : DiffPane) : DiffPane :=
  if d.diff = "" then { d with fileOffsets := [], hunkOffsets := [] }
  else
    { d with fileOffsets := (parseMarkersLoop (Split d.diff.data '\n') 0 ([], [])).1
             hunkOffsets := (parseMarkersLoop (Split d.diff.data '\n') 0 ([], [])).2 }

/-- The method `DiffPane.SetDiff`. `inst` is the session (`none` for nil) and
`stats` its `GetDiffStats()`; `statsHeader` is the header line built with
lipgloss from the two counts. The messages put into the viewport are not part
of the record. -/
def DiffPane.SetDiff (d : DiffPane) (render : DiffStyle → List Char → List Char)
    (statsHeader : Int → Int → String) (inst : Option Instance) (stats : Option DiffStats) :
    DiffPane :=
  match inst with
  | none => d
  | some i =>
    if !i.Started then d
    else
      match stats with
      | none => d
      | some st =>
        if st.Error.isSome then d
        else if st.IsEmpty then { d with stats := "", diff := "" }
        else
          DiffPane.parseMarkers
            { d with stats := statsHeader st.Added st.Removed
                     diff := colorizeDiff render st.Content }

/-- The local `headerLines` of the jump methods. -/
def DiffPane.headerLines (d : DiffPane) : Int := if d.stats ≠ "" then 1 else 0

/-- The local `cur` of the jump methods: the viewport offset less the header
line, not below 0. -/
def DiffPane.cur (d : DiffPane) : Int :=
  if d.YOffset - d.headerLines < 0 then 0 else d.YOffset - d.headerLines

/-- The method `DiffPane.JumpNextHunk`; `SetYOffset` is what the viewport makes
of the offset it is asked for. -/
def DiffPane.JumpNextHunk (d : DiffPane) (SetYOffset : Int → Int) : DiffPane :=
  if d.hunkOffsets.length = 0 then d
  else
    match d.hunkOffsets.find? (fun off => decide (off > d.cur)) with
    | some off => { d with YOffset := SetYOffset (off + d.headerLines) }
    | none => { d with YOffset := SetYOffset (d.hunkOffsets.getLastD 0 + d.headerLines) }

/-- The method `DiffPane.JumpPrevHunk`. -/
def DiffPane.JumpPrevHunk (d : DiffPane) (SetYOffset : Int → Int) : DiffPane :=
  if d.hunkOffsets.length = 0 then d
  else
    match d.hunkOffsets.reverse.find? (fun off => decide (off < d.cur)) with
    | some off => { d with YOffset := SetYOffset (off + d.headerLines) }
    | none => { d with YOffset := SetYOffset (d.hunkOffsets.headD 0 + d.headerLines) }

/-- The indices of the lines of a text that start with `marker`. -/
def markerIndices (marker : List Char) (content : String) : List Int :=
  ((Split content.data '\n').enum.filter (fun p => HasPrefix p.2 marker)).map
    (fun p => (p.1 : Int))

/-! ## The error box (`ui/err.go`)

Go measures and slices a string in bytes. The message is valid UTF-8 text (a
list of characters); the result is a list of bytes, since the slice can end
inside a character. -/

/-- The UTF-8 encoding of one character, as Go stores it in a string. -/
def utf8EncodeChar (c : Char) : List Nat :=
  if c.toNat < 0x80 then [c.toNat]
  else if c.toNat < 0x800 then [0xC0 + c.toNat / 0x40, 0x80 + c.toNat % 0x40]
  else if c.toNat < 0x10000 then
    [0xE0 + c.toNat / 0x1000, 0x80 + c.toNat / 0x40 % 0x40, 0x80 + c.toNat % 0x40]
  else
    [0xF0 + c.toNat / 0x40000, 0x80 + c.toNat / 0x1000 % 0x40,
      0x80 + c.toNat / 0x40 % 0x40, 0x80 + c.toNat % 0x40]

/-- The bytes of a Go string holding the text `s`. -/
def utf8Bytes (s : List Char) : List Nat := s.flatMap utf8EncodeChar

/-- The function `strings.ReplaceAll` for one character replaced by another. -/
def ReplaceAll (s : List Char) (old new : Char) : List Char :=
  s.map (fun c => if c = old then new else c)

/-- The loop of `strings.Fields`: `cur` is the field being read. -/
def fieldsLoop : List Char → List Char → List (List Char)
  | [], cur => if cur.isEmpty then [] else [cur]
  | c :: rest, cur =>
    if unicodeIsSpace c then
      (if cur.isEmpty then fieldsLoop rest [] else cur :: fieldsLoop rest [])
    else fieldsLoop rest (cur ++ [c])

/-- The function `strings.Fields`: the maximal runs of characters that are not
white space. -/
def Fields (s : List Char) : List (List Char) := fieldsLoop s []

/-- The function `strings.Join`. -/
def Join : List (List Char) → List Char → List Char
  | [], _ => []
  | [a], _ => a
  | a :: b :: rest, sep => a ++ sep ++ Join (b :: rest) sep

/-- The function `strings.LastIndex` for a one-byte substring: the bytes are
tried from the last index down to 0, and -1 is returned when none matches. -/
def LastIndex (s : List Nat) (b : Nat) : Int :=
  match (List.range s.length).reverse.find? (fun i => decide (s[i]? = some b)) with
  | some i => (i : Int)
  | none => -1

/-- The function `maxInt` of `ui/err.go`. -/
def maxInt (a b : Int) : Int := if a > b then a else b

/-- The message after the two collapsing statements of `wrapErrorSingleLine`:
newlines replaced by spaces, then the fields joined by single spaces. -/
def collapsedText (s : String) : List Char :=
  Join (Fields (ReplaceAll s.data '\n' ' ')) [' ']

/-- The bytes of the collapsed message, as the Go string holds them. -/
def collapsed (s : String) : List Nat := utf8Bytes (collapsedText s)

/-- The function `wrapErrorSingleLine`. -/
def wrapErrorSingleLine (s : String) (width : Int) : List Nat :=
  if width ≤ 0 then []
  else
    let s2 := collapsed s
    if (s2.length : Int) ≤ width then s2
    else
      let limit := maxInt 1 (width - 1)
      let idx := LastIndex (s2.take limit.toNat) 32
      let cut := if idx > 0 then idx else limit
      s2.take cut.toNat ++ utf8Bytes ['…']


/-! ## Removing every workspace (`CleanupWorktrees`)

The answers of `getWorktreeDirectory`, `os.ReadDir` and the git processes are
fields of `CleanupWorktreesEnv`. A Go map is a list of key and value pairs with distinct
keys; the order in which a `range` visits it is chosen by the runtime and is a
field of the environment as well. -/

/-- The function `strings.TrimPrefix`. -/
def TrimPrefix (s : List Char) (pre : List Char) : List Char :=
  if HasPrefix s pre then s.drop pre.length else s

/-- The assignment `m[k] = v` on a Go map. -/
def mapSet (m : List (String × String)) (k v : String) : List (String × String) :=
  if m.any (fun e => e.1 = k) then m.map (fun e => if e.1 = k then (k, v) else e)
  else m ++ [(k, v)]

/-- The loop of `CleanupWorktrees` over the lines of the porcelain listing:
`currentWorktree` is the path of the last `worktree` line, and each `branch`
line stores its branch name under that path. -/
def worktreeBranchesLoop :
    List (List Char) → String → List (String × String) → List (String × String)
  | [], _, worktreeBranches => worktreeBranches
  | line :: rest, currentWorktree, worktreeBranches =>
    if HasPrefix line "worktree ".data then
      worktreeBranchesLoop rest (String.mk (TrimPrefix line "worktree ".data)) worktreeBranches
    else if HasPrefix line "branch ".data then
      let branchPath := TrimPrefix line "branch ".data
      let branchName := TrimPrefix branchPath "refs/heads/".data
      if currentWorktree ≠ "" then
        worktreeBranchesLoop rest currentWorktree
          (mapSet worktreeBranches currentWorktree (String.mk branchName))
      else worktreeBranchesLoop rest currentWorktree worktreeBranches
    else worktreeBranchesLoop rest currentWorktree worktreeBranches

/-- An entry of `os.ReadDir`. -/
structure DirEntry where
  Name : String
  IsDir : Bool
  deriving DecidableEq, Repr

/-- What `CleanupWorktrees` does, in order: `branchDelete b` is the process
`git branch -D b`, `logError` a line of the error log, `removeAll p` the call
`os.RemoveAll(p)`, `prune` the process `git worktree prune`. -/
inductive CleanupStep where
  | branchDelete (branch : String)
  | logError (msg : String)
  | removeAll (path : String)
  | prune
  deriving DecidableEq, Repr

/-- The answers `CleanupWorktrees` gets: the worktrees directory, its entries,
the output of `git worktree list --porcelain`, the order in which the `range`
for the i-th entry visits the map, the error of `git branch -D` for a branch
and the error of `git worktree prune`. -/
structure CleanupWorktreesEnv where
  worktreeDirectory : Except GoError String
  readDir : Except GoError (List DirEntry)
  worktreeList : Except GoError String
  visit : Nat → List (String × String) → List (String × String)
  branchDelete : String → Option GoError
  pruneErr : Option GoError

/-- The inner loop of `CleanupWorktrees` for one directory entry: the first
visited path that contains the entry name has its branch deleted, then `break`. -/
def deleteBranchFor (env : CleanupWorktreesEnv) (visited : List (String × String)) (name : String) :
    List CleanupStep :=
  match visited.find? (fun e => Contains e.1 name) with
  | none => []
  | some (_, branch) =>
    match env.branchDelete branch with
    | some err =>
      [CleanupStep.branchDelete branch,
        CleanupStep.logError ("failed to delete branch " ++ branch ++ ": " ++ err)]
    | none => [CleanupStep.branchDelete branch]

/-- The loop of `CleanupWorktrees` over the directory entries, `i` counting them. -/
def cleanupEntries (env : CleanupWorktreesEnv) (worktreesDir : String)
    (worktreeBranches : List (String × String)) : List DirEntry → Nat → List CleanupStep
  | [], _ => []
  | entry :: rest, i =>
    if entry.IsDir then
      deleteBranchFor env (env.visit i worktreeBranches) entry.Name
        ++ [CleanupStep.removeAll (worktreesDir ++ "/" ++ entry.Name)]
        ++ cleanupEntries env worktreesDir worktreeBranches rest (i + 1)
    else cleanupEntries env worktreesDir worktreeBranches rest (i + 1)

/-- The map `worktreeBranches` that `CleanupWorktrees` builds from the listing. -/
def worktreeBranchesOf (output : String) : List (String × String) :=
  worktreeBranchesLoop (Split output.data '\n') "" []

/-- The function `CleanupWorktrees`: the returned error and what it did. -/
def CleanupWorktrees (env : CleanupWorktreesEnv) : Option GoError × List CleanupStep :=
  match env.worktreeDirectory with
  | .error err => (some ("failed to get worktree directory: " ++ err), [])
  | .ok worktreesDir =>
    match env.readDir with
    | .error err => (some ("failed to read worktree directory: " ++ err), [])
    | .ok entries =>
      match env.worktreeList with
      | .error err => (some ("failed to list worktrees: " ++ err), [])
      | .ok output =>
        let steps := cleanupEntries env worktreesDir (worktreeBranchesOf output) entries 0
        match env.pruneErr with
        | some err => (some ("failed to prune worktrees: " ++ err), steps ++ [CleanupStep.prune])
        | none => (none, steps ++ [CleanupStep.prune])


/-! ## Sample inputs -/

/-- A started session "demo" in a worktree of its own (non-direct), running,
without AutoYes. -/
def demoSession : Instance :=
  { ptr := 1, Title := "demo", Status := Status.Running, AutoYes := false,
    DirectMode := false, DirectBranch := "", Branch := "demo", Path := "/repo",
    Program := "claude", CreatedAt := 0, started := true, enterTaps := 0 }

/-- A dashboard in the default state with an empty list. -/
def emptyHome : Home :=
  { program := "claude", autoYes := false, directMode := false, directBranch := "",
    storage := [], state := State.stateDefault, newInstanceFinalizer := none,
    promptAfterName := false, keySent := false,
    list := { items := [], selectedIdx := 0 },
    menuState := MenuState.StateDefault, menuKeydown := none, errBox := none,
    confirmationOverlay := none }

/-- A dashboard started in direct mode without a branch name, no session yet. -/
def directNoBranchHome : Home := { emptyHome with directMode := true }

/-- A dashboard holding the stored session "demo", selected. -/
def demoHome : Home :=
  { emptyHome with storage := ["demo"], list := { items := [demoSession], selectedIdx := 0 } }

/-- The dashboard `demoHome` after the kill key: the confirmation overlay is
open on the kill of "demo". -/
def demoConfirmHome : Home := demoHome.keyKillCase.1

/-- Collaborators of a kill where git reports the branch as checked out. -/
def checkedOutEnv : ActionEnv :=
  { gitWorktree := .ok (), isBranchCheckedOut := .ok true,
    deleteInstance := .ok (), pushChanges := .ok () }

/-- Collaborators of a kill where the checked-out query itself fails. -/
def queryFailsEnv : ActionEnv :=
  { gitWorktree := .ok (), isBranchCheckedOut := .error "exit status 128",
    deleteInstance := .ok (), pushChanges := .ok () }

/-- The provisional session right after the `n` key: unstarted, empty title. -/
def provisionalSession : Instance :=
  { ptr := 2, Title := "", Status := Status.Ready, AutoYes := false,
    DirectMode := false, DirectBranch := "", Branch := "", Path := ".",
    Program := "claude", CreatedAt := 0, started := false, enterTaps := 0 }

/-- The dashboard in state `stateNew` with the provisional session as its only
item. -/
def namingHome : Home :=
  { emptyHome with state := State.stateNew, menuState := MenuState.StateNewInstance,
                   newInstanceFinalizer := some 2,
                   list := { items := [provisionalSession], selectedIdx := 0 } }

/-- The key event of the letter `a`. -/
def keyA : KeyMsg := { Typ := KeyType.KeyRunes, Runes := ['a'] }

/-- The key event of the space bar. -/
def keySpace : KeyMsg := { Typ := KeyType.KeySpace, Runes := [' '] }

/-- One rune key event carrying forty letters, as a paste delivers it. -/
def keyPaste : KeyMsg := { Typ := KeyType.KeyRunes, Runes := List.replicate 40 'x' }

/-- The key event of the letter `y`, the overlay's confirm key. -/
def keyY : KeyMsg := { Typ := KeyType.KeyRunes, Runes := ['y'] }

/-- A working tree where the tracked file `a.c` gained the line `++i;` and the
untracked file `new.txt` holds two lines. -/
def incrementChanges : List FileChange :=
  [ { path := "a.c", untracked := false,
      lines := [DiffLine.context "int i = 0;", DiffLine.added "++i;"] },
    { path := "new.txt", untracked := true,
      lines := [DiffLine.added "hello", DiffLine.added "world"] } ]

/-- A numstat output of three rows, the second one for a binary file. -/
def sampleNumstat : String := "1\t0\ta.txt\n-\t-\tlogo.png\n12\t7\tsrc/x.go\n"

/-- Five started AutoYes sessions created long ago, with pointers 1 to 5. -/
def fiveAutoYes : List Instance :=
  [1, 2, 3, 4, 5].map (fun p => { demoSession with ptr := p, AutoYes := true })

/-- Statistics of a diff probe. -/
def sampleStats : DiffStats := { Content := "+x\n", Added := 1, Removed := 0, Error := none }

/-- A direct-mode workspace on the branch "feature-x", started from "main". -/
def directWorktree : GitWorktree :=
  { repoPath := "/repo", worktreePath := "/repo", sessionName := "demo",
    branchName := "feature-x", baseCommitSHA := "", DirectMode := true,
    OriginalBranch := "main" }

/-- A workspace with a worktree of its own, its base commit pinned to "aaa111". -/
def pinnedWorktree : GitWorktree :=
  { repoPath := "/repo", worktreePath := "/repo/worktrees/demo", sessionName := "demo",
    branchName := "demo", baseCommitSHA := "aaa111", DirectMode := false,
    OriginalBranch := "" }

/-- An openable repository without any commit: the branch is not found and HEAD
cannot be resolved. -/
def noCommitEnv : SetupDirectEnv :=
  { plainOpen := none, branchExists := false, head := .error "reference not found",
    checkoutOutput := "", checkoutErr := none, resolve := .error "reference not found" }

/-- An openable repository on which every step succeeds; the branch exists. -/
def existingBranchEnv : SetupDirectEnv :=
  { plainOpen := none, branchExists := true, head := .ok "bbb222",
    checkoutOutput := "", checkoutErr := none, resolve := .ok "ccc333" }

/-- A re-Setup that finds the session branch gone (deleted while the session was
paused) while HEAD has moved to "bbb222"; every step succeeds. -/
def branchGoneEnv : SetupEnv :=
  { worktreeDirectory := .ok "/repo/worktrees", mkdirAll := none, plainOpen := none,
    branchExists := false, mkdirFirst := true, worktreeRemove := none, worktreeAdd := none,
    mkdirWorktrees := none, plainOpenAgain := none, cleanupExistingBranch := none,
    revParse := .ok "bbb222\n", direct := { existingBranchEnv with branchExists := false } }

/-- A cleanup in which every step succeeds, except that the checkout fails. -/
def checkoutFailsEnv : CleanupEnv :=
  { stat := Lookup.found, worktreeRemove := none, plainOpen := none, reference := Lookup.found,
    removeReference := none, prune := none, checkout := some "exit status 1" }

/-- A dashboard on the Diff tab that lists two started sessions, the first one
selected, with no diff watcher running. -/
def twoSessionsDiffTab : Home :=
  { emptyHome with
      list := { items := [demoSession, { demoSession with ptr := 2, Title := "other" }],
                selectedIdx := 0 }
      tabbedWindow := { NewTabbedWindow with activeTab := 1 } }

/-- The Enter key. -/
def keyEnter : KeyMsg := { Typ := KeyType.KeyEnter, Runes := [] }

/-- Answers for the Enter case in which everything succeeds. -/
def enterEnv : EnterEnv :=
  { start := .ok { provisionalSession with started := true }, save := none,
    showHelpScreen := fun m => m, updateContent := none }

/-- The diff of `TestColorizeDiffBasic`. -/
def sampleDiff : String :=
  "diff --git a/file.txt b/file.txt\nindex 1111111..2222222 100644\n--- a/file.txt\n+++ b/file.txt\n@@ -1,3 +1,4 @@\n line unchanged\n+added line\n-removed line\n"

/-- A diff whose added line holds "+ item" and whose removed line holds "-x". -/
def bulletDiff : String :=
  "diff --git a/notes.md b/notes.md\n--- a/notes.md\n+++ b/notes.md\n@@ -1 +1 @@\n--x\n++ item\n"

/-- The statistics `DiffFull` returns for `sampleDiff`. -/
def sampleDiffStats : DiffStats := DiffFull (.ok "") (.ok sampleDiff)

/-- An empty diff pane. -/
def emptyPane : DiffPane :=
  { diff := "", stats := "", fileOffsets := [], hunkOffsets := [], YOffset := 0 }

/-- The porcelain listing of a repository at `/home/u/app` on branch `main`
with no linked worktree. -/
def hostOnlyListing : String :=
  "worktree /home/u/app\nHEAD 3f2a9c1\nbranch refs/heads/main\n\n"

/-- A stale directory `app` is left in the worktrees directory; the listing
shows only the host repository. -/
def staleAppEnv (branchDelete : String → Option GoError) : CleanupWorktreesEnv :=
  { worktreeDirectory := .ok "/home/u/.claude-squad/worktrees",
    readDir := .ok [{ Name := "app", IsDir := true }],
    worktreeList := .ok hostOnlyListing,
    visit := fun _ m => m,
    branchDelete := branchDelete,
    pruneErr := none }


/-- A pane under a stats header with hunks at the content lines 4, 20 and 35,
the viewport at line 10. -/
def threeHunkPane : DiffPane :=
  { emptyPane with stats := "1 additions(+) 1 deletions(-)", hunkOffsets := [4, 20, 35],
                   YOffset := 10 }

/-- A diff text whose first line is a hunk header; the next one is at line 5. -/
def topHunkDiff : String :=
  "@@ -1,4 +1,4 @@\n-a\n+b\n c\n d\n@@ -9,2 +9,2 @@\n-x\n+y"

/-- A pane under a stats header that holds `topHunkDiff`, its markers built by
`parseMarkers`, with the viewport at the top. -/
def topHunkPane : DiffPane :=
  ({ emptyPane with stats := "1 additions(+) 1 deletions(-)",
                    diff := topHunkDiff } : DiffPane).parseMarkers


/-! # Theorems -/

/-! ### Lemmas on the metadata tick -/

theorem metadataTickStep_inv (selected : Option Nat) (now : Int) (acc : List Cmd × Nat)
    (inst : Instance) (h : probeCount acc.1 = acc.2 ∧ acc.2 ≤ maxScheduled) :
    probeCount (metadataTickStep selected now acc inst).1
        = (metadataTickStep selected now acc inst).2
      ∧ (metadataTickStep selected now acc inst).2 ≤ maxScheduled := by
  unfold metadataTickStep
  split
  · exact h
  · dsimp only
    split
    · rename_i hc
      simp only [Bool.and_eq_true, decide_eq_true_eq] at hc
      refine ⟨?_, by have := hc.2; omega⟩
      simp [probeCount, List.countP_append, Cmd.isStatusProbe] at h ⊢
      exact h.1
    · exact h

theorem metadataTick_foldl_inv (selected : Option Nat) (now : Int) (instances : List Instance) :
    ∀ acc : List Cmd × Nat, probeCount acc.1 = acc.2 ∧ acc.2 ≤ maxScheduled →
      probeCount (instances.foldl (metadataTickStep selected now) acc).1
          = (instances.foldl (metadataTickStep selected now) acc).2
        ∧ (instances.foldl (metadataTickStep selected now) acc).2 ≤ maxScheduled := by
  induction instances with
  | nil => intro acc h; simpa using h
  | cons i rest ih =>
    intro acc h
    simp only [List.foldl_cons]
    exact ih _ (metadataTickStep_inv selected now acc i h)

/-- C1: for every selected session, every clock value and every session list,
the batch returned for one metadata tick holds at most 4 status probes. -/
theorem updateMetadataTick_probeCount_le (selected : Option Nat) (now : Int)
    (instances : List Instance) :
    probeCount (updateMetadataTick selected now instances) ≤ 4 := by
  have h := metadataTick_foldl_inv selected now instances ([], 0)
    ⟨by simp [probeCount], by simp [maxScheduled]⟩
  have h1 : probeCount (updateMetadataTick selected now instances)
      = probeCount (metadataTickLoop selected now instances).1 := by
    simp [updateMetadataTick, probeCount, List.countP_append, Cmd.isStatusProbe]
  rw [h1]
  unfold metadataTickLoop
  have := h.2
  simp only [maxScheduled] at this
  omega

/-! ### Status probe results -/

/-- C2 (counterexample): a probe result without error, with `updated = false` and
`prompt = true`, for a running session without AutoYes: the status is still
`Running` afterwards, not `Ready`, and no Enter reached the pane. -/
theorem updateTmuxStatus_prompt_without_autoYes :
    demoSession.AutoYes = false
      ∧ (updateTmuxStatus demoSession
            { updated := false, prompt := true, err := none }).Status ≠ Status.Ready
      ∧ (updateTmuxStatus demoSession
            { updated := false, prompt := true, err := none }) = demoSession := by
  decide

/-- C2 (amended): for a probe result without error, `updated = true` sets the
status to `Running`; otherwise `prompt = true` leaves the status as it was,
whatever AutoYes is, and one Enter reaches the pane exactly when AutoYes is
set; otherwise (`prompt = false`) the status becomes `Ready`. Enter is tapped
on no other path. -/
theorem updateTmuxStatus_spec (inst : Instance) (updated prompt : Bool) :
    (updated = true →
        (updateTmuxStatus inst ⟨updated, prompt, none⟩).Status = Status.Running
          ∧ (updateTmuxStatus inst ⟨updated, prompt, none⟩).enterTaps = inst.enterTaps)
      ∧ (updated = false → prompt = true →
          (updateTmuxStatus inst ⟨updated, prompt, none⟩).Status = inst.Status
            ∧ (updateTmuxStatus inst ⟨updated, prompt, none⟩).enterTaps
                = inst.enterTaps + (if inst.AutoYes then 1 else 0))
      ∧ (updated = false → prompt = false →
          (updateTmuxStatus inst ⟨updated, prompt, none⟩).Status = Status.Ready
            ∧ (updateTmuxStatus inst ⟨updated, prompt, none⟩).enterTaps = inst.enterTaps) := by
  refine ⟨?_, ?_, ?_⟩
  · intro hu
    subst hu
    simp [updateTmuxStatus, Instance.SetStatus]
  · intro hu hp
    subst hu hp
    cases h : inst.AutoYes <;> simp [updateTmuxStatus, Instance.TapEnter, h]
  · intro hu hp
    subst hu hp
    simp [updateTmuxStatus, Instance.SetStatus]

/-! ### New session keys -/

/-- C3 (counterexample): the dashboard runs in direct mode without a branch
name and lists no session; the `n` key finds the list below the limit, yet
`session.NewInstance` rejects the options, so no session is appended and the
state stays `stateDefault`. -/
theorem keyNewCase_newInstance_fails :
    directNoBranchHome.list.NumInstances < GlobalInstanceLimit
      ∧ (directNoBranchHome.keyNewCase false (NewInstance 1 0)).1.list.NumInstances = 0
      ∧ (directNoBranchHome.keyNewCase false (NewInstance 1 0)).1.state = State.stateDefault
      ∧ (directNoBranchHome.keyNewCase false (NewInstance 1 0)).1.errBox
          = some "direct mode requires a branch name" := by
  decide

theorem instanceLimitError_eq :
    instanceLimitError = "you can't create more than 10 instances" := by decide

theorem SessionList.getSelected_after_add (l : SessionList) (inst : Instance) :
    ((l.AddInstance inst).SetSelectedInstance
        (((l.AddInstance inst).NumInstances : Int) - 1)).GetSelectedInstance = some inst := by
  simp only [SessionList.AddInstance, SessionList.SetSelectedInstance,
    SessionList.NumInstances, SessionList.GetSelectedInstance, List.length_append,
    List.length_singleton]
  rw [if_neg (by omega)]
  have h : (min (max (((l.items.length + 1 : Nat) : Int) - 1) 0)
      (((l.items.length + 1 : Nat) : Int) - 1)).toNat = l.items.length := by
    have h1 : ((l.items.length + 1 : Nat) : Int) - 1 = (l.items.length : Int) := by
      push_cast; ring
    rw [h1]
    have h2 : max (l.items.length : Int) 0 = (l.items.length : Int) := by
      apply max_eq_left; omega
    rw [h2, min_self]
    simp
  simp only [h]
  simp

/-- C3 (amended): with 10 or more sessions listed, the `n` and `N` cases only
show the error "you can't create more than 10 instances" (the list, the
selection, the state and every other field stay as they were, whatever
`session.NewInstance` would do); with fewer than 10, if `session.NewInstance`
succeeds its session is appended as the last and selected item, nothing else
is added, and the state becomes `stateNew`; if `session.NewInstance` fails,
its error is shown and nothing else changes. -/
theorem keyNewCase_spec (promptVariant : Bool)
    (newInstance : InstanceOptions → Except GoError Instance) (m : Home) :
    (GlobalInstanceLimit ≤ m.list.NumInstances →
        m.keyNewCase promptVariant newInstance
          = ({ m with errBox := some "you can't create more than 10 instances" },
             [Cmd.hideErrCmd]))
      ∧ (m.list.NumInstances < GlobalInstanceLimit →
          ∀ inst, newInstance m.newInstanceOptions = .ok inst →
            (m.keyNewCase promptVariant newInstance).1.list.items = m.list.items ++ [inst]
              ∧ (m.keyNewCase promptVariant newInstance).1.list.GetSelectedInstance = some inst
              ∧ (m.keyNewCase promptVariant newInstance).1.state = State.stateNew
              ∧ (m.keyNewCase promptVariant newInstance).1.errBox = m.errBox
              ∧ (m.keyNewCase promptVariant newInstance).2 = [])
      ∧ (m.list.NumInstances < GlobalInstanceLimit →
          ∀ err, newInstance m.newInstanceOptions = .error err →
            m.keyNewCase promptVariant newInstance
              = ({ m with errBox := some err }, [Cmd.hideErrCmd])) := by
  refine ⟨?_, ?_, ?_⟩
  · intro h
    simp only [Home.keyNewCase, ge_iff_le, h, if_true, Home.handleError, instanceLimitError_eq]
  · intro h inst hi
    have hn : ¬ (m.list.NumInstances ≥ GlobalInstanceLimit) := by omega
    simp only [Home.keyNewCase, hn, if_false, hi]
    refine ⟨?_, SessionList.getSelected_after_add m.list inst, ?_⟩
    · simp only [SessionList.SetSelectedInstance, SessionList.AddInstance]
      split <;> rfl
    · simp
  · intro h err he
    have hn : ¬ (m.list.NumInstances ≥ GlobalInstanceLimit) := by omega
    simp only [Home.keyNewCase, hn, if_false, he, Home.handleError]

/-- C3 (witness): both branches at concrete dashboards, a full list of ten
sessions and an empty list where `session.NewInstance` succeeds. -/
theorem keyNewCase_spec_witness :
    ({ emptyHome with list := { items := List.replicate 10 demoSession, selectedIdx := 3 } }
        : Home).keyNewCase true (NewInstance 7 0)
        = ({ emptyHome with
              list := { items := List.replicate 10 demoSession, selectedIdx := 3 }
              errBox := some "you can't create more than 10 instances" }, [Cmd.hideErrCmd])
      ∧ (emptyHome.keyNewCase false (NewInstance 2 0)).1.list.items
          = emptyHome.list.items ++ [provisionalSession]
      ∧ (emptyHome.keyNewCase false (NewInstance 2 0)).1.state = State.stateNew :=
  ⟨(keyNewCase_spec true (NewInstance 7 0)
      { emptyHome with list := { items := List.replicate 10 demoSession, selectedIdx := 3 } }).1
      (by decide),
   ((keyNewCase_spec false (NewInstance 2 0) emptyHome).2.1 (by decide)
      provisionalSession (by decide)).1,
   ((keyNewCase_spec false (NewInstance 2 0) emptyHome).2.1 (by decide)
      provisionalSession (by decide)).2.2.1⟩

/-! ### Kill behind the confirmation overlay -/

/-- C4 (counterexample): the session "demo" is non-direct and the checked-out
query fails with a git error. The kill action then neither returns the error
"instance demo is currently checked out" nor calls `Storage.DeleteInstance`:
it returns the git error. Whether the branch is checked out or not, this is
neither of the two behaviours of the claim. -/
theorem killAction_query_error :
    demoSession.DirectMode = false
      ∧ ¬ ((killAction demoSession queryFailsEnv demoHome).msg
              = Msg.error "instance demo is currently checked out"
            ∨ Call.StorageDeleteInstance "demo"
                ∈ (killAction demoSession queryFailsEnv demoHome).calls)
      ∧ (killAction demoSession queryFailsEnv demoHome).msg = Msg.error "exit status 128" := by
  decide

/-- C4 (amended): for a non-direct session whose worktree lookup succeeds and
whose branch is reported checked out, the kill action returns "instance
<title> is currently checked out" without calling `Storage.DeleteInstance` or
`List.Kill` and leaves the dashboard as it was. In direct mode, or when the
branch is reported not checked out, `Storage.DeleteInstance` is the first call
on storage or list and `List.Kill` follows exactly when the delete succeeded;
in direct mode neither the worktree nor `IsBranchCheckedOut` is consulted. When
the worktree lookup or the checked-out query of a non-direct session fails,
that error is returned and neither `Storage.DeleteInstance` nor `List.Kill` is
called. -/
theorem killAction_spec (selected : Instance) (env : ActionEnv) (m : Home) :
    (selected.DirectMode = false → env.gitWorktree = .ok () →
        env.isBranchCheckedOut = .ok true →
        (killAction selected env m).msg
            = Msg.error ("instance " ++ selected.Title ++ " is currently checked out")
          ∧ (killAction selected env m).calls
            = [Call.GetGitWorktree selected.ptr, Call.IsBranchCheckedOut selected.ptr]
          ∧ (killAction selected env m).home = m)
      ∧ (selected.DirectMode = true
            ∨ (env.gitWorktree = .ok () ∧ env.isBranchCheckedOut = .ok false) →
          (killAction selected env m).calls
              = (if selected.DirectMode then []
                  else [Call.GetGitWorktree selected.ptr, Call.IsBranchCheckedOut selected.ptr])
                ++ Call.StorageDeleteInstance selected.Title
                    :: (if env.deleteInstance = .ok () then [Call.ListKill] else [])
            ∧ (env.deleteInstance = .ok () →
                (killAction selected env m).msg = Msg.instanceChangedMsg
                  ∧ (killAction selected env m).home
                      = { m with storage := storageDelete m.storage selected.Title
                                 list := m.list.Kill })
            ∧ (∀ err, env.deleteInstance = .error err →
                (killAction selected env m).msg = Msg.error err
                  ∧ (killAction selected env m).home = m))
      ∧ (selected.DirectMode = false →
          ∀ err, (env.gitWorktree = .error err
              ∨ (env.gitWorktree = .ok () ∧ env.isBranchCheckedOut = .error err)) →
            (killAction selected env m).msg = Msg.error err
              ∧ Call.StorageDeleteInstance selected.Title ∉ (killAction selected env m).calls
              ∧ Call.ListKill ∉ (killAction selected env m).calls
              ∧ (killAction selected env m).home = m) := by
  obtain ⟨gw, co, del, pc⟩ := env
  refine ⟨?_, ?_, ?_⟩
  · intro hd hg hc
    simp only at hg hc
    subst hg hc
    simp [killAction, hd]
  · intro h
    rcases h with hd | ⟨hg, hc⟩
    · cases del with
      | error e => simp [killAction, hd, killActionDelete]
      | ok u => cases u; simp [killAction, hd, killActionDelete]
    · simp only at hg hc
      subst hg hc
      cases hd : selected.DirectMode <;> cases del with
      | error e => simp [killAction, hd, killActionDelete]
      | ok u => cases u; simp [killAction, hd, killActionDelete]
  · intro hd err h
    rcases h with hg | ⟨hg, hc⟩
    · simp only at hg
      subst hg
      simp [killAction, hd]
    · simp only at hg hc
      subst hg hc
      simp [killAction, hd]

/-- C4 (witness): the refusal for the non-direct session "demo" whose branch is
reported checked out. -/
theorem killAction_spec_witness :
    (killAction demoSession checkedOutEnv demoHome).msg
        = Msg.error ("instance " ++ demoSession.Title ++ " is currently checked out")
      ∧ (killAction demoSession checkedOutEnv demoHome).calls
        = [Call.GetGitWorktree demoSession.ptr, Call.IsBranchCheckedOut demoSession.ptr]
      ∧ (killAction demoSession checkedOutEnv demoHome).home = demoHome :=
  (killAction_spec demoSession checkedOutEnv demoHome).1 (by decide) (by decide) (by decide)

theorem killAction_errBox (selected : Instance) (env : ActionEnv) (m : Home) :
    (killAction selected env m).home.errBox = m.errBox := by
  obtain ⟨gw, co, del, pc⟩ := env
  unfold killAction killActionDelete
  repeat' split
  all_goals rfl

theorem pushAction_errBox (selected : Instance) (env : ActionEnv) (m : Home) :
    (pushAction selected env m).home.errBox = m.errBox := by
  unfold pushAction
  repeat' split
  all_goals rfl

theorem handleMenuHighlighting_errBox (m : Home) (msg : KeyMsg) :
    (m.handleMenuHighlighting msg).1.errBox = m.errBox := by
  unfold Home.handleMenuHighlighting
  repeat' split
  all_goals rfl

/-- In state `stateConfirm` a key press never writes the error box and never
returns a command, whatever the stored action returns. -/
theorem handleKeyPressStateConfirm_errBox (m : Home) (msg : KeyMsg) (key : OverlayKey)
    (env : ActionEnv) (r : Home × List Cmd × List Call) (hs : m.state = State.stateConfirm)
    (h : m.handleKeyPressStateConfirm msg key env = some r) :
    r.1.errBox = m.errBox ∧ r.2.1 = [] := by
  have hh : ∀ m1 c b, m.handleMenuHighlighting msg = (m1, c, b) →
      m1.errBox = m.errBox ∧ b = false := by
    intro m1 c b hm
    have h1 := handleMenuHighlighting_errBox m msg
    rw [hm] at h1
    refine ⟨h1, ?_⟩
    unfold Home.handleMenuHighlighting at hm
    simp only [hs, or_true, if_true] at hm
    split at hm <;> simp at hm <;> exact hm.2.2
  unfold Home.handleKeyPressStateConfirm at h
  split at h
  · rename_i m1 c hm
    exact absurd (hh m1 c true hm).2 (by decide)
  · rename_i m1 c hm
    have hm1 := (hh m1 c false hm).1
    split at h
    · exact absurd h (by simp)
    · rename_i o ho
      have key_eff : (o.HandleKeyPress key env m1).1.errBox = m1.errBox := by
        unfold ConfirmationOverlay.HandleKeyPress
        cases key
        · simp only [Home.onConfirm]
          cases o.action with
          | none => rfl
          | some a =>
            cases a with
            | killAction sel => exact killAction_errBox sel env _
            | pushAction sel => exact pushAction_errBox sel env _
        · rfl
        · rfl
      split at h
      · rename_i m2 calls hk
        rw [hk] at key_eff
        simp only [Option.some.injEq] at h
        subst h
        exact ⟨by simpa [hm1] using key_eff, rfl⟩
      · rename_i m2 calls hk
        rw [hk] at key_eff
        simp only [Option.some.injEq] at h
        subst h
        exact ⟨by simpa [hm1] using key_eff, rfl⟩

/-- C5 (the code at the failing input): the overlay is open on the kill of the
non-direct session "demo" whose branch is checked out, and the user confirms.
The stored action returns the error "instance demo is currently checked out",
but the handler returns no command and the error box stays empty: the
dashboard is back in `demoHome`, with "demo" still stored and listed. -/
theorem confirm_kill_error_dropped :
    demoConfirmHome.state = State.stateConfirm
      ∧ ((Action.killAction demoSession).run checkedOutEnv demoConfirmHome).msg
          = Msg.error "instance demo is currently checked out"
      ∧ demoConfirmHome.handleKeyPressStateConfirm keyY OverlayKey.confirm checkedOutEnv
          = some (demoHome, [], [Call.GetGitWorktree 1, Call.IsBranchCheckedOut 1])
      ∧ demoHome.errBox = none
      ∧ (demoHome.updateError "instance demo is currently checked out").1.errBox
          = some "instance demo is currently checked out" := by
  decide

/-! ### Naming a new session -/

/-- C6 (the code at the failing inputs): starting from the empty title, 32 letter
keys followed by the space bar leave a title of 33 characters, and a single
rune key event that carries 40 runes leaves a title of 40 characters. -/
theorem stateNew_title_exceeds_32 :
    namingHome.provisionalTitle = some ""
      ∧ ((namingHome.handleKeysStateNew (List.replicate 32 keyA ++ [keySpace])).bind
            Home.provisionalTitle).map String.length = some 33
      ∧ ((namingHome.handleKeysStateNew [keyPaste]).bind
            Home.provisionalTitle).map String.length = some 40 := by
  decide

/-! ### Diff statistics -/

theorem numstatLine_Content (stats : DiffStats) (line : List Char) :
    (numstatLine stats line).Content = stats.Content := by
  unfold numstatLine
  split <;> rfl

theorem numstatLine_Error (stats : DiffStats) (line : List Char) :
    (numstatLine stats line).Error = stats.Error := by
  unfold numstatLine
  split <;> rfl

theorem foldl_numstatLine_Content (lines : List (List Char)) :
    ∀ stats : DiffStats, (lines.foldl numstatLine stats).Content = stats.Content := by
  induction lines with
  | nil => intro stats; rfl
  | cons l rest ih =>
    intro stats
    rw [List.foldl_cons, ih, numstatLine_Content]

theorem foldl_numstatLine_Error (lines : List (List Char)) :
    ∀ stats : DiffStats, (lines.foldl numstatLine stats).Error = stats.Error := by
  induction lines with
  | nil => intro stats; rfl
  | cons l rest ih =>
    intro stats
    rw [List.foldl_cons, ih, numstatLine_Error]

/-- C7: whatever the git command yields (any output text, or an error), the
statistics returned by `Diff` have an empty `Content`. -/
theorem Diff_Content_empty (git : Except GoError String) : (Diff git).Content = "" := by
  unfold Diff
  split
  · rfl
  · split
    · rfl
    · rw [foldl_numstatLine_Content]; rfl

theorem wrapInt64_add_left (x v : Int) : wrapInt64 (wrapInt64 x + v) = wrapInt64 (x + v) := by
  unfold wrapInt64
  omega

theorem wrapInt64_of_range (x : Int) (h1 : -(2 ^ 63) ≤ x) (h2 : x < 2 ^ 63) :
    wrapInt64 x = x := by
  unfold wrapInt64
  omega

theorem addNumstatField_wrap (x : Int) (field : List Char) :
    addNumstatField (wrapInt64 x) field = wrapInt64 (x + numstatField field) := by
  unfold addNumstatField numstatField
  by_cases h : field = ['-']
  · simp [h]
  · simp only [h, ne_eq, not_false_eq_true, if_true, if_false]
    cases Atoi field with
    | none => simp
    | some v => simp [goAdd, wrapInt64_add_left]

theorem numstatLine_counters (stats : DiffStats) (line : List Char) (a r : Int)
    (ha : stats.Added = wrapInt64 a) (hr : stats.Removed = wrapInt64 r) :
    (numstatLine stats line).Added
        = wrapInt64 (a + lineContribution (fun fs => fs.getD 0 []) line)
      ∧ (numstatLine stats line).Removed
        = wrapInt64 (r + lineContribution (fun fs => fs.getD 1 []) line) := by
  unfold numstatLine lineContribution
  split
  · rename_i p0 p1 ps hs
    simp [hs, ha, hr, addNumstatField_wrap]
  · rename_i hs
    have hlen : ¬ 2 ≤ (Split line '\t').length := by
      intro hl
      match hsp : Split line '\t' with
      | [] => simp [hsp] at hl
      | [_] => simp [hsp] at hl
      | p0 :: p1 :: ps => exact hs p0 p1 ps hsp
    simp [hlen, ha, hr]

theorem foldl_numstatLine_counters (lines : List (List Char)) :
    ∀ (stats : DiffStats) (a r : Int), stats.Added = wrapInt64 a → stats.Removed = wrapInt64 r →
      (lines.foldl numstatLine stats).Added
          = wrapInt64 (a + (lines.map (lineContribution (fun fs => fs.getD 0 []))).sum)
        ∧ (lines.foldl numstatLine stats).Removed
          = wrapInt64 (r + (lines.map (lineContribution (fun fs => fs.getD 1 []))).sum) := by
  induction lines with
  | nil => intro stats a r ha hr; simpa using ⟨ha, hr⟩
  | cons l rest ih =>
    intro stats a r ha hr
    have hstep := numstatLine_counters stats l a r ha hr
    have := ih (numstatLine stats l) _ _ hstep.1 hstep.2
    simpa [List.foldl_cons, List.map_cons, List.sum_cons, add_assoc] using this

theorem sum_lineContribution (pick : List (List Char) → List Char) (lines : List (List Char)) :
    (lines.map (lineContribution pick)).sum
      = (((lines.map (fun row => Split row '\t')).filter
            (fun fields => decide (2 ≤ fields.length))).map
          (fun fields => numstatField (pick fields))).sum := by
  induction lines with
  | nil => rfl
  | cons l rest ih =>
    by_cases h : 2 ≤ (Split l '\t').length
    · simp [List.filter_cons, h, lineContribution, ih]
    · simp [List.filter_cons, h, lineContribution, ih]

theorem Split_ne_nil (s : List Char) (sep : Char) : Split s sep ≠ [] := by
  induction s with
  | nil => simp [Split]
  | cons c cs ih =>
    unfold Split
    split
    · simp
    · split <;> simp

theorem Split_nil (sep : Char) : Split [] sep = [[]] := by
  simp [Split]

/-- C8: for every output text of a successful numstat command, `Diff` returns no
error, `Added` is the sum of the first fields and `Removed` the sum of the
second fields of the tab-separated rows with at least two fields, a field
"-" or a field that is not an integer counting zero; the sums are those of
Go's `int`, that is, taken in 64-bit arithmetic, and exact whenever they lie
in its range. A white-space-only output gives `Added = Removed = 0`. -/
theorem Diff_numstat_counts (output : String) :
    (Diff (.ok output)).Error = none
      ∧ (Diff (.ok output)).Added = wrapInt64 (numstatAddedSum output)
      ∧ (Diff (.ok output)).Removed = wrapInt64 (numstatRemovedSum output)
      ∧ (-(2 ^ 63) ≤ numstatAddedSum output → numstatAddedSum output < 2 ^ 63 →
          (Diff (.ok output)).Added = numstatAddedSum output)
      ∧ (-(2 ^ 63) ≤ numstatRemovedSum output → numstatRemovedSum output < 2 ^ 63 →
          (Diff (.ok output)).Removed = numstatRemovedSum output)
      ∧ (TrimSpace output.data = [] →
          (Diff (.ok output)).Added = 0 ∧ (Diff (.ok output)).Removed = 0) := by
  have hcount : (Diff (.ok output)).Added = wrapInt64 (numstatAddedSum output)
      ∧ (Diff (.ok output)).Removed = wrapInt64 (numstatRemovedSum output) := by
    unfold numstatAddedSum numstatRemovedSum numstatRows
    rw [← sum_lineContribution (fun fs => fs.getD 0 []),
      ← sum_lineContribution (fun fs => fs.getD 1 [])]
    by_cases ht : TrimSpace output.data = []
    · simp [Diff, ht, Split_nil, lineContribution, DiffStats.zero, wrapInt64]
    · have h := foldl_numstatLine_counters (Split (TrimSpace output.data) '\n')
        DiffStats.zero 0 0 (by simp [DiffStats.zero, wrapInt64])
        (by simp [DiffStats.zero, wrapInt64])
      simpa [Diff, ht] using h
  refine ⟨?_, hcount.1, hcount.2, ?_, ?_, ?_⟩
  · unfold Diff
    simp only
    split
    · rfl
    · rw [foldl_numstatLine_Error]; rfl
  · intro h1 h2
    rw [hcount.1, wrapInt64_of_range _ h1 h2]
  · intro h1 h2
    rw [hcount.2, wrapInt64_of_range _ h1 h2]
  · intro ht
    simp [Diff, ht, DiffStats.zero]

theorem diffFullLine_counters (stats : DiffStats) (line : List Char) :
    (diffFullLine stats line).Added = stats.Added + (if isAddedLine line then 1 else 0)
      ∧ (diffFullLine stats line).Removed
          = stats.Removed + (if isRemovedLine line then 1 else 0) := by
  unfold diffFullLine isAddedLine isRemovedLine
  by_cases ha : (HasPrefix line ['+'] && !HasPrefix line ['+', '+', '+']) = true
  · have hm : HasPrefix line ['-'] = false := by
      simp only [Bool.and_eq_true] at ha
      have hp := ha.1
      unfold HasPrefix at hp ⊢
      cases line with
      | nil => simp at hp
      | cons c cs =>
        simp only [List.isPrefixOf, Bool.and_true, beq_iff_eq] at hp
        subst hp
        simp [List.isPrefixOf]
    simp [ha, hm]
  · by_cases hr : (HasPrefix line ['-'] && !HasPrefix line ['-', '-', '-']) = true
    · simp [ha, hr]
    · simp [ha, hr]

theorem foldl_diffFullLine_counters (lines : List (List Char)) :
    ∀ stats : DiffStats,
      (lines.foldl diffFullLine stats).Added = stats.Added + (lines.countP isAddedLine : Nat)
        ∧ (lines.foldl diffFullLine stats).Removed
            = stats.Removed + (lines.countP isRemovedLine : Nat) := by
  induction lines with
  | nil => intro stats; simp
  | cons l rest ih =>
    intro stats
    have hstep := diffFullLine_counters stats l
    have h := ih (diffFullLine stats l)
    rw [List.foldl_cons, h.1, h.2, hstep.1, hstep.2, List.countP_cons, List.countP_cons]
    constructor
    · by_cases hl : isAddedLine l = true
      · simp [hl]; ring
      · simp [hl]
    · by_cases hl : isRemovedLine l = true
      · simp [hl]; ring
      · simp [hl]

/-- C9: when both git commands succeed, `DiffFull` returns the diff text
unchanged as `Content`, no error, `Added` equal to the number of lines of the
text (split at "\n") that start with "+" but not with "+++", and `Removed`
equal to the number of lines that start with "-" but not with "---". -/
theorem DiffFull_counts (addOutput content : String) :
    (DiffFull (.ok addOutput) (.ok content)).Content = content
      ∧ (DiffFull (.ok addOutput) (.ok content)).Error = none
      ∧ (DiffFull (.ok addOutput) (.ok content)).Added
          = ((Split content.data '\n').countP isAddedLine : Nat)
      ∧ (DiffFull (.ok addOutput) (.ok content)).Removed
          = ((Split content.data '\n').countP isRemovedLine : Nat) := by
  have h := foldl_diffFullLine_counters (Split content.data '\n') DiffStats.zero
  have herr : ∀ (lines : List (List Char)) (stats : DiffStats),
      (lines.foldl diffFullLine stats).Error = stats.Error := by
    intro lines
    induction lines with
    | nil => intro stats; rfl
    | cons l rest ih =>
      intro stats
      rw [List.foldl_cons, ih]
      unfold diffFullLine
      split
      · rfl
      · split <;> rfl
  refine ⟨rfl, ?_, ?_, ?_⟩
  · simp [DiffFull, herr, DiffStats.zero]
  · simpa [DiffFull, DiffStats.zero] using h.1
  · simpa [DiffFull, DiffStats.zero] using h.2

/-- C10 (the code at the failing input): the tracked file `a.c` gained the line
`++i;` and the untracked file `new.txt` holds two lines. Numstat reports one
added line, so `Diff` returns `Added = 1`; the unified diff prints the added
line as `+++i;`, which `DiffFull` takes for a file header, so `DiffFull`
returns `Added = 2`, less than `1 + 2`. -/
theorem DiffFull_added_below_Diff :
    gitNumstat incrementChanges = "1\t0\ta.c\n"
      ∧ (Diff (.ok (gitNumstat incrementChanges))).Added = 1
      ∧ untrackedAdditions incrementChanges = 2
      ∧ (DiffFull (.ok "") (.ok (gitUnifiedDiff incrementChanges))).Added = 2
      ∧ (DiffFull (.ok "") (.ok (gitUnifiedDiff incrementChanges))).Added
          < (Diff (.ok (gitNumstat incrementChanges))).Added
              + untrackedAdditions incrementChanges := by
  decide

/-- C8 (witness): a numstat output of three rows, one of them binary; the sums
13 and 7 lie in the range of `int` and are what `Diff` returns. -/
theorem Diff_numstat_counts_witness :
    (Diff (.ok sampleNumstat)).Added = numstatAddedSum sampleNumstat
      ∧ (Diff (.ok sampleNumstat)).Removed = numstatRemovedSum sampleNumstat
      ∧ numstatAddedSum sampleNumstat = 13 ∧ numstatRemovedSum sampleNumstat = 7 :=
  ⟨(Diff_numstat_counts sampleNumstat).2.2.2.1 (by decide) (by decide),
   (Diff_numstat_counts sampleNumstat).2.2.2.2.1 (by decide) (by decide),
   by decide, by decide⟩

/-! ### Probe results and ticks -/

/-- C14: a status-probe result that carries an error, whatever its `updated` and
`prompt` values, leaves the dashboard and the session (status, Enter presses
and all other fields) as they were and returns no command; so does the result
`makeTmuxStatusCmd` builds when its 400 ms timeout fires. -/
theorem updateTmuxStatusMsg_error (m : Home) (inst : Instance) (updated prompt : Bool)
    (err : GoError) (seen : Bool × Bool) :
    m.updateTmuxStatusMsg inst { updated := updated, prompt := prompt, err := some err }
        = (m, inst, [])
      ∧ (makeTmuxStatusMsg none seen).err = some "tmux status timeout"
      ∧ m.updateTmuxStatusMsg inst (makeTmuxStatusMsg none seen) = (m, inst, []) := by
  refine ⟨rfl, rfl, rfl⟩

/-- C15 (counterexample): the session "demo" is not in the list of the
dashboard (the list is empty). A status-probe result with `updated = false` and
`prompt = false` still changes its status from `Running` to `Ready`, and a
diff-probe result still replaces its cached statistics. -/
theorem probe_results_reach_unlisted_session :
    demoSession ∉ emptyHome.list.GetInstances
      ∧ demoSession.Status = Status.Running
      ∧ (emptyHome.updateTmuxStatusMsg demoSession
            { updated := false, prompt := false, err := none }).2.1.Status = Status.Ready
      ∧ (emptyHome.updateGitDiffMsg demoSession none
            { stats := some sampleStats, err := none }).2.1 = some sampleStats := by
  decide

/-- C15 (amended): handling a probe result does not consult the list. For a
session that is not in the list the dashboard stays as it is, no command is
returned and the diff pane is not refreshed, but the session itself is updated
as any other: a status result sets its status or calls `TapEnter` as the
handler does for every session, and a diff result without error stores the
statistics it carries. -/
theorem probe_results_unlisted (m : Home) (inst : Instance) (smsg : TmuxStatusMsg)
    (cached : Option DiffStats) (dmsg : GitDiffMsg)
    (h : ∀ i ∈ m.list.GetInstances, i.ptr ≠ inst.ptr) :
    m.updateTmuxStatusMsg inst smsg = (m, updateTmuxStatus inst smsg, [])
      ∧ (dmsg.err = none →
          m.updateGitDiffMsg inst cached dmsg = (m, dmsg.stats, false, []))
      ∧ (dmsg.err ≠ none →
          m.updateGitDiffMsg inst cached dmsg = (m, cached, false, [])) := by
  refine ⟨rfl, ?_, ?_⟩
  · intro he
    have hsel : ¬ (some inst.ptr = m.list.GetSelectedInstance.map (fun i => i.ptr)) := by
      intro hs
      cases hg : m.list.GetSelectedInstance with
      | none => simp [hg] at hs
      | some sel =>
        simp only [hg, Option.map_some', Option.some.injEq] at hs
        have hmem : sel ∈ m.list.GetInstances := by
          unfold SessionList.GetSelectedInstance at hg
          unfold SessionList.GetInstances
          exact List.get?_mem hg
        exact h sel hmem hs.symm
    simp [Home.updateGitDiffMsg, he, setDiffStats, hsel]
  · intro he
    cases hd : dmsg.err with
    | none => exact absurd hd he
    | some e => simp [Home.updateGitDiffMsg, hd]

/-- C15 (witness): the unlisted session "demo" and a status result with
`updated = true`. -/
theorem probe_results_unlisted_witness :
    emptyHome.updateTmuxStatusMsg demoSession { updated := true, prompt := false, err := none }
        = (emptyHome,
            updateTmuxStatus demoSession { updated := true, prompt := false, err := none }, []) :=
  (probe_results_unlisted emptyHome demoSession
    { updated := true, prompt := false, err := none } none
    { stats := some sampleStats, err := none } (by decide)).1

theorem metadataTickStep_eq (selected : Option Nat) (now : Int) (acc : List Cmd × Nat)
    (inst : Instance) :
    metadataTickStep selected now acc inst
      = if qualifies selected now inst && decide (acc.2 < maxScheduled)
        then (acc.1 ++ [Cmd.tmuxStatusCmd inst.ptr], acc.2 + 1) else acc := by
  unfold metadataTickStep qualifies
  cases hs : inst.Started <;> cases hp : inst.Paused <;> simp

theorem metadataTick_foldl_eq (selected : Option Nat) (now : Int) (instances : List Instance) :
    ∀ acc : List Cmd × Nat, acc.2 ≤ maxScheduled →
      (instances.foldl (metadataTickStep selected now) acc).1
        = acc.1 ++ (((instances.filter (qualifies selected now)).take
            (maxScheduled - acc.2)).map (fun i => Cmd.tmuxStatusCmd i.ptr)) := by
  induction instances with
  | nil => intro acc _; simp
  | cons i rest ih =>
    intro acc hacc
    rw [List.foldl_cons, metadataTickStep_eq]
    by_cases hq : qualifies selected now i = true
    · by_cases hlt : acc.2 < maxScheduled
      · have hstep : (qualifies selected now i && decide (acc.2 < maxScheduled)) = true := by
          simp [hq, hlt]
        rw [if_pos hstep, ih _ (by simpa using hlt)]
        obtain ⟨k, hk⟩ : ∃ k, maxScheduled - acc.2 = k + 1 := ⟨maxScheduled - acc.2 - 1, by omega⟩
        have hk2 : maxScheduled - (acc.2 + 1) = k := by omega
        simp [List.filter_cons, hq, hk, hk2]
      · have hstep : ¬ (qualifies selected now i && decide (acc.2 < maxScheduled)) = true := by
          simp [hlt]
        have hz : maxScheduled - acc.2 = 0 := by omega
        rw [if_neg hstep, ih _ hacc, hz]
        simp
    · have hstep : ¬ (qualifies selected now i && decide (acc.2 < maxScheduled)) = true := by
        simp [hq]
      rw [if_neg hstep, ih _ hacc]
      simp [List.filter_cons, hq]

theorem updateMetadataTick_eq (selected : Option Nat) (now : Int) (instances : List Instance) :
    updateMetadataTick selected now instances
      = ((instances.filter (qualifies selected now)).take 4).map
          (fun i => Cmd.tmuxStatusCmd i.ptr) ++ [Cmd.tickUpdateMetadataCmd] := by
  unfold updateMetadataTick metadataTickLoop
  rw [metadataTick_foldl_eq selected now instances ([], 0) (by simp)]
  simp [maxScheduled]

theorem probedSessions_updateMetadataTick (selected : Option Nat) (now : Int)
    (instances : List Instance) :
    probedSessions (updateMetadataTick selected now instances)
      = ((instances.filter (qualifies selected now)).take 4).map (fun i => i.ptr) := by
  rw [updateMetadataTick_eq]
  unfold probedSessions
  rw [List.filterMap_append, List.filterMap_map]
  have hmap : ∀ l : List Instance,
      l.filterMap (fun x => some x.ptr) = l.map (fun i => i.ptr) := by
    intro l
    induction l with
    | nil => rfl
    | cons a t ih => simp [List.filterMap_cons, ih]
  simp only [Function.comp_def, List.filterMap_nil, List.filterMap_cons, List.append_nil]
  rw [hmap]

/-- C16 (counterexample): five started AutoYes sessions all qualify on both
ticks, half a second apart; the fifth is probed on neither: both ticks probe
the sessions 1 to 4. -/
theorem fifth_session_never_probed :
    (fiveAutoYes.filter (qualifies none 1000000000000)).length = 5
      ∧ (fiveAutoYes.filter (qualifies none 1000500000000)).length = 5
      ∧ probedSessions (updateMetadataTick none 1000000000000 fiveAutoYes) = [1, 2, 3, 4]
      ∧ probedSessions (updateMetadataTick none 1000500000000 fiveAutoYes) = [1, 2, 3, 4] := by
  decide

/-- C16 (amended): a metadata tick probes the first 4 qualifying sessions in list
order and no other; when the list, the selection and each session's qualifying
condition are the same on the next tick, that tick returns the same batch, so
a qualifying session beyond the fourth is not probed on the next tick either. -/
theorem metadataTick_same_batch (selected : Option Nat) (now next : Int)
    (instances : List Instance)
    (h : ∀ inst ∈ instances, qualifies selected next inst = qualifies selected now inst) :
    probedSessions (updateMetadataTick selected now instances)
        = ((instances.filter (qualifies selected now)).take 4).map (fun i => i.ptr)
      ∧ updateMetadataTick selected next instances
        = updateMetadataTick selected now instances := by
  refine ⟨probedSessions_updateMetadataTick selected now instances, ?_⟩
  rw [updateMetadataTick_eq, updateMetadataTick_eq]
  have hf : instances.filter (qualifies selected next)
      = instances.filter (qualifies selected now) :=
    List.filter_congr h
  rw [hf]

/-- C16 (witness): the five AutoYes sessions on two ticks half a second apart. -/
theorem metadataTick_same_batch_witness :
    probedSessions (updateMetadataTick none 1000000000000 fiveAutoYes)
        = ((fiveAutoYes.filter (qualifies none 1000000000000)).take 4).map (fun i => i.ptr)
      ∧ updateMetadataTick none 1000500000000 fiveAutoYes
        = updateMetadataTick none 1000000000000 fiveAutoYes :=
  metadataTick_same_batch none 1000000000000 1000500000000 fiveAutoYes (by decide)

theorem qualifies_iff (selected : Option Nat) (now : Int) (inst : Instance) :
    qualifies selected now inst = true ↔
      inst.Started = true ∧ inst.Paused = false
        ∧ (some inst.ptr = selected ∨ inst.AutoYes = true
            ∨ now - inst.CreatedAt < warmupWindow) := by
  unfold qualifies
  simp [Bool.and_eq_true, Bool.or_eq_true, and_assoc, or_assoc]

/-- C17: every status probe of a metadata tick targets a session of the list
that is started, not paused, and selected, or AutoYes, or created less than 5
seconds before the tick; and when at most 4 sessions of the list satisfy this,
the probes are exactly these sessions, in list order, one probe each (for
sessions with distinct pointers every such session is probed exactly once). -/
theorem metadataTick_probes (selected : Option Nat) (now : Int) (instances : List Instance) :
    (∀ p ∈ probedSessions (updateMetadataTick selected now instances),
        ∃ inst ∈ instances, inst.ptr = p ∧ inst.Started = true ∧ inst.Paused = false
          ∧ (some inst.ptr = selected ∨ inst.AutoYes = true
              ∨ now - inst.CreatedAt < warmupWindow))
      ∧ ((instances.filter (qualifies selected now)).length ≤ 4 →
          probedSessions (updateMetadataTick selected now instances)
            = (instances.filter (qualifies selected now)).map (fun i => i.ptr))
      ∧ ((instances.filter (qualifies selected now)).length ≤ 4 →
          (instances.map (fun i => i.ptr)).Nodup →
          ∀ inst ∈ instances, qualifies selected now inst = true →
            (probedSessions (updateMetadataTick selected now instances)).count inst.ptr = 1) := by
  have hall : (instances.filter (qualifies selected now)).length ≤ 4 →
      probedSessions (updateMetadataTick selected now instances)
        = (instances.filter (qualifies selected now)).map (fun i => i.ptr) := by
    intro hle
    rw [probedSessions_updateMetadataTick, List.take_of_length_le hle]
  refine ⟨?_, hall, ?_⟩
  · intro p hp
    rw [probedSessions_updateMetadataTick] at hp
    obtain ⟨inst, hin, hptr⟩ := List.mem_map.mp hp
    have hf : inst ∈ instances.filter (qualifies selected now) := List.mem_of_mem_take hin
    obtain ⟨hmem, hq⟩ := List.mem_filter.mp hf
    exact ⟨inst, hmem, hptr, (qualifies_iff selected now inst).mp hq⟩
  · intro hle hnd inst hmem hq
    rw [hall hle]
    have hsub : ((instances.filter (qualifies selected now)).map (fun i => i.ptr)).Sublist
        (instances.map (fun i => i.ptr)) :=
      List.Sublist.map _ (List.filter_sublist _)
    have hnd2 := hnd.sublist hsub
    have hin : inst.ptr ∈ (instances.filter (qualifies selected now)).map (fun i => i.ptr) :=
      List.mem_map.mpr ⟨inst, List.mem_filter.mpr ⟨hmem, hq⟩, rfl⟩
    exact List.count_eq_one_of_mem hnd2 hin

/-- C17 (witness): the selected session and one AutoYes session out of three
started sessions; both are probed once, the third one is not. -/
theorem metadataTick_probes_witness :
    probedSessions (updateMetadataTick (some 1) 1000000000000
        [demoSession, { demoSession with ptr := 2 }, { demoSession with ptr := 3, AutoYes := true }])
      = ([demoSession, { demoSession with ptr := 2 },
            { demoSession with ptr := 3, AutoYes := true }].filter
          (qualifies (some 1) 1000000000000)).map (fun i => i.ptr) :=
  (metadataTick_probes (some 1) 1000000000000
    [demoSession, { demoSession with ptr := 2 },
      { demoSession with ptr := 3, AutoYes := true }]).2.1 (by decide)

/-- C18: for every dashboard, clock value and outcome of the preview refresh, the
batch returned for a metadata tick contains the command of the next metadata
tick, and the batch returned for a preview tick contains the command of the
next preview tick. -/
theorem ticks_reschedule (m : Home) (now : Int) (updateContent : Option GoError) :
    Cmd.tickUpdateMetadataCmd ∈ (m.updateTickUpdateMetadata now).2
      ∧ Cmd.previewTickCmd ∈ (m.updatePreviewTick updateContent).2 := by
  constructor
  · simp [Home.updateTickUpdateMetadata, updateMetadataTick]
  · simp [Home.updatePreviewTick]

/-- C19: with a session selected, the kill key and the push key only store their
action in the overlay and enter `stateConfirm`: storage, list and every other
field stay as they were and no command is returned. In `stateConfirm` a key the
overlay ignores or reads as cancel runs no call of the action, cancel and
confirm close the overlay and return to `stateDefault`, and the calls made on
confirm are those of the stored action. -/
theorem confirm_gate (m : Home) (sel : Instance) (msg : KeyMsg) (env : ActionEnv)
    (h : m.list.GetSelectedInstance = some sel) :
    m.keyKillCase
        = ({ m with state := State.stateConfirm
                    confirmationOverlay := some
                      { message := "[!] Kill session '" ++ sel.Title ++ "'?", width := 50
                        action := some (Action.killAction sel) } }, [])
      ∧ m.keySubmitCase
        = ({ m with state := State.stateConfirm
                    confirmationOverlay := some
                      { message := "[!] Push changes from session '" ++ sel.Title ++ "'?"
                        width := 50
                        action := some (Action.pushAction sel) } }, [])
      ∧ (∀ m1 ∈ [m.keyKillCase.1, m.keySubmitCase.1],
          m1.handleKeyPressStateConfirm msg OverlayKey.ignored env
              = some ({ m1 with keySent := false }, [], [])
            ∧ m1.handleKeyPressStateConfirm msg OverlayKey.cancel env
              = some ({ m1 with keySent := false, state := State.stateDefault
                                confirmationOverlay := none }, [], []))
      ∧ (m.keyKillCase.1.handleKeyPressStateConfirm msg OverlayKey.confirm env).map
            (fun r => (r.1.state, r.1.confirmationOverlay, r.2.2))
          = some (State.stateDefault, none,
              (killAction sel env { m with keySent := false, state := State.stateDefault
                                           confirmationOverlay := some
                                             { message := "[!] Kill session '" ++ sel.Title ++ "'?"
                                               width := 50
                                               action := some (Action.killAction sel) } }).calls)
      ∧ (m.keySubmitCase.1.handleKeyPressStateConfirm msg OverlayKey.confirm env).map
            (fun r => (r.1.state, r.1.confirmationOverlay, r.2.2))
          = some (State.stateDefault, none,
              (pushAction sel env { m with keySent := false, state := State.stateDefault
                                           confirmationOverlay := some
                                             { message :=
                                                 "[!] Push changes from session '" ++ sel.Title ++ "'?"
                                               width := 50
                                               action := some (Action.pushAction sel) } }).calls) := by
  have hk : m.keyKillCase
        = ({ m with state := State.stateConfirm
                    confirmationOverlay := some
                      { message := "[!] Kill session '" ++ sel.Title ++ "'?", width := 50
                        action := some (Action.killAction sel) } }, []) := by
    simp [Home.keyKillCase, h, Home.confirmAction]
  have hp : m.keySubmitCase
        = ({ m with state := State.stateConfirm
                    confirmationOverlay := some
                      { message := "[!] Push changes from session '" ++ sel.Title ++ "'?"
                        width := 50
                        action := some (Action.pushAction sel) } }, []) := by
    simp [Home.keySubmitCase, h, Home.confirmAction]
  refine ⟨hk, hp, ?_, ?_, ?_⟩
  · intro m1 hm1
    simp only [List.mem_cons, List.mem_singleton, List.not_mem_nil, or_false] at hm1
    rcases hm1 with h1 | h1 <;> subst h1
    · rw [hk]
      cases hks : m.keySent <;>
        simp [Home.handleKeyPressStateConfirm, Home.handleMenuHighlighting, hks,
          ConfirmationOverlay.HandleKeyPress, Home.onCancel]
    · rw [hp]
      cases hks : m.keySent <;>
        simp [Home.handleKeyPressStateConfirm, Home.handleMenuHighlighting, hks,
          ConfirmationOverlay.HandleKeyPress, Home.onCancel]
  · rw [hk]
    cases hks : m.keySent <;>
      simp [Home.handleKeyPressStateConfirm, Home.handleMenuHighlighting, hks,
        ConfirmationOverlay.HandleKeyPress, Home.onConfirm, Action.run]
  · rw [hp]
    cases hks : m.keySent <;>
      simp [Home.handleKeyPressStateConfirm, Home.handleMenuHighlighting, hks,
        ConfirmationOverlay.HandleKeyPress, Home.onConfirm, Action.run]

/-- C19 (witness): the kill key on the dashboard that lists and selects "demo". -/
theorem confirm_gate_witness :
    demoHome.keyKillCase
      = ({ demoHome with state := State.stateConfirm
                         confirmationOverlay := some
                           { message := "[!] Kill session '" ++ demoSession.Title ++ "'?"
                             width := 50
                             action := some (Action.killAction demoSession) } }, []) :=
  (confirm_gate demoHome demoSession keyY checkedOutEnv (by decide)).1

/-! ### Workspace operations -/

/-- C11: for a direct-mode workspace, `Cleanup` starts the one process
`git checkout <OriginalBranch>` exactly when `OriginalBranch` is non-empty and
differs from the session branch, starts no other git process and removes no
reference, leaves the workspace as it is and returns nil whatever the
checkout and the other collaborators answer. -/
theorem Cleanup_direct (g : GitWorktree) (combineErrors : List GoError → GoError)
    (env : CleanupEnv) (h : g.DirectMode = true) :
    (g.Cleanup combineErrors env).err = none
      ∧ (g.Cleanup combineErrors env).worktree = g
      ∧ (g.Cleanup combineErrors env).effects
          = (if g.OriginalBranch ≠ "" ∧ g.OriginalBranch ≠ g.branchName
              then [GitEffect.command g.repoPath ["checkout", g.OriginalBranch]] else [])
      ∧ (GitEffect.command g.repoPath ["checkout", g.OriginalBranch]
            ∈ (g.Cleanup combineErrors env).effects
          ↔ g.OriginalBranch ≠ "" ∧ g.OriginalBranch ≠ g.branchName) := by
  unfold GitWorktree.Cleanup GitWorktree.CleanupDirect
  simp only [h, if_true]
  by_cases hc : g.OriginalBranch ≠ "" ∧ g.OriginalBranch ≠ g.branchName
  · simp [hc]
  · simp [hc]

/-- C11 (witness): the direct-mode workspace on "feature-x" started from "main";
the checkout back to "main" fails and `Cleanup` still returns nil. -/
theorem Cleanup_direct_witness :
    (directWorktree.Cleanup (fun errs => String.join errs) checkoutFailsEnv).err = none
      ∧ (directWorktree.Cleanup (fun errs => String.join errs) checkoutFailsEnv).effects
          = [GitEffect.command "/repo" ["checkout", "main"]] :=
  ⟨(Cleanup_direct directWorktree (fun errs => String.join errs) checkoutFailsEnv rfl).1,
   by decide⟩

theorem failed_ne_branch (x y : String) : "failed " ++ x ≠ "branch '" ++ y := by
  intro h
  have hd := congrArg String.data h
  simp only [String.data_append] at hd
  have hh := congrArg List.head? hd
  simp at hh

/-- C12 (counterexample): an openable repository without commits, and the target
branch "feature-x", which does not exist and is none of main, master, develop.
`SetupDirect` starts no checkout process at all: it returns "failed to get
HEAD: reference not found". -/
theorem SetupDirect_head_unresolved :
    noCommitEnv.plainOpen = none ∧ noCommitEnv.branchExists = false
      ∧ (directWorktree.SetupDirect noCommitEnv).effects = []
      ∧ (directWorktree.SetupDirect noCommitEnv).err
          = some "failed to get HEAD: reference not found" := by
  decide

/-- C12 (amended): on an openable repository `SetupDirect` returns "branch
'<name>' does not exist" exactly when the branch does not exist and its name is
main, master or develop, and then it starts no process and leaves the workspace
(with its `baseCommitSHA`) as it is. For every other missing branch it starts
`git checkout -b <branch>` as its only process when HEAD resolves, and fails
with "failed to get HEAD: ..." without any process when HEAD does not resolve.
For an existing branch it starts `git checkout <branch>` as its only process. -/
theorem SetupDirect_spec (g : GitWorktree) (env : SetupDirectEnv) (h : env.plainOpen = none) :
    ((g.SetupDirect env).err = some ("branch '" ++ g.branchName ++ "' does not exist")
        ↔ env.branchExists = false
            ∧ (g.branchName = "main" ∨ g.branchName = "master" ∨ g.branchName = "develop"))
      ∧ (env.branchExists = false
            ∧ (g.branchName = "main" ∨ g.branchName = "master" ∨ g.branchName = "develop") →
          (g.SetupDirect env).effects = [] ∧ (g.SetupDirect env).worktree = g)
      ∧ (env.branchExists = false
            ∧ ¬ (g.branchName = "main" ∨ g.branchName = "master" ∨ g.branchName = "develop") →
          (∀ hash, env.head = .ok hash →
              (g.SetupDirect env).effects
                = [GitEffect.command g.repoPath ["checkout", "-b", g.branchName]])
            ∧ (∀ err, env.head = .error err →
                (g.SetupDirect env).effects = [] ∧ (g.SetupDirect env).worktree = g
                  ∧ (g.SetupDirect env).err = some ("failed to get HEAD: " ++ err)))
      ∧ (env.branchExists = true →
          (g.SetupDirect env).effects
            = [GitEffect.command g.repoPath ["checkout", g.branchName]]) := by
  obtain ⟨po, be, head, out, cerr, res⟩ := env
  simp only at h
  subst h
  refine ⟨?_, ?_, ?_, ?_⟩
  · constructor
    · intro herr
      cases be with
      | true =>
        exfalso
        cases cerr with
        | none => simp [GitWorktree.SetupDirect] at herr
        | some e =>
          simp only [GitWorktree.SetupDirect, Bool.not_true, Bool.false_eq_true, if_false,
            Option.some.injEq] at herr
          exact failed_ne_branch _ _ (by simpa [String.append_assoc] using herr)
      | false =>
        refine ⟨rfl, ?_⟩
        by_contra hn
        cases head with
        | error e =>
          simp only [GitWorktree.SetupDirect, Bool.not_false, if_true, hn, if_false,
            Option.some.injEq] at herr
          exact failed_ne_branch _ _ (by simpa [String.append_assoc] using herr)
        | ok hash =>
          cases cerr with
          | none => simp [GitWorktree.SetupDirect, hn] at herr
          | some e =>
            simp only [GitWorktree.SetupDirect, Bool.not_false, if_true, hn, if_false,
              Option.some.injEq] at herr
            exact failed_ne_branch _ _ (by simpa [String.append_assoc] using herr)
    · rintro ⟨hb, hn⟩
      simp only at hb
      subst hb
      simp [GitWorktree.SetupDirect, hn]
  · rintro ⟨hb, hn⟩
    simp only at hb
    subst hb
    simp [GitWorktree.SetupDirect, hn]
  · rintro ⟨hb, hn⟩
    simp only at hb
    subst hb
    constructor
    · intro hash hh
      simp only at hh
      subst hh
      cases cerr <;> simp [GitWorktree.SetupDirect, hn]
    · intro err hh
      simp only at hh
      subst hh
      simp [GitWorktree.SetupDirect, hn]
  · intro hb
    simp only at hb
    subst hb
    cases cerr <;> simp [GitWorktree.SetupDirect]

/-- C12 (witness): the direct-mode workspace on "feature-x" and a repository
where that branch exists. -/
theorem SetupDirect_spec_witness :
    (directWorktree.SetupDirect existingBranchEnv).effects
      = [GitEffect.command directWorktree.repoPath ["checkout", directWorktree.branchName]] :=
  (SetupDirect_spec directWorktree existingBranchEnv rfl).2.2.2 rfl

/-- C13 (counterexample): the base commit of the workspace is pinned to
"aaa111"; a later `Setup` finds the session branch gone while HEAD is at
"bbb222", creates the branch anew and rewrites `baseCommitSHA` to "bbb222".
`SetupDirect` on a missing branch does the same. -/
theorem Setup_rewrites_baseCommitSHA :
    pinnedWorktree.baseCommitSHA = "aaa111"
      ∧ (pinnedWorktree.Setup branchGoneEnv).err = none
      ∧ (pinnedWorktree.Setup branchGoneEnv).worktree.baseCommitSHA = "bbb222"
      ∧ ({ directWorktree with baseCommitSHA := "aaa111" }.SetupDirect
            { existingBranchEnv with branchExists := false }).worktree.baseCommitSHA
          = "bbb222" := by
  decide

theorem setupNewWorktree_baseCommitSHA (g : GitWorktree) (env : SetupEnv) :
    (env.mkdirWorktrees = none ∧ env.plainOpenAgain = none
        ∧ env.cleanupExistingBranch = none →
      ∀ output, env.revParse = .ok output →
        (g.setupNewWorktree env).worktree
            = { g with baseCommitSHA := String.mk (TrimSpace output.data) }
          ∧ (g.setupNewWorktree env).err.isSome = env.worktreeAdd.isSome)
      ∧ (¬ (env.mkdirWorktrees = none ∧ env.plainOpenAgain = none
              ∧ env.cleanupExistingBranch = none)
            ∨ (∃ err, env.revParse = .error err) →
          (g.setupNewWorktree env).worktree = g ∧ (g.setupNewWorktree env).err ≠ none) := by
  obtain ⟨wd, mk, po, be, mf, wr, wa, mkw, poa, ceb, rp, dir⟩ := env
  unfold GitWorktree.setupNewWorktree
  cases mkw <;> cases poa <;> cases ceb <;> cases rp <;> cases wa <;> simp

/-- C13 (amended): for a workspace whose `baseCommitSHA` is set, `Remove`,
`Prune`, `CleanupDirect` and `Cleanup` leave the workspace unchanged, and so do
`SetupDirect` and `Setup` (in either mode) whenever they find the session
branch existing, as the re-Setup of a resumed session does. When they find the
branch missing, `baseCommitSHA` is rewritten to the current HEAD at a point
that differs with the mode. `SetupDirect` (and `Setup` in direct mode, which
is `SetupDirect`) writes the hash of `repo.Head()` exactly when it returns no
error, that is after `checkout -b` has succeeded, and leaves the workspace
unchanged when it returns an error. `Setup` outside direct mode writes the
trimmed output of `rev-parse HEAD` as soon as that process has answered, which
is before `worktree add`: the field is rewritten also when the add then fails;
when an earlier step fails or `rev-parse` fails the workspace is unchanged and
an error is returned. -/
theorem baseCommitSHA_kept (g : GitWorktree) (h : g.baseCommitSHA ≠ "") :
    (∀ err, (g.Remove err).worktree = g)
      ∧ (∀ err, (g.Prune err).worktree = g)
      ∧ (∀ err, (g.CleanupDirect err).worktree = g)
      ∧ (∀ combineErrors env, (g.Cleanup combineErrors env).worktree = g)
      ∧ (∀ env : SetupDirectEnv, env.branchExists = true → (g.SetupDirect env).worktree = g)
      ∧ (∀ env : SetupEnv, g.DirectMode = false → env.branchExists = true →
          (g.Setup env).worktree = g)
      ∧ (∀ env : SetupEnv, g.DirectMode = true → env.direct.branchExists = true →
          (g.Setup env).worktree = g)
      ∧ (∀ env : SetupEnv, g.DirectMode = true → g.Setup env = g.SetupDirect env.direct)
      ∧ (∀ env : SetupDirectEnv, env.branchExists = false →
          ((g.SetupDirect env).err = none ↔
              env.plainOpen = none
                ∧ ¬ (g.branchName = "main" ∨ g.branchName = "master" ∨ g.branchName = "develop")
                ∧ (∃ hash, env.head = .ok hash) ∧ env.checkoutErr = none)
            ∧ ((g.SetupDirect env).err = none →
                ∃ hash, env.head = .ok hash
                  ∧ (g.SetupDirect env).worktree = { g with baseCommitSHA := hash })
            ∧ ((g.SetupDirect env).err ≠ none → (g.SetupDirect env).worktree = g))
      ∧ (∀ env : SetupEnv, g.DirectMode = false → env.branchExists = false →
          ((∃ dir, env.worktreeDirectory = .ok dir) ∧ env.mkdirAll = none ∧ env.plainOpen = none
              ∧ env.mkdirWorktrees = none ∧ env.plainOpenAgain = none
              ∧ env.cleanupExistingBranch = none →
            ∀ output, env.revParse = .ok output →
              (g.Setup env).worktree
                  = { g with baseCommitSHA := String.mk (TrimSpace output.data) }
                ∧ (g.Setup env).err.isSome = env.worktreeAdd.isSome)
            ∧ (¬ ((∃ dir, env.worktreeDirectory = .ok dir) ∧ env.mkdirAll = none
                    ∧ env.plainOpen = none ∧ env.mkdirWorktrees = none
                    ∧ env.plainOpenAgain = none ∧ env.cleanupExistingBranch = none)
                  ∨ (∃ err, env.revParse = .error err) →
                (g.Setup env).worktree = g ∧ (g.Setup env).err ≠ none)) := by
  have hdirect : ∀ env : SetupDirectEnv, env.branchExists = true →
      (g.SetupDirect env).worktree = g := by
    intro env hb
    obtain ⟨po, be, head, out, cerr, res⟩ := env
    simp only at hb
    subst hb
    cases po <;> cases cerr <;> cases res <;> simp [GitWorktree.SetupDirect, h]
  refine ⟨?_, ?_, ?_, ?_, hdirect, ?_, ?_, ?_, ?_, ?_⟩
  · intro err
    unfold GitWorktree.Remove
    split <;> rfl
  · intro err
    rfl
  · intro err
    unfold GitWorktree.CleanupDirect
    split <;> rfl
  · intro combineErrors env
    unfold GitWorktree.Cleanup GitWorktree.CleanupDirect
    repeat' split
    all_goals rfl
  · intro env hd hb
    unfold GitWorktree.Setup GitWorktree.setupFromExistingBranch
    simp only [hd, hb]
    repeat' split
    all_goals first
      | rfl
      | (rename_i hc; simp at hc)
  · intro env hd hb
    unfold GitWorktree.Setup
    simp only [hd, if_true]
    exact hdirect env.direct hb
  · intro env hd
    unfold GitWorktree.Setup
    simp only [hd, if_true]
  · intro env hb
    obtain ⟨po, be, head, out, cerr, res⟩ := env
    simp only at hb
    subst hb
    by_cases hn : g.branchName = "main" ∨ g.branchName = "master" ∨ g.branchName = "develop"
    · cases po <;> simp [GitWorktree.SetupDirect, hn]
    · cases po <;> cases head <;> cases cerr <;> simp [GitWorktree.SetupDirect, hn]
  · intro env hd hb
    have hnew := setupNewWorktree_baseCommitSHA g env
    have hS : (∃ dir, env.worktreeDirectory = .ok dir) ∧ env.mkdirAll = none
        ∧ env.plainOpen = none → g.Setup env = g.setupNewWorktree env := by
      rintro ⟨⟨dir, h1⟩, h2, h3⟩
      unfold GitWorktree.Setup
      simp [hd, hb, h1, h2, h3]
    have hF : ¬ ((∃ dir, env.worktreeDirectory = .ok dir) ∧ env.mkdirAll = none
        ∧ env.plainOpen = none) → (g.Setup env).worktree = g ∧ (g.Setup env).err ≠ none := by
      intro hnot
      obtain ⟨wd, mk, po, be, mf, wr, wa, mkw, poa, ceb, rp, dir⟩ := env
      unfold GitWorktree.Setup
      simp only at hd hb hnot
      cases wd <;> cases mk <;> cases po <;> cases mf <;> simp [hd] at hnot ⊢
    refine ⟨?_, ?_⟩
    · rintro ⟨h1, h2, h3, h4, h5, h6⟩ output hout
      rw [hS ⟨h1, h2, h3⟩]
      exact hnew.1 ⟨h4, h5, h6⟩ output hout
    · intro hcase
      by_cases hre : (∃ dir, env.worktreeDirectory = .ok dir) ∧ env.mkdirAll = none
          ∧ env.plainOpen = none
      · rw [hS hre]
        apply hnew.2
        rcases hcase with hc | hc
        · left
          intro h456
          exact hc ⟨hre.1, hre.2.1, hre.2.2, h456.1, h456.2.1, h456.2.2⟩
        · right
          exact hc
      · exact hF hre

/-- C13 (witness): the pinned workspace at a re-Setup that finds its branch
gone: `rev-parse HEAD` answers "bbb222" and the base commit is rewritten to it;
with the branch still there the workspace is unchanged. -/
theorem baseCommitSHA_kept_witness :
    (pinnedWorktree.Setup branchGoneEnv).worktree
        = { pinnedWorktree with baseCommitSHA := "bbb222" }
      ∧ (pinnedWorktree.Setup { branchGoneEnv with branchExists := true }).worktree
        = pinnedWorktree :=
  ⟨(((baseCommitSHA_kept pinnedWorktree (by decide)).2.2.2.2.2.2.2.2.2
        branchGoneEnv rfl rfl).1 ⟨⟨_, rfl⟩, rfl, rfl, rfl, rfl, rfl⟩ "bbb222\n" rfl).1,
    (baseCommitSHA_kept pinnedWorktree (by decide)).2.2.2.2.2.1
      { branchGoneEnv with branchExists := true } rfl rfl⟩

/-! ### Pane names -/

theorem collapseUnderscores_mem (l : List Char) :
    ∀ c ∈ collapseUnderscores l, c ∈ l := by
  induction l with
  | nil => intro c hc; simp [collapseUnderscores] at hc
  | cons a rest ih =>
    cases rest with
    | nil => intro c hc; simpa [collapseUnderscores] using hc
    | cons b rest2 =>
      intro c hc
      unfold collapseUnderscores at hc
      split at hc
      · exact List.mem_cons_of_mem _ (ih c hc)
      · rcases List.mem_cons.mp hc with h | h
        · rw [h]; exact List.mem_cons_self _ _
        · exact List.mem_cons_of_mem _ (ih c h)

theorem collapseUnderscores_length (l : List Char) :
    (collapseUnderscores l).length ≤ l.length := by
  induction l with
  | nil => simp [collapseUnderscores]
  | cons a rest ih =>
    cases rest with
    | nil => simp [collapseUnderscores]
    | cons b rest2 =>
      unfold collapseUnderscores
      split
      · simp only [List.length_cons] at ih ⊢
        omega
      · simp only [List.length_cons] at ih ⊢
        omega

theorem collapseUnderscores_filter (l : List Char) :
    (collapseUnderscores l).filter (fun c => c != '_') = l.filter (fun c => c != '_') := by
  induction l with
  | nil => simp [collapseUnderscores]
  | cons a rest ih =>
    cases rest with
    | nil => simp [collapseUnderscores]
    | cons b rest2 =>
      unfold collapseUnderscores
      split
      · rename_i hab
        rw [ih, hab.1]
        simp
      · rw [List.filter_cons, ih]
        simp [List.filter_cons]

theorem collapseUnderscores_no_run (l : List Char) :
    (collapseUnderscores l).Chain' (fun a b => ¬ (a = '_' ∧ b = '_')) := by
  induction l with
  | nil => simp [collapseUnderscores]
  | cons a rest ih =>
    cases rest with
    | nil => simp [collapseUnderscores]
    | cons b rest2 =>
      unfold collapseUnderscores
      split
      · exact ih
      · rename_i hab
        cases rest2 with
        | nil =>
          simp only [collapseUnderscores] at ih ⊢
          exact List.Chain'.cons hab ih
        | cons c rest3 =>
          unfold collapseUnderscores at ih ⊢
          split
          · rename_i hbc
            rw [if_pos hbc] at ih
            have hb : b = '_' := hbc.1
            have hc : c = '_' := hbc.2
            have hhead : ∀ x ∈ (collapseUnderscores (c :: rest3)).head?, ¬ (a = '_' ∧ x = '_') := by
              intro x _ hax
              exact hab ⟨hax.1, hb⟩
            exact List.chain'_cons'.mpr ⟨hhead, ih⟩
          · rename_i hbc
            rw [if_neg hbc] at ih
            exact List.Chain'.cons hab ih

/-- The names the tests of the repository expect are not the names of the
sanitizer the specification words: `TestSanitizeName` expects the prefix and
"asdf__asdf" for "a sd f . . asdf", and `TestStartTmuxSession` expects
"claudesquad_test-session" for "test-session"; they agree on "asdf". -/
theorem sanitizer_against_tests :
    toClaudeSquadTmuxName "asdf" = TmuxPrefix ++ "asdf"
      ∧ toClaudeSquadTmuxName "a sd f . . asdf" = TmuxPrefix ++ "a_sd_f_asdf"
      ∧ toClaudeSquadTmuxName "a sd f . . asdf" ≠ TmuxPrefix ++ "asdf__asdf"
      ∧ toClaudeSquadTmuxName "test-session" = "claudesquad_test_session"
      ∧ toClaudeSquadTmuxName "test-session" ≠ "claudesquad_test-session" := by
  decide

/-- C20: for every title the sanitized name is the fixed prefix "claudesquad_"
followed by characters of `[A-Za-z0-9_]` only, with no two "_" in a row; what
follows the prefix is not longer than the title and holds the letters and
digits of the title, all of them and in their order, every other character
having been replaced by "_" or removed. -/
theorem toClaudeSquadTmuxName_spec (t : String) :
    ∃ rest : List Char,
      (toClaudeSquadTmuxName t).data = "claudesquad_".data ++ rest
        ∧ (∀ c ∈ rest, isNameChar c = true)
        ∧ rest.Chain' (fun a b => ¬ (a = '_' ∧ b = '_'))
        ∧ rest.length ≤ t.length
        ∧ rest.filter (fun c => c != '_')
            = t.data.filter (fun c => isNameChar c && c != '_') := by
  refine ⟨collapseUnderscores (t.data.map (fun c => if isNameChar c then c else '_')),
    ?_, ?_, collapseUnderscores_no_run _, ?_, ?_⟩
  · simp [toClaudeSquadTmuxName, TmuxPrefix, String.data_append]
  · intro c hc
    obtain ⟨a, _, hac⟩ := List.mem_map.mp (collapseUnderscores_mem _ c hc)
    by_cases ha : isNameChar a = true
    · rw [if_pos ha] at hac
      rw [← hac]
      exact ha
    · rw [if_neg ha] at hac
      rw [← hac]
      decide
  · have := collapseUnderscores_length (t.data.map (fun c => if isNameChar c then c else '_'))
    rw [List.length_map] at this
    exact this
  · rw [collapseUnderscores_filter]
    induction t.data with
    | nil => rfl
    | cons a rest ih =>
      rw [List.map_cons, List.filter_cons, List.filter_cons, ih]
      by_cases ha : isNameChar a = true
      · simp [ha]
      · simp [ha]

/-! ### Tabs -/

theorem toggledWindow_valid (n : Nat) :
    ∃ w, toggledWindow n = some w ∧ w.tabs.length = 2 ∧ w.activeTab < 2 := by
  induction n with
  | zero => exact ⟨NewTabbedWindow, rfl, by decide, by decide⟩
  | succ k ih =>
    obtain ⟨w, hw, hl, ha⟩ := ih
    have hne : w.tabs ≠ [] := by
      intro h0
      simp [h0] at hl
    refine ⟨{ w with activeTab := (w.activeTab + 1) % w.tabs.length }, ?_, hl, ?_⟩
    · simp [toggledWindow, hw, TabbedWindow.Toggle, hl, hne]
    · simp only [hl]
      omega

/-- C23: a new `TabbedWindow` is on the Preview tab; every window reached from it
by calls of `Toggle` has two tabs and a valid active tab, `Toggle` succeeds on
it and switches between Preview and Diff, two consecutive calls restore the
window, and for every window `IsInDiffTab` is true exactly when `GetActiveTab`
equals `DiffTab`. -/
theorem tabbedWindow_toggle (n : Nat) (w : TabbedWindow) (h : toggledWindow n = some w) :
    NewTabbedWindow.GetActiveTab = PreviewTab
      ∧ w.GetActiveTab < w.tabs.length
      ∧ (w.GetActiveTab = PreviewTab ∨ w.GetActiveTab = DiffTab)
      ∧ (∃ w1, w.Toggle = some w1
          ∧ (w.GetActiveTab = PreviewTab → w1.GetActiveTab = DiffTab)
          ∧ (w.GetActiveTab = DiffTab → w1.GetActiveTab = PreviewTab)
          ∧ w1.Toggle = some w)
      ∧ (∀ v : TabbedWindow, v.IsInDiffTab = true ↔ v.GetActiveTab = DiffTab) := by
  obtain ⟨w0, hw0, hl, ha⟩ := toggledWindow_valid n
  rw [h] at hw0
  cases hw0
  have hcases : w.activeTab = 0 ∨ w.activeTab = 1 := by omega
  have hne : w.tabs ≠ [] := by
    intro h0
    simp [h0] at hl
  refine ⟨rfl, ?_, ?_, ?_, ?_⟩
  · simp only [TabbedWindow.GetActiveTab, hl]
    exact ha
  · simpa [TabbedWindow.GetActiveTab, PreviewTab, DiffTab] using hcases
  · refine ⟨{ w with activeTab := (w.activeTab + 1) % w.tabs.length }, ?_, ?_, ?_, ?_⟩
    · simp [TabbedWindow.Toggle, hl, hne]
    · intro hp
      simp only [TabbedWindow.GetActiveTab, PreviewTab, DiffTab] at hp ⊢
      simp [hp, hl]
    · intro hd
      simp only [TabbedWindow.GetActiveTab, PreviewTab, DiffTab] at hd ⊢
      simp [hd, hl]
    · rcases hcases with h0 | h1
      · have : w = { w with activeTab := 0 } := by rw [← h0]
        rw [this]
        simp [TabbedWindow.Toggle, hl, hne]
      · have : w = { w with activeTab := 1 } := by rw [← h1]
        rw [this]
        simp [TabbedWindow.Toggle, hl, hne]
  · intro v
    simp [TabbedWindow.IsInDiffTab, TabbedWindow.GetActiveTab, DiffTab]

/-- C23 (witness): the window of `TestGetActiveTabAndToggle` after its first
`Toggle`. -/
theorem tabbedWindow_toggle_witness :
    ({ NewTabbedWindow with activeTab := 1 } : TabbedWindow).GetActiveTab
        < ({ NewTabbedWindow with activeTab := 1 } : TabbedWindow).tabs.length
      ∧ ({ NewTabbedWindow with activeTab := 1 } : TabbedWindow).IsInDiffTab = true :=
  ⟨(tabbedWindow_toggle 1 { NewTabbedWindow with activeTab := 1 } (by decide)).2.1,
   by decide⟩

/-! ### Number keys, Enter while naming, and the diff watcher -/

theorem SessionList.setSelected_in_range (l : SessionList) (idx : Nat)
    (h : idx < l.items.length) :
    l.SetSelectedInstance (idx : Int) = { l with selectedIdx := idx } := by
  unfold SessionList.SetSelectedInstance
  have hne : ¬ l.items.length = 0 := by omega
  rw [if_neg hne]
  have h1 : (min (max (idx : Int) 0) ((l.items.length : Int) - 1)).toNat = idx := by
    have h2 : max (idx : Int) 0 = (idx : Int) := max_eq_left (by omega)
    have h3 : min (idx : Int) ((l.items.length : Int) - 1) = (idx : Int) :=
      min_eq_left (by omega)
    rw [h2, h3]
    simp
  rw [h1]

theorem digitKey_facts (d : Nat) (hd : d ≤ 9) :
    ¬ (digitKey d).String = "esc"
      ∧ (digitKey d).String ∈ ["1", "2", "3", "4", "5", "6", "7", "8", "9", "0"]
      ∧ ((digitKey d).String = "0" ↔ d = 0)
      ∧ ((Char.ofNat ('0'.toNat + d)).toNat : Int) - ('1'.toNat : Int) = (d : Int) - 1 := by
  have hd' : d = 0 ∨ d = 1 ∨ d = 2 ∨ d = 3 ∨ d = 4 ∨ d = 5 ∨ d = 6 ∨ d = 7 ∨ d = 8 ∨ d = 9 := by
    omega
  rcases hd' with h | h | h | h | h | h | h | h | h | h <;> subst h <;> decide

/-- C25: the digit keys 1 to 9 and 0 are in the key map under names without a
case of their own, so they run the `default` case; there the digit `d` stands
for the index `d - 1` and 0 for the index 9. When that index is below the
number of sessions, the selection cursor is set to it and `instanceChanged`
runs on the result, so the selected session is the item at that index; when it
is not below, the dashboard is returned unchanged with no command. -/
theorem number_key_selects (m : Home) (d : Nat) (previewScrolling : Bool)
    (updateContent : Option GoError) (hd : d ≤ 9) :
    ((GlobalKeyStringsMap (digitKey d).String).map switchHasCase = some false)
      ∧ (digitIndex d < m.list.NumInstances →
          m.defaultCase (digitKey d) previewScrolling updateContent
              = some (Home.instanceChanged
                  { m with list := { m.list with selectedIdx := digitIndex d } } updateContent)
            ∧ ((m.defaultCase (digitKey d) previewScrolling updateContent).map
                  (fun r => r.1.list)) = some { m.list with selectedIdx := digitIndex d }
            ∧ ((m.defaultCase (digitKey d) previewScrolling updateContent).map
                  (fun r => r.1.list.GetSelectedInstance)) = some (m.list.items.get? (digitIndex d)))
      ∧ (¬ digitIndex d < m.list.NumInstances →
          m.defaultCase (digitKey d) previewScrolling updateContent = some (m, [])) := by
  have hlist : ∀ (m0 : Home) (uc : Option GoError), (m0.instanceChanged uc).1.list = m0.list := by
    intro m0 uc
    unfold Home.instanceChanged Home.handleError
    simp only
    repeat' split
    all_goals rfl
  have hd' : d = 0 ∨ d = 1 ∨ d = 2 ∨ d = 3 ∨ d = 4 ∨ d = 5 ∨ d = 6 ∨ d = 7 ∨ d = 8 ∨ d = 9 := by
    omega
  have key : ∀ idx : Nat, idx ≤ 9 → idx = digitIndex d →
      m.defaultCase (digitKey d) previewScrolling updateContent
        = (if idx < m.list.NumInstances then
            some (Home.instanceChanged
              { m with list := m.list.SetSelectedInstance (idx : Int) } updateContent)
          else some (m, [])) := by
    intro idx hidx heq
    obtain ⟨hesc, hmem, hzero, hrune⟩ := digitKey_facts d hd
    have hcond : (0 ≤ (digitIndex d : Int) ∧ (digitIndex d : Int) < (m.list.NumInstances : Int))
        ↔ digitIndex d < m.list.NumInstances := by
      constructor
      · intro h; omega
      · intro h; omega
    subst heq
    unfold Home.defaultCase
    rw [if_neg (fun h => hesc h.1), if_pos hmem]
    by_cases h0 : d = 0
    · have hs : (digitKey d).String = "0" := hzero.mpr h0
      have hi : digitIndex d = 9 := by simp [digitIndex, h0]
      simp only [hs, if_true]
      rw [hi] at hcond ⊢
      by_cases hn : 9 < m.list.NumInstances
      · have hc := hcond.mpr hn
        simp only [Nat.cast_ofNat] at hc
        simp [hn, hc]
      · have hc : ¬ ((0 : Int) ≤ 9 ∧ (9 : Int) < (m.list.NumInstances : Int)) := by
          intro h; exact hn (by omega)
        simp [hn, hc]
    · have hs : ¬ (digitKey d).String = "0" := fun h => h0 (hzero.mp h)
      have hi : ((digitIndex d : Nat) : Int) = (d : Int) - 1 := by
        simp only [digitIndex, h0, if_false]
        omega
      simp only [hs, if_false]
      simp only [digitKey, hrune]
      rw [← hi]
      by_cases hn : digitIndex d < m.list.NumInstances
      · simp [hn, hcond.mpr hn]
      · have hc : ¬ (0 ≤ (digitIndex d : Int)
            ∧ (digitIndex d : Int) < (m.list.NumInstances : Int)) := fun h => hn (hcond.mp h)
        simp [hn, hc]
  refine ⟨?_, ?_, ?_⟩
  · rcases hd' with h | h | h | h | h | h | h | h | h | h <;> subst h <;> decide
  · intro hlt
    have hk := key (digitIndex d) (by unfold digitIndex; split <;> omega) rfl
    rw [if_pos hlt] at hk
    have hsel := SessionList.setSelected_in_range m.list (digitIndex d)
      (by simpa [SessionList.NumInstances] using hlt)
    rw [hsel] at hk
    refine ⟨hk, ?_, ?_⟩
    · rw [hk]
      simp [hlist]
    · rw [hk]
      simp [hlist, SessionList.GetSelectedInstance]
  · intro hnlt
    have hk := key (digitIndex d) (by unfold digitIndex; split <;> omega) rfl
    rw [if_neg hnlt] at hk
    exact hk

/-- C25 (witness): the digit 2 on a dashboard that lists two sessions. -/
theorem number_key_selects_witness :
    ((twoSessionsDiffTab.defaultCase (digitKey 2) false none).map (fun r => r.1.list))
      = some { twoSessionsDiffTab.list with selectedIdx := digitIndex 2 } :=
  ((number_key_selects twoSessionsDiffTab 2 false none (by decide)).2.1 (by decide)).2.1

/-- C26: in state `stateNew` with an empty provisional title, the Enter case
returns the command of `handleError` with "title cannot be empty" set in the
error box, makes no call (no `Start`, no save, no finalizer, no `List.Kill`)
and changes no other field, so the provisional session stays listed and the
state stays `stateNew`. Through `handleKeyPress` the first delivery of the key
only highlights the menu entry and re-sends the key; the re-sent key runs the
Enter case. -/
theorem enter_empty_title (m : Home) (msg : KeyMsg) (inst : Instance) (env : EnterEnv)
    (hs : m.state = State.stateNew) (ht : msg.Typ = KeyType.KeyEnter)
    (hl : m.list.GetInstances.getLast? = some inst) (hti : inst.Title = "") :
    m.stateNewEnterCase inst env
        = ({ m with errBox := some "title cannot be empty" }, [Cmd.hideErrCmd], [])
      ∧ (m.stateNewEnterCase inst env).1.state = State.stateNew
      ∧ (m.stateNewEnterCase inst env).1.list = m.list
      ∧ (m.keySent = true →
          m.handleKeyPressNaming msg env
            = some ({ m with keySent := false, errBox := some "title cannot be empty" },
                [Cmd.hideErrCmd], []))
      ∧ (m.keySent = false →
          (∀ sel, m.list.GetSelectedInstance = some sel → sel.Paused = false) →
          m.handleKeyPressNaming msg env
            = some ({ m with keySent := true, menuKeydown := some KeyName.KeySubmitName },
                [Cmd.resendKey msg, Cmd.keyupCmd], [])) := by
  have hlen : goLen inst.Title = 0 := by rw [hti]; decide
  have hcase : m.stateNewEnterCase inst env
      = ({ m with errBox := some "title cannot be empty" }, [Cmd.hideErrCmd], []) := by
    simp [Home.stateNewEnterCase, hlen, Home.handleError]
  have hstr : msg.String = "enter" := by simp [KeyMsg.String, ht]
  refine ⟨hcase, ?_, ?_, ?_, ?_⟩
  · rw [hcase]; exact hs
  · rw [hcase]
  · intro hk
    have hnc : ¬ ("enter" = "ctrl+c") := by decide
    have hl2 : ({ m with keySent := false } : Home).list.GetInstances.getLast? = some inst := hl
    have hcase2 : ({ m with keySent := false } : Home).stateNewEnterCase inst env
        = ({ m with keySent := false, errBox := some "title cannot be empty" },
            [Cmd.hideErrCmd], []) := by
      simp [Home.stateNewEnterCase, hlen, Home.handleError]
    simp only [Home.handleKeyPressNaming, ht, Home.handleMenuHighlighting, hk, if_true, hstr,
      hnc, if_false, hl2, hcase2]
  · intro hk hp
    have hmap : GlobalKeyStringsMap "enter" = some KeyName.KeyEnter := by decide
    cases hsel : m.list.GetSelectedInstance with
    | none =>
      simp [Home.handleKeyPressNaming, ht, Home.handleMenuHighlighting, hk, hs, hstr, hmap, hsel]
    | some sel =>
      simp [Home.handleKeyPressNaming, ht, Home.handleMenuHighlighting, hk, hs, hstr, hmap, hsel,
        hp sel hsel]

/-- C26 (witness): the re-sent Enter key on the dashboard that names a new
session with an empty title. -/
theorem enter_empty_title_witness :
    namingHome.stateNewEnterCase provisionalSession enterEnv
      = ({ namingHome with errBox := some "title cannot be empty" }, [Cmd.hideErrCmd], []) :=
  (enter_empty_title namingHome keyEnter provisionalSession enterEnv
    (by decide) (by decide) (by decide) (by decide)).1

/-- C24 (the code at the failing input): on the Diff tab the watcher is started
for session 1, then the selection moves to session 2 and a second chain is
started. When the poll of the first chain wakes up, the watcher is active for
session 2, so the poll carries on and its message schedules the next poll of
the first chain: after both polls have run once, two polls are pending again,
one of the chain started for session 1 and one of the chain started for
session 2. -/
theorem diff_watcher_two_chains :
    (WatchSim.run { home := twoSessionsDiffTab, pendingPolls := [] }
        [WatchEvent.instanceChanged none, WatchEvent.selectRow 1]).pendingPolls = [1, 2]
      ∧ (WatchSim.run { home := twoSessionsDiffTab, pendingPolls := [] }
          [WatchEvent.instanceChanged none, WatchEvent.selectRow 1,
            WatchEvent.pollFires none (.ok false)]).pendingPolls = [2, 1]
      ∧ (WatchSim.run { home := twoSessionsDiffTab, pendingPolls := [] }
          [WatchEvent.instanceChanged none, WatchEvent.selectRow 1,
            WatchEvent.pollFires none (.ok false),
            WatchEvent.pollFires none (.ok false)]).pendingPolls = [1, 2]
      ∧ (WatchSim.run { home := twoSessionsDiffTab, pendingPolls := [] }
          [WatchEvent.instanceChanged none, WatchEvent.selectRow 1,
            WatchEvent.pollFires none (.ok false),
            WatchEvent.pollFires none (.ok false)]).home.diffWatchInst = some 2 := by
  decide

/-! ### The diff pane -/

theorem foldl_append_flatMap {α β : Type} (f : α → List β) (l : List α) :
    ∀ acc : List β, l.foldl (fun b x => b ++ f x) acc = acc ++ l.flatMap f := by
  induction l with
  | nil => intro acc; simp
  | cons a t ih =>
    intro acc
    simp [List.foldl_cons, ih, List.flatMap_cons, List.append_assoc]

theorem Split_flatMap_sep (s : List Char) (sep : Char) :
    (Split s sep).flatMap (fun l => l ++ [sep]) = s ++ [sep] := by
  induction s with
  | nil => simp [Split]
  | cons c cs ih =>
    unfold Split
    by_cases hc : c = sep
    · simp [hc, List.flatMap_cons, ih]
    · simp only [hc, if_false]
      cases hs : Split cs sep with
      | nil => exact absurd hs (Split_ne_nil cs sep)
      | cons piece pieces =>
        rw [hs] at ih
        simp only [List.flatMap_cons] at ih ⊢
        simp [← ih]

theorem Split_no_sep (s : List Char) (sep : Char) : ∀ l ∈ Split s sep, sep ∉ l := by
  induction s with
  | nil => simp [Split]
  | cons c cs ih =>
    unfold Split
    by_cases hc : c = sep
    · simp only [hc, if_true]
      intro l hl
      rcases List.mem_cons.mp hl with h | h
      · simp [h]
      · exact ih l h
    · simp only [hc, if_false]
      cases hs : Split cs sep with
      | nil => exact absurd hs (Split_ne_nil cs sep)
      | cons piece pieces =>
        rw [hs] at ih
        intro l hl
        rcases List.mem_cons.mp hl with h | h
        · subst h
          intro hmem
          rcases List.mem_cons.mp hmem with h1 | h1
          · exact hc h1.symm
          · exact ih piece (List.mem_cons_self _ _) h1
        · exact ih l (List.mem_cons_of_mem _ h)

theorem colorizeLine_shape (line : List Char) :
    (line = [] ∧ colorizeLine line = [BuilderWrite.newline])
      ∨ colorizeLine line = [BuilderWrite.text line, BuilderWrite.newline]
      ∨ ∃ style, colorizeLine line = [BuilderWrite.rendered style line, BuilderWrite.newline] := by
  unfold colorizeLine
  by_cases h0 : line.length > 0
  · simp only [h0, if_true]
    split
    · exact Or.inr (Or.inr ⟨_, rfl⟩)
    · split
      · exact Or.inr (Or.inr ⟨_, rfl⟩)
      · split
        · exact Or.inr (Or.inr ⟨_, rfl⟩)
        · exact Or.inr (Or.inl rfl)
  · cases line with
    | nil => left; exact ⟨rfl, by simp⟩
    | cons a t => simp at h0

theorem colorizeLine_plain (line : List Char) :
    (colorizeLine line).flatMap (BuilderWrite.emit plainRender) = line ++ ['\n'] := by
  rcases colorizeLine_shape line with ⟨h1, h2⟩ | h | ⟨style, h⟩
  · rw [h2, h1]
    simp [BuilderWrite.emit]
  · simp [h, BuilderWrite.emit]
  · simp [h, BuilderWrite.emit, plainRender]

theorem colorizeDiff_data (render : DiffStyle → List Char → List Char) (diff : String) :
    (colorizeDiff render diff).data
      = (Split diff.data '\n').flatMap
          (fun line => (colorizeLine line).flatMap (BuilderWrite.emit render)) := by
  unfold colorizeDiff colorizeWrites
  rw [foldl_append_flatMap]
  simp [List.flatMap_assoc]

theorem count_newline_lines (render : DiffStyle → List Char → List Char)
    (hr : ∀ style line, '\n' ∉ line → '\n' ∉ render style line) (lines : List (List Char))
    (hl : ∀ l ∈ lines, '\n' ∉ l) :
    (lines.flatMap (fun line => (colorizeLine line).flatMap (BuilderWrite.emit render))).count '\n'
      = lines.length := by
  induction lines with
  | nil => rfl
  | cons a t ih =>
    have hone : ((colorizeLine a).flatMap (BuilderWrite.emit render)).count '\n' = 1 := by
      have ha : '\n' ∉ a := hl a (List.mem_cons_self _ _)
      rcases colorizeLine_shape a with ⟨h1, h2⟩ | h | ⟨style, h⟩
      · simp [h2, BuilderWrite.emit]
      · simp [h, BuilderWrite.emit, List.count_eq_zero_of_not_mem ha]
      · simp [h, BuilderWrite.emit, List.count_eq_zero_of_not_mem (hr style a ha)]
    rw [List.flatMap_cons, List.count_append, hone,
      ih (fun l h => hl l (List.mem_cons_of_mem _ h))]
    simp [Nat.add_comm]

/-- C22: for every renderer and every diff text, `colorizeDiff` emits the lines
of the text (split at "\n") in their order, each as itself or rendered in a
style and each followed by exactly one newline (an empty line is the newline
alone); with a renderer that adds no styling the output is the text followed
by "\n", and when the renderer adds no newline to a line the output has as
many newlines as the text has lines. -/
theorem colorizeDiff_lines (render : DiffStyle → List Char → List Char) (diff : String) :
    (colorizeDiff render diff).data
        = (Split diff.data '\n').flatMap
            (fun line => (colorizeLine line).flatMap (BuilderWrite.emit render))
      ∧ (∀ line ∈ Split diff.data '\n',
          (line = [] ∧ colorizeLine line = [BuilderWrite.newline])
            ∨ colorizeLine line = [BuilderWrite.text line, BuilderWrite.newline]
            ∨ ∃ style,
                colorizeLine line = [BuilderWrite.rendered style line, BuilderWrite.newline])
      ∧ colorizeDiff plainRender diff = diff ++ "\n"
      ∧ ((∀ style line, '\n' ∉ line → '\n' ∉ render style line) →
          (colorizeDiff render diff).data.count '\n' = (Split diff.data '\n').length) := by
  refine ⟨colorizeDiff_data render diff, fun line _ => colorizeLine_shape line, ?_, ?_⟩
  · apply String.ext
    rw [colorizeDiff_data]
    have h : (fun line => (colorizeLine line).flatMap (BuilderWrite.emit plainRender))
        = (fun line : List Char => line ++ ['\n']) := by
      funext line
      exact colorizeLine_plain line
    rw [h, Split_flatMap_sep]
    simp [String.data_append]
  · intro hr
    rw [colorizeDiff_data]
    exact count_newline_lines render hr _ (Split_no_sep diff.data '\n')

/-- C22 (witness): the diff of `TestColorizeDiffBasic` on a colour terminal: nine
lines, nine newlines. -/
theorem colorizeDiff_lines_witness :
    (colorizeDiff ansiRender sampleDiff).data.count '\n' = (Split sampleDiff.data '\n').length
      ∧ (Split sampleDiff.data '\n').length = 9 :=
  ⟨(colorizeDiff_lines ansiRender sampleDiff).2.2.2 (by
      intro style line hl
      cases style <;> simp [ansiRender, hl]), by decide⟩

/-- C28 (the code at the failing input): a diff whose added line holds the text
"+ item" and whose removed line holds "-x", printed as "++ item" and "--x".
`DiffFull` counts both, since neither starts with "+++" or "---", and returns
`Added = 1`, `Removed = 1`; `colorizeDiff` looks at the second byte alone and
styles neither line, so it styles 0 additions and 0 deletions. -/
theorem colorize_counts_differ :
    (DiffFull (.ok "") (.ok bulletDiff)).Added = 1
      ∧ (DiffFull (.ok "") (.ok bulletDiff)).Removed = 1
      ∧ styledCount DiffStyle.AdditionStyle (colorizeWrites bulletDiff) = 0
      ∧ styledCount DiffStyle.DeletionStyle (colorizeWrites bulletDiff) = 0
      ∧ colorizeLine "++ item".data = [BuilderWrite.text "++ item".data, BuilderWrite.newline]
      ∧ isAddedLine "++ item".data = true := by
  decide

/-- C29 (the code at the failing input): the diff of `TestColorizeDiffBasic` on a
colour terminal. The content has its hunk header on line 4, but `parseMarkers`
reads the colourized text, where that line starts with the colour sequence and
not with "@@": `hunkOffsets` is empty. The "diff --git " line is not styled
and is found; without colours the hunk is found too. -/
theorem hunk_markers_lost_in_colour :
    sampleDiffStats.IsEmpty = false
      ∧ markerIndices ['@', '@'] sampleDiffStats.Content = [4]
      ∧ (emptyPane.SetDiff ansiRender (fun _ _ => "1 additions(+) 1 deletions(-)")
            (some demoSession) (some sampleDiffStats)).hunkOffsets = []
      ∧ (emptyPane.SetDiff ansiRender (fun _ _ => "1 additions(+) 1 deletions(-)")
            (some demoSession) (some sampleDiffStats)).fileOffsets = [0]
      ∧ (emptyPane.SetDiff plainRender (fun _ _ => "1 additions(+) 1 deletions(-)")
            (some demoSession) (some sampleDiffStats)).hunkOffsets = [4] := by
  decide

theorem parseMarkersLoop_sorted (lines : List (List Char)) :
    ∀ (i : Int) (acc : List Int × List Int),
      acc.1.Pairwise (· < ·) → acc.2.Pairwise (· < ·) →
      (∀ x ∈ acc.1, x < i) → (∀ x ∈ acc.2, x < i) →
      (parseMarkersLoop lines i acc).1.Pairwise (· < ·)
        ∧ (parseMarkersLoop lines i acc).2.Pairwise (· < ·) := by
  induction lines with
  | nil => intro i acc h1 h2 _ _; exact ⟨h1, h2⟩
  | cons line rest ih =>
    intro i acc h1 h2 b1 b2
    unfold parseMarkersLoop
    split
    · apply ih
      · exact List.pairwise_append.mpr ⟨h1, List.pairwise_singleton _ _, fun a ha b hb => by
          rw [List.mem_singleton] at hb
          subst hb
          exact b1 a ha⟩
      · exact h2
      · intro x hx
        rcases List.mem_append.mp hx with h | h
        · have := b1 x h; omega
        · rw [List.mem_singleton] at h; omega
      · intro x hx
        have := b2 x hx; omega
    · split
      · apply ih
        · exact h1
        · exact List.pairwise_append.mpr ⟨h2, List.pairwise_singleton _ _, fun a ha b hb => by
            rw [List.mem_singleton] at hb
            subst hb
            exact b2 a ha⟩
        · intro x hx
          have := b1 x hx; omega
        · intro x hx
          rcases List.mem_append.mp hx with h | h
          · have := b2 x h; omega
          · rw [List.mem_singleton] at h; omega
      · apply ih
        · exact h1
        · exact h2
        · intro x hx
          have := b1 x hx; omega
        · intro x hx
          have := b2 x hx; omega

theorem find_first_sorted (l : List Int) (cur t : Int) (hs : l.Pairwise (· < ·))
    (hf : l.find? (fun off => decide (off > cur)) = some t) :
    t ∈ l ∧ cur < t ∧ ∀ o ∈ l, cur < o → t ≤ o := by
  obtain ⟨hp, as, bs, hl, has⟩ := List.find?_eq_some.mp hf
  have hp' : cur < t := by simpa using hp
  refine ⟨by rw [hl]; simp, hp', ?_⟩
  intro o ho hco
  rw [hl] at ho hs
  rcases List.mem_append.mp ho with h | h
  · have := has o h
    simp at this
    omega
  · rcases List.mem_cons.mp h with h1 | h1
    · omega
    · have hpair := (List.pairwise_append.mp hs).2.1
      have := (List.pairwise_cons.mp hpair).1 o h1
      omega

theorem find_last_sorted (l : List Int) (cur t : Int) (hs : l.Pairwise (· < ·))
    (hf : l.reverse.find? (fun off => decide (off < cur)) = some t) :
    t ∈ l ∧ t < cur ∧ ∀ o ∈ l, o < cur → o ≤ t := by
  obtain ⟨hp, as, bs, hl, has⟩ := List.find?_eq_some.mp hf
  have hp' : t < cur := by simpa using hp
  have hl2 : l = bs.reverse ++ t :: as.reverse := by
    have := congrArg List.reverse hl
    simpa using this
  refine ⟨by rw [hl2]; simp, hp', ?_⟩
  intro o ho hco
  rw [hl2] at ho hs
  rcases List.mem_append.mp ho with h | h
  · have := (List.pairwise_append.mp hs).2.2 o h t (List.mem_cons_self _ _)
    omega
  · rcases List.mem_cons.mp h with h1 | h1
    · omega
    · have := has o (List.mem_reverse.mp h1)
      simp at this
      omega

/-- The jumps in terms of the local `cur` and `headerLines` of the methods: the
offsets `parseMarkers` builds are strictly increasing; with no hunk both jumps
leave the pane as it is; otherwise the forward scan finds the smallest offset
above `cur` and the backward scan the largest below it. -/
theorem hunk_jumps_cur (d : DiffPane) (SetYOffset : Int → Int)
    (h : d.hunkOffsets.Pairwise (· < ·)) :
    (∀ p : DiffPane, p.parseMarkers.hunkOffsets.Pairwise (· < ·)
        ∧ p.parseMarkers.fileOffsets.Pairwise (· < ·))
      ∧ (d.hunkOffsets = [] → d.JumpNextHunk SetYOffset = d ∧ d.JumpPrevHunk SetYOffset = d)
      ∧ (d.hunkOffsets ≠ [] →
          ((∃ o ∈ d.hunkOffsets, d.cur < o) →
              ∃ t ∈ d.hunkOffsets, d.cur < t ∧ (∀ o ∈ d.hunkOffsets, d.cur < o → t ≤ o)
                ∧ d.JumpNextHunk SetYOffset
                    = { d with YOffset := SetYOffset (t + d.headerLines) })
            ∧ ((¬ ∃ o ∈ d.hunkOffsets, d.cur < o) →
                d.JumpNextHunk SetYOffset
                  = { d with YOffset := SetYOffset (d.hunkOffsets.getLastD 0 + d.headerLines) })
            ∧ ((∃ o ∈ d.hunkOffsets, o < d.cur) →
                ∃ t ∈ d.hunkOffsets, t < d.cur ∧ (∀ o ∈ d.hunkOffsets, o < d.cur → o ≤ t)
                  ∧ d.JumpPrevHunk SetYOffset
                      = { d with YOffset := SetYOffset (t + d.headerLines) })
            ∧ ((¬ ∃ o ∈ d.hunkOffsets, o < d.cur) →
                d.JumpPrevHunk SetYOffset
                  = { d with YOffset := SetYOffset (d.hunkOffsets.headD 0 + d.headerLines) })) := by
  refine ⟨?_, ?_, ?_⟩
  · intro p
    unfold DiffPane.parseMarkers
    split
    · exact ⟨List.Pairwise.nil, List.Pairwise.nil⟩
    · have := parseMarkersLoop_sorted (Split p.diff.data '\n') 0 ([], [])
        List.Pairwise.nil List.Pairwise.nil (by simp) (by simp)
      exact ⟨this.2, this.1⟩
  · intro he
    simp [DiffPane.JumpNextHunk, DiffPane.JumpPrevHunk, he]
  · intro hne
    have hlen : ¬ d.hunkOffsets.length = 0 := by
      intro h0
      exact hne (List.length_eq_zero.mp h0)
    refine ⟨?_, ?_, ?_, ?_⟩
    · rintro ⟨o, ho, hco⟩
      cases hf : d.hunkOffsets.find? (fun off => decide (off > d.cur)) with
      | none =>
        have := List.find?_eq_none.mp hf o ho
        simp at this
        omega
      | some t =>
        obtain ⟨h1, h2, h3⟩ := find_first_sorted d.hunkOffsets d.cur t h hf
        exact ⟨t, h1, h2, h3, by simp [DiffPane.JumpNextHunk, hlen, hf]⟩
    · intro hno
      cases hf : d.hunkOffsets.find? (fun off => decide (off > d.cur)) with
      | none => simp [DiffPane.JumpNextHunk, hlen, hf]
      | some t =>
        obtain ⟨h1, h2, _⟩ := find_first_sorted d.hunkOffsets d.cur t h hf
        exact absurd ⟨t, h1, h2⟩ hno
    · rintro ⟨o, ho, hco⟩
      cases hf : d.hunkOffsets.reverse.find? (fun off => decide (off < d.cur)) with
      | none =>
        have := List.find?_eq_none.mp hf o (List.mem_reverse.mpr ho)
        simp at this
        omega
      | some t =>
        obtain ⟨h1, h2, h3⟩ := find_last_sorted d.hunkOffsets d.cur t h hf
        exact ⟨t, h1, h2, h3, by simp [DiffPane.JumpPrevHunk, hlen, hf]⟩
    · intro hno
      cases hf : d.hunkOffsets.reverse.find? (fun off => decide (off < d.cur)) with
      | none => simp [DiffPane.JumpPrevHunk, hlen, hf]
      | some t =>
        obtain ⟨h1, h2, _⟩ := find_last_sorted d.hunkOffsets d.cur t h hf
        exact absurd ⟨t, h1, h2⟩ hno

/-- C30 (counterexample): a pane under a stats header whose diff starts with a
hunk header: `parseMarkers` gives the hunk offsets 0 and 5, shown at the
viewport lines 1 and 6. From the top (viewport offset 0) the hunk at viewport
line 1 is the first one after the current position, but `JumpNextHunk` moves
to line 6: the position is clamped to content line 0, and the hunk at offset 0
is not above it. -/
theorem next_hunk_skips_first_line :
    topHunkPane.hunkOffsets = [0, 5]
      ∧ topHunkPane.stats ≠ ""
      ∧ topHunkPane.YOffset = 0
      ∧ (topHunkPane.JumpNextHunk id).YOffset = 6
      ∧ topHunkPane.YOffset < 0 + 1
      ∧ (0 : Int) + 1 < 6 := by
  decide

/-- C30 (amended): the offsets `parseMarkers` builds are strictly increasing.
Let `hdr` be 1 for a pane with a stats header and 0 without, and let the
current position `p` be the viewport offset less `hdr`, but not below 0. For a
pane whose hunk offsets are strictly increasing: with no hunk both jumps leave
the pane as it is; otherwise `JumpNextHunk` asks the viewport for the smallest
hunk offset greater than `p`, or for the last hunk when there is none, and
`JumpPrevHunk` for the largest hunk offset smaller than `p`, or for the first
hunk when there is none, each shifted by `hdr`. -/
theorem hunk_jumps (d : DiffPane) (SetYOffset : Int → Int) (hdr p : Int)
    (h : d.hunkOffsets.Pairwise (· < ·))
    (hh : hdr = if d.stats = "" then 0 else 1)
    (hp : p = max (d.YOffset - hdr) 0) :
    (∀ q : DiffPane, q.parseMarkers.hunkOffsets.Pairwise (· < ·)
        ∧ q.parseMarkers.fileOffsets.Pairwise (· < ·))
      ∧ (d.hunkOffsets = [] → d.JumpNextHunk SetYOffset = d ∧ d.JumpPrevHunk SetYOffset = d)
      ∧ (d.hunkOffsets ≠ [] →
          ((∃ o ∈ d.hunkOffsets, p < o) →
              ∃ t ∈ d.hunkOffsets, p < t ∧ (∀ o ∈ d.hunkOffsets, p < o → t ≤ o)
                ∧ d.JumpNextHunk SetYOffset = { d with YOffset := SetYOffset (t + hdr) })
            ∧ ((¬ ∃ o ∈ d.hunkOffsets, p < o) →
                d.JumpNextHunk SetYOffset
                  = { d with YOffset := SetYOffset (d.hunkOffsets.getLastD 0 + hdr) })
            ∧ ((∃ o ∈ d.hunkOffsets, o < p) →
                ∃ t ∈ d.hunkOffsets, t < p ∧ (∀ o ∈ d.hunkOffsets, o < p → o ≤ t)
                  ∧ d.JumpPrevHunk SetYOffset = { d with YOffset := SetYOffset (t + hdr) })
            ∧ ((¬ ∃ o ∈ d.hunkOffsets, o < p) →
                d.JumpPrevHunk SetYOffset
                  = { d with YOffset := SetYOffset (d.hunkOffsets.headD 0 + hdr) })) := by
  have hhdr : d.headerLines = hdr := by
    rw [hh]
    unfold DiffPane.headerLines
    by_cases hs : d.stats = "" <;> simp [hs]
  have hcur : d.cur = p := by
    rw [hp]
    unfold DiffPane.cur
    rw [hhdr]
    split <;> omega
  have hmain := hunk_jumps_cur d SetYOffset h
  rw [hcur, hhdr] at hmain
  exact hmain

/-- C30 (witness): a pane under a stats header with hunks at the content lines
4, 20 and 35 and the viewport at line 10, so `hdr = 1` and `p = 9`: the next
hunk is the one at 20, shown at line 21, the previous one the one at 4, shown
at line 5. -/
theorem hunk_jumps_witness :
    threeHunkPane.JumpNextHunk id = { threeHunkPane with YOffset := 21 }
      ∧ threeHunkPane.JumpPrevHunk id = { threeHunkPane with YOffset := 5 } := by
  have hthm := (hunk_jumps threeHunkPane id 1 9 (by decide) (by decide) (by decide)).2.2
    (by decide)
  refine ⟨?_, ?_⟩
  · obtain ⟨t, ht, h1, h2, heq⟩ := hthm.1 ⟨20, by decide, by decide⟩
    have h20 := h2 20 (by decide) (by decide)
    have ht20 : t = 20 := by
      simp [threeHunkPane] at ht
      omega
    rw [heq, ht20]
    rfl
  · obtain ⟨t, ht, h1, h2, heq⟩ := hthm.2.2.1 ⟨4, by decide, by decide⟩
    have h4 := h2 4 (by decide) (by decide)
    have ht4 : t = 4 := by
      simp [threeHunkPane] at ht
      omega
    rw [heq, ht4]
    rfl

/-! ### The error box -/

theorem fieldsLoop_fields (s : List Char) :
    ∀ cur : List Char, (∀ c ∈ cur, unicodeIsSpace c = false) →
      ∀ f ∈ fieldsLoop s cur, f ≠ [] ∧ ∀ c ∈ f, unicodeIsSpace c = false := by
  induction s with
  | nil =>
    intro cur hcur f hf
    unfold fieldsLoop at hf
    cases cur with
    | nil => simp at hf
    | cons a as =>
      simp at hf
      subst hf
      exact ⟨by simp, hcur⟩
  | cons c rest ih =>
    intro cur hcur f hf
    unfold fieldsLoop at hf
    by_cases hc : unicodeIsSpace c = true
    · rw [if_pos hc] at hf
      cases cur with
      | nil =>
        simp at hf
        exact ih [] (by simp) f hf
      | cons a as =>
        simp at hf
        rcases hf with hf | hf
        · subst hf
          exact ⟨by simp, hcur⟩
        · exact ih [] (by simp) f hf
    · rw [if_neg hc] at hf
      refine ih (cur ++ [c]) ?_ f hf
      intro x hx
      rcases List.mem_append.mp hx with h | h
      · exact hcur x h
      · rw [List.mem_singleton] at h
        subst h
        simpa using hc

theorem fieldsLoop_flatten (s : List Char) :
    ∀ cur : List Char,
      (fieldsLoop s cur).flatten = cur ++ s.filter (fun c => !unicodeIsSpace c) := by
  induction s with
  | nil =>
    intro cur
    unfold fieldsLoop
    cases cur <;> simp
  | cons c rest ih =>
    intro cur
    unfold fieldsLoop
    by_cases hc : unicodeIsSpace c = true
    · rw [if_pos hc]
      cases cur with
      | nil => simp [ih, hc]
      | cons a as => simp [ih, hc]
    · rw [if_neg hc, ih]
      simp [hc]

theorem ReplaceAll_filter (s : List Char) :
    (ReplaceAll s '\n' ' ').filter (fun c => !unicodeIsSpace c)
      = s.filter (fun c => !unicodeIsSpace c) := by
  induction s with
  | nil => rfl
  | cons c rest ih =>
    unfold ReplaceAll at ih ⊢
    by_cases hc : c = '\n'
    · subst hc
      have h1 : unicodeIsSpace '\n' = true := by decide
      have h2 : unicodeIsSpace ' ' = true := by decide
      simp [h1, h2, ih]
    · simp [hc, List.filter_cons, ih]

theorem Join_mem (l : List (List Char)) (sep : List Char) (c : Char) :
    c ∈ Join l sep → c ∈ sep ∨ ∃ f ∈ l, c ∈ f := by
  induction l with
  | nil => intro h; simp [Join] at h
  | cons a rest ih =>
    cases rest with
    | nil =>
      intro h
      simp [Join] at h
      exact Or.inr ⟨a, by simp, h⟩
    | cons b rest2 =>
      intro h
      simp only [Join, List.mem_append] at h
      rcases h with (h | h) | h
      · exact Or.inr ⟨a, by simp, h⟩
      · exact Or.inl h
      · rcases ih h with h1 | ⟨f, hf, hc⟩
        · exact Or.inl h1
        · exact Or.inr ⟨f, List.mem_cons_of_mem _ hf, hc⟩

theorem utf8EncodeChar_no_newline (c : Char) (h : c.toNat ≠ 10) :
    10 ∉ utf8EncodeChar c := by
  unfold utf8EncodeChar
  split
  · simp
    omega
  · split
    · simp
      omega
    · split
      · simp
        omega
      · simp
        omega

theorem unicodeIsSpace_newline (c : Char) (h : unicodeIsSpace c = false) : c.toNat ≠ 10 := by
  intro h10
  simp [unicodeIsSpace, h10] at h

theorem collapsed_no_newline (s : String) : 10 ∉ collapsed s := by
  unfold collapsed collapsedText utf8Bytes
  intro hmem
  rw [List.mem_flatMap] at hmem
  obtain ⟨c, hc, hb⟩ := hmem
  rcases Join_mem _ _ c hc with h | ⟨f, hf, hcf⟩
  · rw [List.mem_singleton] at h
    subst h
    exact absurd hb (by decide)
  · have := (fieldsLoop_fields _ [] (by simp) f hf).2 c hcf
    exact utf8EncodeChar_no_newline c (unicodeIsSpace_newline c this) hb

theorem LastIndex_spec (s : List Nat) (b : Nat) :
    (LastIndex s b = -1 ∧ ∀ j : Nat, s[j]? ≠ some b)
      ∨ ∃ i : Nat, LastIndex s b = (i : Int) ∧ i < s.length ∧ s[i]? = some b
          ∧ ∀ j : Nat, i < j → s[j]? ≠ some b := by
  unfold LastIndex
  split
  · rename_i i hf
    right
    obtain ⟨hp, as, bs, hl, has⟩ := List.find?_eq_some.mp hf
    have hpi : s[i]? = some b := by simpa using hp
    have hi : i < s.length := (List.getElem?_eq_some.mp hpi).1
    refine ⟨i, rfl, hi, hpi, ?_⟩
    intro j hij hj
    have hjl : j < s.length := (List.getElem?_eq_some.mp hj).1
    have hmem : j ∈ (List.range s.length).reverse := by simp [hjl]
    have hpw : ((List.range s.length).reverse).Pairwise (fun a b => b < a) :=
      List.pairwise_reverse.mpr (List.pairwise_lt_range _)
    rw [hl] at hmem hpw
    rcases List.mem_append.mp hmem with h | h
    · have := has j h
      simp [hj] at this
    · rcases List.mem_cons.mp h with h1 | h1
      · omega
      · have := (List.pairwise_cons.mp (List.pairwise_append.mp hpw).2.1).1 j h1
        omega
  · rename_i hf
    left
    refine ⟨rfl, ?_⟩
    intro j hj
    have hjl : j < s.length := (List.getElem?_eq_some.mp hj).1
    have := List.find?_eq_none.mp hf j (by simp [hjl])
    simp [hj] at this

/-- Where `wrapErrorSingleLine` cuts: with `L` the limit, the cut is the index
of the last space among the bytes 1 to `L - 1` when there is one, and `L`
otherwise. -/
theorem cut_spec (B : List Nat) (L : Nat) (hL : 1 ≤ L) :
    ∃ cut : Nat,
      (if LastIndex (B.take L) 32 > 0 then LastIndex (B.take L) 32 else (L : Int)).toNat = cut
        ∧ 1 ≤ cut ∧ cut ≤ L
        ∧ ((∃ i : Nat, 0 < i ∧ i < L ∧ B[i]? = some 32) →
            cut < L ∧ B[cut]? = some 32 ∧ ∀ j : Nat, cut < j → j < L → B[j]? ≠ some 32)
        ∧ ((¬ ∃ i : Nat, 0 < i ∧ i < L ∧ B[i]? = some 32) → cut = L) := by
  have htake : ∀ j : Nat, j < L → (B.take L)[j]? = B[j]? := fun j hj =>
    List.getElem?_take_of_lt hj
  rcases LastIndex_spec (B.take L) 32 with ⟨hm, hnone⟩ | ⟨i, hi, hlen, hat, hlater⟩
  · refine ⟨L, ?_, hL, Nat.le_refl _, ?_, fun _ => rfl⟩
    · rw [hm]
      simp
    · rintro ⟨i, _, hiL, hBi⟩
      exact absurd (by rw [htake i hiL]; exact hBi) (hnone i)
  · have hiL : i < L := by
      rw [List.length_take] at hlen
      omega
    by_cases hpos : 0 < i
    · refine ⟨i, ?_, hpos, Nat.le_of_lt hiL, ?_, ?_⟩
      · rw [hi, if_pos (by omega)]
        simp
      · intro _
        refine ⟨hiL, by rw [← htake i hiL]; exact hat, ?_⟩
        intro j hij hjL hBj
        exact hlater j hij (by rw [htake j hjL]; exact hBj)
      · intro hno
        exact absurd ⟨i, hpos, hiL, by rw [← htake i hiL]; exact hat⟩ hno
    · have hi0 : i = 0 := by omega
      refine ⟨L, ?_, hL, Nat.le_refl _, ?_, fun _ => rfl⟩
      · rw [hi, if_neg (by omega)]
        simp
      · rintro ⟨k, hk, hkL, hBk⟩
        exact absurd (by rw [htake k hkL]; exact hBk) (hlater k (by omega))

theorem char_eq_space (c : Char) (h : c.toNat = 32) : c = ' ' := by
  apply Char.ext
  apply UInt32.toNat.inj
  exact h

theorem utf8Bytes_ascii (l : List Char) (h : ∀ c ∈ l, c.toNat < 128) :
    utf8Bytes l = l.map Char.toNat := by
  induction l with
  | nil => rfl
  | cons a rest ih =>
    have ha : a.toNat < 128 := h a (List.mem_cons_self _ _)
    have hr := ih (fun c hc => h c (List.mem_cons_of_mem _ hc))
    unfold utf8Bytes at hr ⊢
    rw [List.flatMap_cons, hr, List.map_cons]
    simp [utf8EncodeChar, ha]

theorem collapsedText_ascii (s : String) (h : ∀ c ∈ s.data, c.toNat < 128) :
    ∀ c ∈ collapsedText s, c.toNat < 128 := by
  intro c hc
  unfold collapsedText at hc
  rcases Join_mem _ _ c hc with h1 | ⟨f, hf, hcf⟩
  · rw [List.mem_singleton] at h1
    subst h1
    decide
  · have hflat : c ∈ (Fields (ReplaceAll s.data '\n' ' ')).flatten :=
      List.mem_flatten_of_mem hf hcf
    unfold Fields at hflat
    rw [fieldsLoop_flatten] at hflat
    simp only [List.nil_append] at hflat
    have hmem := (List.mem_filter.mp hflat).1
    unfold ReplaceAll at hmem
    obtain ⟨a, ha, hac⟩ := List.mem_map.mp hmem
    by_cases hn : a = '\n'
    · rw [if_pos hn] at hac
      rw [← hac]
      decide
    · rw [if_neg hn] at hac
      rw [← hac]
      exact h a ha

theorem ascii_space_at (T : List Char) (j : Nat) :
    (T.map Char.toNat)[j]? = some 32 ↔ T[j]? = some ' ' := by
  rw [List.getElem?_map]
  cases hT : T[j]? with
  | none => simp
  | some c =>
    simp only [Option.map_some', Option.some.injEq]
    constructor
    · exact char_eq_space c
    · intro hc
      rw [hc]
      rfl

/-- C21 (counterexample): at width 1 the message "ab" comes back as "a…", which
is two characters, and its prefix "a" has one character, not at most 0. The
message is measured in bytes: "éé" has two characters, yet at width 3 it is
cut to "é…". Leading white space is dropped: " a" comes back as "a". -/
theorem wrapErrorSingleLine_width_one :
    wrapErrorSingleLine "ab" 1 = utf8Bytes "a…".data
      ∧ "a…".length = 2 ∧ ¬ ("a…".length ≤ 1) ∧ ¬ ("a".length ≤ 1 - 1)
      ∧ wrapErrorSingleLine "éé" 3 = utf8Bytes "é…".data
      ∧ "éé".length ≤ 3
      ∧ wrapErrorSingleLine " a" 5 = utf8Bytes "a".data := by
  decide

/-- C21 (amended): for every message `s` and width `w`, `wrapErrorSingleLine`
returns nothing for `w ≤ 0` and never a newline. The collapsed message is the
runs of non-white-space characters of `s`, in order and none empty, joined by
single spaces. For a message of ASCII characters and `w ≥ 1`: a collapsed
message of at most `w` characters is returned as is; a longer one is cut to
its first `cut` characters, followed by the ellipsis, where
`1 ≤ cut ≤ max 1 (w - 1)` and `cut` is below its length: `cut` is the index of
the last space among the characters at the indices 1 to `max 1 (w - 1) - 1`
when there is such a space, and `max 1 (w - 1)` otherwise. So the result has at
most `w` characters for `w ≥ 2`, and for `w = 1` it is the first character
and the ellipsis. -/
theorem wrapErrorSingleLine_spec (s : String) (w : Int) :
    (w ≤ 0 → wrapErrorSingleLine s w = [])
      ∧ 10 ∉ wrapErrorSingleLine s w
      ∧ (∀ f ∈ Fields (ReplaceAll s.data '\n' ' '),
            f ≠ [] ∧ ∀ c ∈ f, unicodeIsSpace c = false)
      ∧ (Fields (ReplaceAll s.data '\n' ' ')).flatten
            = s.data.filter (fun c => !unicodeIsSpace c)
      ∧ ((∀ c ∈ s.data, c.toNat < 128) → 0 < w →
          (((collapsedText s).length : Int) ≤ w →
              wrapErrorSingleLine s w = utf8Bytes (collapsedText s))
            ∧ (w < ((collapsedText s).length : Int) →
                ∃ cut : Nat,
                  wrapErrorSingleLine s w = utf8Bytes ((collapsedText s).take cut ++ ['…'])
                    ∧ 1 ≤ cut ∧ (cut : Int) ≤ max 1 (w - 1) ∧ cut < (collapsedText s).length
                    ∧ ((∃ i : Nat, 0 < i ∧ (i : Int) < max 1 (w - 1)
                            ∧ (collapsedText s)[i]? = some ' ') →
                        (cut : Int) < max 1 (w - 1) ∧ (collapsedText s)[cut]? = some ' '
                          ∧ ∀ j : Nat, cut < j → (j : Int) < max 1 (w - 1) →
                              (collapsedText s)[j]? ≠ some ' ')
                    ∧ ((¬ ∃ i : Nat, 0 < i ∧ (i : Int) < max 1 (w - 1)
                            ∧ (collapsedText s)[i]? = some ' ') →
                        (cut : Int) = max 1 (w - 1))
                    ∧ (2 ≤ w →
                        (((collapsedText s).take cut ++ ['…']).length : Int) ≤ w)
                    ∧ (w = 1 → cut = 1))) := by
  have hmax : maxInt 1 (w - 1) = max 1 (w - 1) := by
    unfold maxInt
    split <;> omega
  have hshort : 0 < w → ((collapsed s).length : Int) ≤ w →
      wrapErrorSingleLine s w = collapsed s := by
    intro hw hlen
    unfold wrapErrorSingleLine
    rw [if_neg (by omega)]
    dsimp only
    rw [if_pos hlen]
  have hlong : 0 < w → w < ((collapsed s).length : Int) →
      wrapErrorSingleLine s w
        = (collapsed s).take
            (if LastIndex ((collapsed s).take (max 1 (w - 1)).toNat) 32 > 0
              then LastIndex ((collapsed s).take (max 1 (w - 1)).toNat) 32
              else ((max 1 (w - 1)).toNat : Int)).toNat ++ utf8Bytes ['…'] := by
    intro hw hlen
    unfold wrapErrorSingleLine
    rw [if_neg (by omega)]
    dsimp only
    rw [if_neg (by omega), hmax]
    have hcast : (((max 1 (w - 1)).toNat : Nat) : Int) = max 1 (w - 1) := by omega
    rw [hcast]
  refine ⟨?_, ?_, ?_, ?_, ?_⟩
  · intro hw
    unfold wrapErrorSingleLine
    rw [if_pos hw]
  · by_cases hw : w ≤ 0
    · unfold wrapErrorSingleLine
      rw [if_pos hw]
      simp
    · by_cases hlen : ((collapsed s).length : Int) ≤ w
      · rw [hshort (by omega) hlen]
        exact collapsed_no_newline s
      · rw [hlong (by omega) (by omega)]
        intro hmem
        rcases List.mem_append.mp hmem with h | h
        · exact collapsed_no_newline s (List.mem_of_mem_take h)
        · exact absurd h (by decide)
  · exact fieldsLoop_fields _ [] (by simp)
  · unfold Fields
    rw [fieldsLoop_flatten, ReplaceAll_filter]
    simp
  · intro hascii hw
    have hM1 : 1 ≤ max 1 (w - 1) := le_max_left 1 (w - 1)
    have hM2 : max 1 (w - 1) = 1 ∨ max 1 (w - 1) = w - 1 := by
      rcases le_total 1 (w - 1) with hle | hle
      · right
        exact max_eq_right hle
      · left
        exact max_eq_left hle
    clear hmax
    generalize max 1 (w - 1) = M at *
    have hB : collapsed s = (collapsedText s).map Char.toNat :=
      utf8Bytes_ascii _ (collapsedText_ascii s hascii)
    have hBlen : (collapsed s).length = (collapsedText s).length := by
      rw [hB, List.length_map]
    refine ⟨?_, ?_⟩
    · intro hlen
      rw [hshort hw (by rw [hBlen]; exact hlen)]
      rfl
    · intro hlen
      have hL1 : 1 ≤ M.toNat := by omega
      obtain ⟨cut, hcut, h1, h2, hsp, hnosp⟩ := cut_spec (collapsed s) M.toNat hL1
      have hres : wrapErrorSingleLine s w
          = utf8Bytes ((collapsedText s).take cut ++ ['…']) := by
        rw [hlong hw (by rw [hBlen]; exact hlen), hcut]
        have hpre : utf8Bytes ((collapsedText s).take cut) = (collapsed s).take cut := by
          rw [utf8Bytes_ascii _ (fun c hc =>
            collapsedText_ascii s hascii c (List.mem_of_mem_take hc)), hB, List.map_take]
        unfold utf8Bytes at hpre ⊢
        rw [List.flatMap_append, hpre]
      clear hcut
      have hiff : ∀ j : Nat, (collapsed s)[j]? = some 32 ↔ (collapsedText s)[j]? = some ' ' := by
        intro j
        rw [hB]
        exact ascii_space_at _ j
      refine ⟨cut, hres, h1, by omega, by omega, ?_, ?_, ?_, ?_⟩
      · rintro ⟨i, hi0, hiL, hTi⟩
        have hiL2 : i < M.toNat := by omega
        obtain ⟨hc1, hc2, hc3⟩ := hsp ⟨i, hi0, hiL2, (hiff i).mpr hTi⟩
        have hc1i : (cut : Int) < M := by omega
        refine ⟨hc1i, (hiff cut).mp hc2, ?_⟩
        intro j hj hjL hTj
        have hjL2 : j < M.toNat := by omega
        exact hc3 j hj hjL2 ((hiff j).mpr hTj)
      · intro hno
        have hno2 : ¬ ∃ i : Nat, 0 < i ∧ i < M.toNat
            ∧ (collapsed s)[i]? = some 32 := by
          rintro ⟨i, hi0, hiL, hBi⟩
          have hiL2 : (i : Int) < M := by omega
          exact hno ⟨i, hi0, hiL2, (hiff i).mp hBi⟩
        have hcutL := hnosp hno2
        clear hsp hnosp hno hno2
        omega
      · intro hw2
        rw [List.length_append, List.length_take]
        simp only [List.length_singleton]
        clear hsp hnosp
        omega
      · intro hw1
        clear hsp hnosp
        omega

/-- C21 (witness): an ASCII message with a newline and a run of spaces, at width
12: the collapsed text "disk full: retry" has 16 characters and is cut at
the last space before the limit 11, which gives "disk full:…". -/
theorem wrapErrorSingleLine_spec_witness :
    wrapErrorSingleLine "disk   full:\nretry" 12 = utf8Bytes "disk full:…".data
      ∧ (∃ cut : Nat,
          wrapErrorSingleLine "disk   full:\nretry" 12
              = utf8Bytes ((collapsedText "disk   full:\nretry").take cut ++ ['…'])
            ∧ 1 ≤ cut ∧ (cut : Int) ≤ max 1 (12 - 1))
      ∧ wrapErrorSingleLine "disk   full:\nretry" 0 = [] := by
  refine ⟨by decide, ?_, (wrapErrorSingleLine_spec "disk   full:\nretry" 0).1 (by decide)⟩
  obtain ⟨cut, h1, h2, h3, _⟩ :=
    ((wrapErrorSingleLine_spec "disk   full:\nretry" 12).2.2.2.2
      (by decide) (by decide)).2 (by decide)
  exact ⟨cut, h1, h2, h3⟩

/-! ### Removing every workspace -/

/-- C27: with a stale directory `app` in the worktrees directory and a listing
that holds only the host repository at `/home/u/app` on `main`, the map has the
one entry of the host repository, whose path is not the scanned directory, and
`CleanupWorktrees` starts `git branch -D main`; when that deletion fails the
directory is still removed and the prune still runs. -/
theorem cleanup_deletes_host_branch :
    worktreeBranchesOf hostOnlyListing = [("/home/u/app", "main")]
      ∧ "/home/u/app" ≠ "/home/u/.claude-squad/worktrees" ++ "/" ++ "app"
      ∧ CleanupWorktrees (staleAppEnv (fun _ => none))
          = (none, [CleanupStep.branchDelete "main",
                CleanupStep.removeAll "/home/u/.claude-squad/worktrees/app",
                CleanupStep.prune])
      ∧ CleanupWorktrees (staleAppEnv (fun _ => some "exit status 1"))
          = (none, [CleanupStep.branchDelete "main",
                CleanupStep.logError "failed to delete branch main: exit status 1",
                CleanupStep.removeAll "/home/u/.claude-squad/worktrees/app",
                CleanupStep.prune]) := by
  decide

end ClaudeSquad
